import Mathlib

/-!
Verification development for the chronam batch ingestion pipeline
(src/chronam/web/batch_loader.py).

The Python module is shallowly embedded: the record store (Django ORM) is a
state record of lists, exceptions become an error sum type threaded through
an explicit state-passing style (every function returns the updated state
together with an Except result, so side effects performed before a raised
exception persist, exactly as in Python), and the external collaborators
(filesystem, XML parser, solr index, j2k probe, OCR extractor) are an
environment of functions.  Machine integers are Int/Nat (Python ints are
unbounded, so no wrap-around modelling is needed).
-/

/-- Python exception classes that the loader can raise or observe.
The constructors mirror the exception types that appear in
batch_loader.py: BatchLoaderException (a RuntimeError subclass), ValueError
(int() and strptime failures), KeyError (lxml attrib lookups), IndexError
(xpath(...)[0] on an empty result), Django DoesNotExist lookups,
AttributeError (self.solr when the loader was built with process_ocr=False),
TypeError (os.path.join on None) and IOError (file reads). -/
inductive PyErr where
  | batchLoaderErr (msg : String)
  | valueErr (msg : String)
  | keyErr (key : String)
  | indexErr
  | doesNotExist (model : String)
  | attributeErr (attr : String)
  | typeErr (msg : String)
  | ioErr (msg : String)
deriving Repr, DecidableEq

/-- The str(e) rendering used when the loader interpolates an exception into
an audit message ("unable to load batch: %s" / "purge failed: %s"). -/
def PyErr.pymsg : PyErr → String
  | .batchLoaderErr m => m
  | .valueErr m => m
  | .keyErr k => k
  | .indexErr => "list index out of range"
  | .doesNotExist model => model ++ " matching query does not exist."
  | .attributeErr a => "BatchLoader object has no attribute " ++ a
  | .typeErr m => m
  | .ioErr m => m

/-- A Python value that can land in a Django field: the jp2 width/length are
assigned either strings (from technical metadata text) or ints (from the
j2k probe), and truthiness of both matters in the source. -/
inductive PyVal where
  | str (s : String)
  | int (n : Int)
deriving Repr, DecidableEq

/-- Python truthiness of a value: empty string and zero are falsy. -/
def PyVal.truthy : PyVal → Bool
  | .str s => s ≠ ""
  | .int n => n ≠ 0

/-- Truthiness of an optional string (None and the empty string are falsy). -/
def truthyOptStr : Option String → Bool
  | none => false
  | some s => s ≠ ""

/-- Truthiness of an optional PyVal (an unset Django field is None). -/
def truthyOptVal : Option PyVal → Bool
  | none => false
  | some v => v.truthy

/-! ## String and path helpers (os.path on POSIX, Python 2 semantics) -/

/- The string helpers below are implemented by structural recursion over
the character list of the string (rather than through the Substring-based
core library functions) so that every definition evaluates by kernel
reduction on concrete inputs. -/

/-- Python str.rstrip for the single character / (used by
_normalize_batch_name to strip trailing path separators). -/
def rstripSlash (s : String) : String :=
  ⟨(s.toList.reverse.dropWhile (fun c => c = '/')).reverse⟩

/-- str.split(sep) on the character list, keeping empty fields (the
semantics of Python str.split with an explicit separator). -/
def splitOnCharList (sep : Char) : List Char → List (List Char)
  | [] => [[]]
  | c :: rest =>
    let r := splitOnCharList sep rest
    if c = sep then [] :: r
    else
      match r with
      | h :: t => (c :: h) :: t
      | [] => [[c]]

/-- str.split(sep) for a one-character separator. -/
def splitOnChar (sep : Char) (s : String) : List String :=
  (splitOnCharList sep s.toList).map (fun l => ⟨l⟩)

/-- Python ASCII whitespace (the character set stripped by str.strip()). -/
def isSpaceChar (c : Char) : Bool :=
  c = ' ' ∨ c = '\t' ∨ c = '\n' ∨ c = '\r' ∨ c = '\x0b' ∨ c = '\x0c'

/-- Python str.strip() with no argument. -/
def strTrim (s : String) : String :=
  ⟨((s.toList.dropWhile isSpaceChar).reverse.dropWhile isSpaceChar).reverse⟩

/-- String list joined with a separator (str.join). -/
def joinSep (sep : String) : List String → String
  | [] => ""
  | [x] => x
  | x :: rest => x ++ sep ++ joinSep sep rest

def strStartsWith (p s : String) : Bool := p.toList.isPrefixOf s.toList

def strEndsWith (p s : String) : Bool := p.toList.reverse.isPrefixOf s.toList.reverse

/-- os.path.basename: the component after the final slash. -/
def basename (s : String) : String :=
  (splitOnChar '/' s).getLastD ""

/-- os.path.dirname: everything before the final slash. -/
def dirname (s : String) : String :=
  joinSep "/" ((splitOnChar '/' s).dropLast)

/-- os.path.join for the two-argument POSIX case: an absolute second path
wins, otherwise the parts are glued with a single separator. -/
def pyJoin (a b : String) : String :=
  if strStartsWith "/" b then b
  else if a = "" then b
  else if strEndsWith "/" a then a ++ b
  else a ++ "/" ++ b

/-- os.path.normpath for POSIX paths (collapses duplicate separators and
dot segments; resolves dot-dot against earlier components). -/
def normPath (p : String) : String :=
  let isAbs := strStartsWith "/" p
  let comps := (splitOnChar '/' p).filter (fun c => c ≠ "" ∧ c ≠ ".")
  let folded := comps.foldl (fun acc c =>
    if c = ".." then
      match acc with
      | [] => if isAbs then [] else [".."]
      | last :: rest => if last = ".." then c :: acc else rest
    else c :: acc) []
  let body := joinSep "/" folded.reverse
  if isAbs then "/" ++ body
  else if body = "" then "." else body

/-- os.path.abspath, modelled for the absolute paths the loader actually
produces (the storage root is absolute, so join results are absolute and
abspath reduces to normpath). -/
def pyAbsPath (p : String) : String := normPath p

/-- Python str.lstrip for the character set "./" (used by
storage_relative_path). -/
def lstripDotSlash (s : String) : String :=
  ⟨s.toList.dropWhile (fun c => c = '.' ∨ c = '/')⟩

/-- One fuel-bounded step list of str.replace: scan left to right, replace
every occurrence of a nonempty pattern. -/
def replaceCore (pat sub : List Char) : Nat → List Char → List Char
  | _, [] => []
  | 0, l => l
  | fuel + 1, l =>
    if pat.isPrefixOf l ∧ pat ≠ [] then
      sub ++ replaceCore pat sub fuel (l.drop pat.length)
    else
      match l with
      | [] => []
      | c :: rest => c :: replaceCore pat sub fuel rest

/-- Python str.replace (all occurrences of a nonempty pattern; the loader
only ever replaces the batch root path, which is nonempty), as used by
storage_relative_path. -/
def pyReplace (s old new : String) : String :=
  ⟨replaceCore old.toList new.toList s.toList.length s.toList⟩

/-- Decimal digit characters of a Nat (str(n) in Python for n a Nat). -/
def natToStrAux : Nat → Nat → List Char
  | 0, _ => []
  | fuel + 1, n =>
    if n < 10 then [Char.ofNat (48 + n)]
    else natToStrAux fuel (n / 10) ++ [Char.ofNat (48 + n % 10)]

/-- str(n) for a natural number. -/
def natToStr (n : Nat) : String := ⟨natToStrAux (n + 1) n⟩

/-- Numeric value of a digit list. -/
def digitsVal (l : List Char) : Nat :=
  l.foldl (fun a c => a * 10 + (c.toNat - '0'.toNat)) 0

/-- Python 2 int(str): strips surrounding whitespace, accepts an optional
sign followed by one or more ASCII digits, raises ValueError otherwise. -/
def pyInt (s : String) : Except PyErr Int :=
  let t := strTrim s
  let chars := t.toList
  let signAndDigits : Int × List Char :=
    match chars with
    | '-' :: rest => (-1, rest)
    | '+' :: rest => (1, rest)
    | l => (1, l)
  if signAndDigits.2 ≠ [] ∧ signAndDigits.2.all Char.isDigit then
    .ok (signAndDigits.1 * (digitsVal signAndDigits.2 : Int))
  else
    .error (.valueErr ("invalid literal for int() with base 10: " ++ s))

/-- datetime.strptime(s, %Y-%m-%d), modelled at the precision the loader
needs: three dash-separated ASCII digit groups (year up to four digits,
month and day up to two, in calendar range), ValueError otherwise. -/
def parseDateYMD (s : String) : Except PyErr (Nat × Nat × Nat) :=
  match splitOnChar '-' s with
  | [y, m, d] =>
    if y ≠ "" ∧ y.toList.all Char.isDigit ∧ y.toList.length ≤ 4 ∧
       m ≠ "" ∧ m.toList.all Char.isDigit ∧ m.toList.length ≤ 2 ∧
       d ≠ "" ∧ d.toList.all Char.isDigit ∧ d.toList.length ≤ 2 ∧
       1 ≤ digitsVal m.toList ∧ digitsVal m.toList ≤ 12 ∧
       1 ≤ digitsVal d.toList ∧ digitsVal d.toList ≤ 31 then
      .ok (digitsVal y.toList, digitsVal m.toList, digitsVal d.toList)
    else
      .error (.valueErr ("time data " ++ s ++ " does not match format %Y-%m-%d"))
  | _ => .error (.valueErr ("time data " ++ s ++ " does not match format %Y-%m-%d"))

/-! ## The regex of _normalize_batch_name

re.match(r"batch_\w+_\w+_ver\d\d", name) in Python 2: an anchored-at-start
(prefix, not full) match, with \w the ASCII word characters. -/

/-- ASCII word character, as matched by \w in Python 2 re without
re.UNICODE. -/
def isWordChar (c : Char) : Bool := c.isAlpha || c.isDigit || c = '_'

/-- Matches the literal v e r followed by two digits at the head of the
list (anything may follow: re.match is a prefix match). -/
def matchVerDD : List Char → Bool
  | c1 :: c2 :: c3 :: d1 :: d2 :: _ =>
    c1 = 'v' && c2 = 'e' && c3 = 'r' && d1.isDigit && d2.isDigit
  | _ => false

/-- Backtracking matcher for the fragment \w+ underscore K at the head of
the list: n counts word characters consumed so far. -/
def matchSeg (K : List Char → Bool) : Nat → List Char → Bool
  | _, [] => false
  | n, c :: rest =>
    (c = '_' && n ≠ 0 && K rest) || (isWordChar c && matchSeg K (n + 1) rest)

/-- re.match(r"batch_\w+_\w+_ver\d\d", s) as a Bool: the literal batch_
prefix, then the first token, an underscore, the second token, then the
literal _ver and two digits (arbitrary characters may follow, since
re.match only anchors at the start). -/
def reMatchBatchName (s : String) : Bool :=
  (['b', 'a', 't', 'c', 'h', '_'].isPrefixOf s.toList) &&
    matchSeg (matchSeg matchVerDD 0) 0 (s.toList.drop 6)

/-- A nonempty string of ASCII word characters (a token of the batch name
pattern). -/
def IsWordStr (w : List Char) : Prop := w ≠ [] ∧ ∀ c ∈ w, isWordChar c

/-- Declarative reading of a PREFIX match of batch_<token>_<token>_ver<2
digits>: the string starts with the pattern and arbitrary characters may
follow the two digits.  This is what re.match accepts. -/
def BatchNamePrefixPattern (s : String) : Prop :=
  ∃ w1 w2 d1 d2 rest, IsWordStr w1 ∧ IsWordStr w2 ∧ d1.isDigit ∧ d2.isDigit ∧
    s.toList = ['b', 'a', 't', 'c', 'h', '_'] ++ w1 ++ ['_'] ++ w2 ++
      ['_', 'v', 'e', 'r'] ++ [d1, d2] ++ rest

/-- Modelled from the spec: the pattern batch_<token>_<token>_ver<2 digits>
read as a FULL match of the whole name, which is the natural reading of
section 4.1 of the spec (nothing may follow the two digits). -/
def BatchNameFullPattern (s : String) : Prop :=
  ∃ w1 w2 d1 d2, IsWordStr w1 ∧ IsWordStr w2 ∧ d1.isDigit ∧ d2.isDigit ∧
    s.toList = ['b', 'a', 't', 'c', 'h', '_'] ++ w1 ++ ['_'] ++ w2 ++
      ['_', 'v', 'e', 'r'] ++ [d1, d2]

/-! ## Store records (the Django models, as plain records)

The model classes themselves live in chronam/web/models.py, which is not
part of the sources here; the record shapes below carry exactly the fields
batch_loader.py reads or writes, plus integer surrogate ids for the
foreign keys. -/

/-- A Batch record: identity is the normalized batch name. -/
structure BatchRec where
  name : String
  awardee : String
deriving Repr, DecidableEq

/-- A Reel record: (number, batch) identified, may be implicit when created
from page metadata rather than from the batch manifest. -/
structure ReelRec where
  id : Nat
  number : String
  batch : String
  implicit : Bool
deriving Repr, DecidableEq

/-- An Issue record. -/
structure IssueRec where
  id : Nat
  volume : String
  number : String
  edition : Int
  editionLabel : String
  dateIssued : String
  titleLccn : String
  batch : String
deriving Repr, DecidableEq

/-- An issue- or page-level note (type / display label / text), owned by the
record whose id is ownerId. -/
structure NoteRec where
  ownerId : Nat
  type : String
  label : String
  text : String
deriving Repr, DecidableEq

/-- A Page record.  File references and dimensions start unset (None). -/
structure PageRec where
  id : Nat
  issueId : Nat
  sequence : Int
  number : String := ""
  reelId : Option Nat := none
  sectionLabel : Option String := none
  tiffFilename : Option String := none
  jp2Filename : Option String := none
  pdfFilename : Option String := none
  ocrFilename : Option String := none
  jp2Width : Option PyVal := none
  jp2Length : Option PyVal := none
  ocrId : Option Nat := none
  indexed : Bool := false
deriving Repr, DecidableEq

/-- An OCR record, one per processed page. -/
structure OCRRec where
  id : Nat
  pageId : Nat
  text : String
  wordCoordinates : String
deriving Repr, DecidableEq

/-- A LoadBatchEvent audit record (append-only). -/
structure EventRec where
  batchName : String
  message : String
deriving Repr, DecidableEq

/-- Modelled from the spec: the page-level search document submitted to the
index carries the owning batch name, so that purge can retract by the
query batch:"name" (spec sections 4.7, 4.8, 6; the solr_doc property lives
in models.py, which is not part of the sources here). -/
structure SolrDoc where
  pageId : Nat
  batch : String
deriving Repr, DecidableEq

/-- Observable external operations, recorded as a trace so that ordering
properties (purge order, fallback invocation) can be stated. -/
inductive Op where
  | delPage (pid : Nat)
  | delIssue (iid : Nat)
  | delBatch (name : String)
  | solrDeleteQuery (q : String)
  | solrCommit
  | solrAdd (pageId : Nat)
  | j2kCall (path : String)
deriving Repr, DecidableEq

/-- The record store.  nextId is the surrogate-key allocator; titles and
awardees are the pre-existing reference entities (keyed by lccn and org
code), never written by the loader. -/
structure DB where
  nextId : Nat
  batches : List BatchRec
  reels : List ReelRec
  issues : List IssueRec
  pages : List PageRec
  issueNotes : List NoteRec
  pageNotes : List NoteRec
  ocrs : List OCRRec
  titles : List String
  awardees : List String
  events : List EventRec
  solrDocs : List SolrDoc
deriving Repr, DecidableEq

/-- The loader state: the store plus the BatchLoader object state
(issues_processed / pages_processed counters, current_batch) and the trace
of external operations. -/
structure S where
  db : DB
  issuesProcessed : Nat
  pagesProcessed : Nat
  currentBatch : String
  trace : List Op
deriving Repr, DecidableEq

/-- Loader configuration fixed at BatchLoader construction: the storage
root (already absolute) and the PROCESS_OCR flag.  self.solr exists only
when processOcr is true, mirroring BatchLoader init. -/
structure Cfg where
  storage : String
  processOcr : Bool
deriving Repr, DecidableEq

/-! ## State helpers (each mirrors one kind of store write) -/

def S.pushEvent (s : S) (name msg : String) : S :=
  { s with db := { s.db with events := s.db.events ++ [{ batchName := name, message := msg }] } }

def S.pushOp (s : S) (o : Op) : S :=
  { s with trace := s.trace ++ [o] }

def S.freshId (s : S) : Nat × S :=
  (s.db.nextId, { s with db := { s.db with nextId := s.db.nextId + 1 } })

def S.addReel (s : S) (r : ReelRec) : S :=
  { s with db := { s.db with reels := s.db.reels ++ [r] } }

def S.addIssue (s : S) (i : IssueRec) : S :=
  { s with db := { s.db with issues := s.db.issues ++ [i] } }

/-- issue.save() on an already persisted issue: replace by id. -/
def S.updateIssue (s : S) (i : IssueRec) : S :=
  { s with db := { s.db with issues := s.db.issues.map (fun j => if j.id = i.id then i else j) } }

def S.addPage (s : S) (p : PageRec) : S :=
  { s with db := { s.db with pages := s.db.pages ++ [p] } }

/-- page.save() on an already persisted page: replace by id. -/
def S.updatePage (s : S) (p : PageRec) : S :=
  { s with db := { s.db with pages := s.db.pages.map (fun q => if q.id = p.id then p else q) } }

def S.addIssueNotes (s : S) (l : List NoteRec) : S :=
  { s with db := { s.db with issueNotes := s.db.issueNotes ++ l } }

def S.addPageNotes (s : S) (l : List NoteRec) : S :=
  { s with db := { s.db with pageNotes := s.db.pageNotes ++ l } }

def S.addOcr (s : S) (o : OCRRec) : S :=
  { s with db := { s.db with ocrs := s.db.ocrs ++ [o] } }

def S.addSolrDoc (s : S) (d : SolrDoc) : S :=
  { s with db := { s.db with solrDocs := s.db.solrDocs ++ [d] } }

/-- batch.save(): upsert by name. -/
def S.saveBatchRec (s : S) (b : BatchRec) : S :=
  if s.db.batches.any (fun x => x.name == b.name) then
    { s with db := { s.db with batches := s.db.batches.map (fun x => if x.name = b.name then b else x) } }
  else
    { s with db := { s.db with batches := s.db.batches ++ [b] } }

/-- Modelled from the spec: page.delete() cascades to the page notes and the
OCR record of the page (spec section 3: Page 0/1-1 OCR, notes owned by the
page; the Django models with their cascading delete are in models.py,
which is not part of the sources here). -/
def S.deletePageRec (s : S) (pid : Nat) : S :=
  { s with db := { s.db with
      pages := s.db.pages.filter (fun q => q.id ≠ pid),
      pageNotes := s.db.pageNotes.filter (fun n => n.ownerId ≠ pid),
      ocrs := s.db.ocrs.filter (fun o => o.pageId ≠ pid) } }

/-- Modelled from the spec: issue.delete() cascades to the issue notes
(spec section 3; models.py is not part of the sources here). -/
def S.deleteIssueRec (s : S) (iid : Nat) : S :=
  { s with db := { s.db with
      issues := s.db.issues.filter (fun i => i.id ≠ iid),
      issueNotes := s.db.issueNotes.filter (fun n => n.ownerId ≠ iid) } }

/-- Modelled from the spec: batch.delete() cascades to the reels of the
batch (spec section 3: Batch 1-N Reel; models.py is not part of the
sources here).  Events are an append-only audit trail and are not owned by
the batch record. -/
def S.deleteBatchRec (s : S) (name : String) : S :=
  { s with db := { s.db with
      batches := s.db.batches.filter (fun b => b.name ≠ name),
      reels := s.db.reels.filter (fun r => r.batch ≠ name) } }

def S.bumpIssues (s : S) : S := { s with issuesProcessed := s.issuesProcessed + 1 }

def S.bumpPages (s : S) : S := { s with pagesProcessed := s.pagesProcessed + 1 }

/-! ## Parsed XML documents

The loader reads two document shapes: the batch manifest (reel and issue
elements) and the per-issue METS file.  The fields below carry exactly the
values the xpath expressions of batch_loader.py extract; an attribute
lookup that can raise KeyError is an Option, an xpath(...)[0] that can
raise IndexError is a lookup list, and a string(...) xpath is a total
String (it returns the empty string when the node is absent). -/

/-- A mods:note element (type / displayLabel / text). -/
structure ModsNote where
  type : String
  label : String
  text : String
deriving Repr, DecidableEq

/-- The descriptive metadata subtree inside one dmdSec, carrying every
string() field the issue- and page-level xpaths of batch_loader.py can
extract (a missing node yields the empty string). -/
structure Mods where
  volume : String := ""
  number : String := ""
  editionStr : String := ""
  editionCaption : String := ""
  dateIssued : String := ""
  lccn : String := ""
  extentStart : String := ""
  pageNumber : String := ""
  reelNumber : String := ""
  sectionLabelNum : String := ""
  notes : List ModsNote := []
deriving Repr, DecidableEq

/-- A mix technical-metadata section: the ImageLength / ImageWidth elements
may be absent (outer none) and a present element may have empty text
(inner Option mirrors lxml .text, which is None for an empty element). -/
structure TechMD where
  lengthEl : Option (Option String)
  widthEl : Option (Option String)
deriving Repr, DecidableEq

/-- A mets:file entry: the USE and ADMID attributes may be absent (attrib
lookup raises KeyError), the FLocat href is a string() xpath. -/
structure FileEl where
  use : Option String
  href : String
  admid : Option String
deriving Repr, DecidableEq

/-- A page structural division: DMDID attribute (may be absent), the
string() xpath for the ancestor section DMDID (empty when no ancestor
section), and the FILEID attributes of its file pointers (each may be
absent). -/
structure PageDiv where
  dmdid : Option String
  sectionDmdid : String
  fptrs : List (Option String)
deriving Repr, DecidableEq

/-- The issue structural division: DMDID attribute and the nested page
divisions. -/
structure IssueDiv where
  dmdid : Option String
  pageDivs : List PageDiv
deriving Repr, DecidableEq

/-- A parsed issue METS document: its URL (docinfo.URL), the first division
of type np:issue if any (xpath(...)[0] raises IndexError when the list is
empty), and the id-indexed dmdSec, file and techMD tables. -/
structure Doc where
  url : String
  issueDiv : Option IssueDiv
  dmdSecs : List (String × Mods)
  fileEls : List (String × FileEl)
  techMDs : List (String × TechMD)
deriving Repr, DecidableEq

/-- A parsed batch manifest: reelNumber attributes of the ndnp:reel
elements (absent attribute raises KeyError) and the text content of the
ndnp:issue elements (an empty element has text None, which makes
os.path.join raise TypeError). -/
structure BatchXml where
  reels : List (Option String)
  issues : List (Option String)
deriving Repr, DecidableEq

/-- The external collaborators: filesystem probes, the XML parser for the
two document shapes, the j2k dimension probe and the OCR extractor.  Each
parse or probe may fail with the corresponding Python exception. -/
structure Env where
  pathExists : String → Bool
  parseBatchXml : String → Except PyErr BatchXml
  parseIssue : String → Except PyErr Doc
  j2kDims : String → Except PyErr (Int × Int)
  ocrExtract : String → Except PyErr (String × String)

/-! ## The pure helpers of batch_loader.py -/

/-- dmd_mods(doc, dmdid): the mods subtree of the dmdSec with the given id;
doc.xpath(...)[0] raises IndexError when there is none. -/
def dmd_mods (doc : Doc) (dmdid : String) : Except PyErr Mods :=
  match doc.dmdSecs.find? (fun kv => kv.1 == dmdid) with
  | some kv => .ok kv.2
  | none => .error .indexErr

/-- get_dimensions(doc, admid): the (length, width) element texts from the
techMD with the given admid, or (None, None) when either element list is
empty. -/
def get_dimensions (doc : Doc) (admid : String) : Option String × Option String :=
  match doc.techMDs.find? (fun kv => kv.1 == admid) with
  | none => (none, none)
  | some kv =>
    match kv.2.lengthEl, kv.2.widthEl with
    | some lt, some wt => (lt, wt)
    | _, _ => (none, none)

/-- The manifest filename aliases probed by _find_batch_file, in priority
order (batch.xml deliberately last, per the comment in the source). -/
def batchAliases : List String :=
  ["batch_1.xml", "BATCH_1.xml", "batchfile_1.xml", "batch_2.xml", "BATCH_2.xml", "batch.xml"]

/-- _find_batch_file: returns the first alias that exists under the batch
path.  The Python loop carries a dead in-loop default assignment
(validated_batch_file = batch.xml), but the for/else clause raises when no
alias matched, so the default is never returned: when none of the aliases
(including batch.xml itself) exists, the locator raises. -/
def find_batch_file (env : Env) (batchPath : String) : Except PyErr String :=
  match batchAliases.find? (fun a => env.pathExists (pyJoin batchPath a)) with
  | some a => .ok a
  | none => .error (.batchLoaderErr
      ("could not find batch_1.xml (or any of its aliases) in " ++ batchPath ++
        "--has the batch been validated?"))

/-- _sanity_check_batch: the batch root must exist, then the manifest is
located. -/
def sanity_check_batch (env : Env) (batchPath : String) : Except PyErr String :=
  if env.pathExists batchPath then find_batch_file env batchPath
  else .error (.batchLoaderErr ("batch does not exist at " ++ batchPath))

/-- _normalize_batch_name: strip trailing slashes, take the final path
segment, then re.match it against batch_\w+_\w+_ver\d\d (a prefix match). -/
def normalize_batch_name (batch_name : String) : Except PyErr String :=
  let b := basename (rstripSlash batch_name)
  if reMatchBatchName b then .ok b
  else .error (.batchLoaderErr ("unrecognized format for batch name " ++ b))

/-- Modelled from the spec: batch.path resolves the batch root against the
configured storage root (spec section 6; the path property lives in
models.py, which is not part of the sources here). -/
def batchDirPath (cfg : Cfg) (name : String) : String :=
  pyJoin cfg.storage name

/-- storage_relative_path: absolute path, strip the batch root prefix,
strip leading dots and slashes. -/
def storage_relative_path (cfg : Cfg) (curBatch : String) (path : String) : String :=
  lstripDotSlash (pyReplace (pyAbsPath path) (batchDirPath cfg curBatch) "")

/-! ## The page loader -/

/-- The ADMID loop of _load_page: try get_dimensions for each admid, stop
at the first pair whose length and width are both truthy (lxml text None
and the empty string are falsy). -/
def findDims (doc : Doc) : List String → Option (String × String)
  | [] => none
  | a :: rest =>
    match get_dimensions doc a with
    | (some l, some w) => if l ≠ "" ∧ w ≠ "" then some (l, w) else findDims doc rest
    | _ => findDims doc rest

/-- The two checks after the dimension try/except in _load_page: a falsy
jp2 width or length is a BatchLoaderException. -/
def jp2Checks (page : PageRec) : Except PyErr PageRec :=
  if ¬ truthyOptVal page.jp2Width then
    .error (.batchLoaderErr "No jp2 width")
  else if ¬ truthyOptVal page.jp2Length then
    .error (.batchLoaderErr "No jp2 length")
  else .ok page

/-- Lines 332-349 of batch_loader.py: the service-file dimension logic.
When the file entry has an ADMID attribute, each admid is tried in order
and the first truthy (length, width) pair is taken; no direct image
inspection happens on this path, even when no pair was found.  Only when
the ADMID attribute itself is missing (KeyError) does the loader fall back
to j2k.dimensions on the jp2 file.  Afterwards a falsy width or length is
a BatchLoaderException. -/
def resolveJp2Dims (cfg : Cfg) (env : Env) (doc : Doc) (file_el : FileEl)
    (page : PageRec) (s : S) : S × Except PyErr PageRec :=
  match file_el.admid with
  | some admids =>
    let page1 :=
      match findDims doc (splitOnChar ' ' admids) with
      | some lw => { page with jp2Width := some (.str lw.2), jp2Length := some (.str lw.1) }
      | none => page
    (s, jp2Checks page1)
  | none =>
    let path := pyJoin cfg.storage ((page.jp2Filename).getD "")
    let s1 := s.pushOp (.j2kCall path)
    match env.j2kDims path with
    | .error e => (s1, .error e)
    | .ok wl =>
      (s1, jp2Checks { page with jp2Width := some (.int wl.1), jp2Length := some (.int wl.2) })

/-- One iteration of the fptr loop of _load_page: FILEID attribute, file
table lookup, USE attribute, filename resolution, then the per-use-class
field assignment (service also resolves dimensions). -/
def processFptr (cfg : Cfg) (env : Env) (doc : Doc) (fptr : Option String)
    (page : PageRec) (s : S) : S × Except PyErr PageRec :=
  match fptr with
  | none => (s, .error (.keyErr "FILEID"))
  | some file_id =>
    match doc.fileEls.find? (fun kv => kv.1 == file_id) with
    | none => (s, .error .indexErr)
    | some kv =>
      match kv.2.use with
      | none => (s, .error (.keyErr "USE"))
      | some file_type =>
        let file_name := storage_relative_path cfg s.currentBatch
          (pyJoin (dirname doc.url) kv.2.href)
        if file_type = "master" then (s, .ok { page with tiffFilename := some file_name })
        else if file_type = "service" then
          resolveJp2Dims cfg env doc kv.2 { page with jp2Filename := some file_name } s
        else if file_type = "derivative" then (s, .ok { page with pdfFilename := some file_name })
        else if file_type = "ocr" then (s, .ok { page with ocrFilename := some file_name })
        else (s, .ok page)

/-- The fptr loop of _load_page. -/
def processFptrs (cfg : Cfg) (env : Env) (doc : Doc) :
    List (Option String) → PageRec → S → S × Except PyErr PageRec
  | [], page, s => (s, .ok page)
  | f :: rest, page, s =>
    match processFptr cfg env doc f page s with
    | (s1, .ok page1) => processFptrs cfg env doc rest page1 s1
    | (s1, .error e) => (s1, .error e)

/-- process_ocr: extract text and word coordinates, persist the OCR record,
link it to the page, submit the search document (index defaults to True at
the call site), mark the page indexed and re-save it. -/
def process_ocr (cfg : Cfg) (env : Env) (page : PageRec) (s : S) : S × Except PyErr PageRec :=
  match env.ocrExtract (pyJoin cfg.storage ((page.ocrFilename).getD "")) with
  | .error e => (s, .error e)
  | .ok tc =>
    let oidS := s.freshId
    let s2 := oidS.2.addOcr { id := oidS.1, pageId := page.id, text := tc.1, wordCoordinates := tc.2 }
    let page1 := { page with ocrId := some oidS.1 }
    let s3 := (s2.addSolrDoc { pageId := page1.id, batch := s.currentBatch }).pushOp (.solrAdd page1.id)
    let page2 := { page1 with indexed := true }
    (s3.updatePage page2, .ok page2)

/-- Lines 355-361 of _load_page: run process_ocr when an OCR file was
found and the loader is set up for OCR processing; otherwise only log. -/
def pageOcrStep (cfg : Cfg) (env : Env) (page4 : PageRec) (s5 : S) :
    S × Except PyErr PageRec :=
  if truthyOptStr page4.ocrFilename then
    (if cfg.processOcr then process_ocr cfg env page4 s5 else (s5, .ok page4))
  else (s5, .ok page4)

/-- Lines 260-277 of _load_page: resolve the reel by (number, current
batch); when absent and a reel number is present, create and persist an
implicit reel; otherwise log a warning and leave the page without a reel
reference.  Returns the reel id to attach (if any) and the state. -/
def reelStep (reel_number : String) (s : S) : Option Nat × S :=
  match s.db.reels.find? (fun r => r.number == reel_number && r.batch == s.currentBatch) with
  | some reel => (some reel.id, s)
  | none =>
    if reel_number ≠ "" then
      let ridS := s.freshId
      (some ridS.1,
       ridS.2.addReel { id := ridS.1, number := reel_number, batch := s.currentBatch, implicit := true })
    else (none, s)

/-- Lines 280-289 of _load_page: the optional section label, looked up
through the ancestor section division DMDID (the dmd_mods lookup can raise
IndexError). -/
def sectStep (doc : Doc) (div : PageDiv) : Except PyErr (Option String) :=
  if div.sectionDmdid ≠ "" then
    match dmd_mods doc div.sectionDmdid with
    | .error e => .error e
    | .ok smods =>
      let lbl := strTrim smods.sectionLabelNum
      .ok (if lbl ≠ "" then some lbl else none)
  else .ok none

/-- Lines 291-365 of _load_page: attach the issue, first page.save()
(allocating the page id), persist the notes (the reverse-descriptor
assignment saves them), run the fptr loop, run the OCR step, and final
page.save(). -/
def pageSaveTail (cfg : Cfg) (env : Env) (doc : Doc) (div : PageDiv) (mods : Mods)
    (page2 : PageRec) (sR : S) : S × Except PyErr PageRec :=
  let pidSA := sR.freshId
  let page3 := { page2 with id := pidSA.1 }
  let s3 := pidSA.2.addPage page3
  let noteRecs := mods.notes.map (fun n =>
    ({ ownerId := pidSA.1, type := n.type, label := n.label, text := strTrim n.text } : NoteRec))
  let s4 := s3.addPageNotes noteRecs
  match processFptrs cfg env doc div.fptrs page3 s4 with
  | (s5, .error e) => (s5, .error e)
  | (s5, .ok page4) =>
  match pageOcrStep cfg env page4 s5 with
  | (s6, .error e) => (s6, .error e)
  | (s6, .ok page5) =>
  (s6.updatePage page5, .ok page5)

/-- _load_page: descriptive metadata lookup, sequence number (ValueError
becomes a BatchLoaderException), page number, reel resolution (find, else
create an implicit reel when a reel number is present, else proceed with a
warning), section label, first page.save(), notes (persisted by the
reverse-descriptor assignment), the fptr loop, OCR processing when an OCR
file was found and PROCESS_OCR is set, and the final page.save(). -/
def load_page (cfg : Cfg) (env : Env) (doc : Doc) (div : PageDiv)
    (issue : IssueRec) (s : S) : S × Except PyErr PageRec :=
  match div.dmdid with
  | none => (s, .error (.keyErr "DMDID"))
  | some dmdid =>
  match dmd_mods doc dmdid with
  | .error e => (s, .error e)
  | .ok mods =>
  match pyInt mods.extentStart with
  | .error _ => (s, .error (.batchLoaderErr
      ("could not determine sequence number for page from " ++ mods.extentStart)))
  | .ok seq =>
  let page0 : PageRec := { id := 0, issueId := 0, sequence := seq, number := strTrim mods.pageNumber }
  let pg1 := reelStep (strTrim mods.reelNumber) s
  let page1 := { page0 with reelId := pg1.1 }
  match sectStep doc div with
  | .error e => (pg1.2, .error e)
  | .ok sl =>
  let page2 := { page1 with sectionLabel := sl, issueId := issue.id }
  pageSaveTail cfg env doc div mods page2 pg1.2

/-! ## The issue loader -/

/-- Lines 184-213 of _load_issue: the pure issue-level extraction that
precedes the first issue.save().  Locates the np:issue division and its
mods, parses the edition as an int (ValueError propagates), parses the
issue date (ValueError propagates), and resolves the owning Title by lccn
(Title.DoesNotExist propagates).  No store write happens in this phase. -/
def parseIssueFields (db : DB) (doc : Doc) :
    Except PyErr (IssueDiv × Mods × Int × String) :=
  match doc.issueDiv with
  | none => .error .indexErr
  | some div =>
  match div.dmdid with
  | none => .error (.keyErr "DMDID")
  | some dmdid =>
  match dmd_mods doc dmdid with
  | .error e => .error e
  | .ok mods =>
  match pyInt mods.editionStr with
  | .error e => .error e
  | .ok edition =>
  match parseDateYMD mods.dateIssued with
  | .error e => .error e
  | .ok _ =>
  let lccn := strTrim mods.lccn
  if db.titles.contains lccn then .ok (div, mods, edition, lccn)
  else .error (.doesNotExist "Title")

/-- The page loop of _load_issue: each page division is loaded; a
BatchLoaderException is logged and skipped; any other exception propagates
and aborts the loop; the finally clause increments pages_processed on
every iteration, including failed and skipped ones. -/
def loadPages (cfg : Cfg) (env : Env) (doc : Doc) (issue : IssueRec) :
    List PageDiv → S → S × Except PyErr Unit
  | [], s => (s, .ok ())
  | d :: rest, s =>
    let r := load_page cfg env doc d issue s
    let s2 := r.1.bumpPages
    match r.2 with
    | .ok _ => loadPages cfg env doc issue rest s2
    | .error (.batchLoaderErr _) => loadPages cfg env doc issue rest s2
    | .error e => (s2, .error e)

/-- _load_issue: parse the METS file, extract the issue fields (failures
propagate with no store write), save the issue, persist its notes, save it
again, then run the page loop.  The issue record is returned even though
page-level BatchLoaderExceptions may have been skipped. -/
def load_issue (cfg : Cfg) (env : Env) (mets_file : String) (s : S) :
    S × Except PyErr IssueRec :=
  match env.parseIssue mets_file with
  | .error e => (s, .error e)
  | .ok doc =>
  match parseIssueFields s.db doc with
  | .error e => (s, .error e)
  | .ok r =>
  let issue0 : IssueRec :=
    { id := 0, volume := strTrim r.2.1.volume, number := strTrim r.2.1.number,
      edition := r.2.2.1, editionLabel := strTrim r.2.1.editionCaption,
      dateIssued := r.2.1.dateIssued, titleLccn := r.2.2.2, batch := s.currentBatch }
  let iidS := s.freshId
  let issue1 := { issue0 with id := iidS.1 }
  let s2 := iidS.2.addIssue issue1
  let noteRecs := r.2.1.notes.map (fun n =>
    ({ ownerId := iidS.1, type := n.type, label := n.label, text := n.text } : NoteRec))
  let s3 := (s2.addIssueNotes noteRecs).updateIssue issue1
  match loadPages cfg env doc issue1 r.1.pageDivs s3 with
  | (s5, .error e) => (s5, .error e)
  | (s5, .ok _) => (s5, .ok issue1)

/-! ## The batch orchestrator -/

/-- _create_batch: duplicate-name check, awardee resolution from the second
underscore-delimited segment of the name (unpacking split("_", 3) needs at
least four parts), then batch.save(). -/
def create_batch (name : String) (s : S) : S × Except PyErr BatchRec :=
  if s.db.batches.any (fun b => b.name == name) then
    (s, .error (.batchLoaderErr ("batch " ++ name ++ " already loaded")))
  else
    match splitOnChar '_' name with
    | _ :: org_code :: _ :: _ :: _ =>
      if s.db.awardees.contains org_code then
        let b : BatchRec := { name := basename name, awardee := org_code }
        (s.saveBatchRec b, .ok b)
      else (s, .error (.batchLoaderErr ("no awardee for org code: " ++ org_code)))
    | _ => (s, .error (.valueErr "need more than 1 value to unpack"))

/-- The reel loop of load_batch: find-or-create each manifest-declared reel
(explicit reels are created with implicit=False). -/
def loadReels (name : String) : List (Option String) → S → S × Except PyErr Unit
  | [], s => (s, .ok ())
  | none :: _, s => (s, .error (.keyErr "reelNumber"))
  | some rn :: rest, s =>
    let rnT := strTrim rn
    match s.db.reels.find? (fun r => r.number == rnT && r.batch == name) with
    | some _ => loadReels name rest s
    | none =>
      let ridS := s.freshId
      loadReels name rest
        (ridS.2.addReel { id := ridS.1, number := rnT, batch := name, implicit := false })

/-- The issue loop of load_batch: each issue METS path is resolved against
the batch root and loaded; a ValueError is logged and the loop continues
with the remaining issues; any other exception propagates; on success
issues_processed is incremented. -/
def loadIssues (cfg : Cfg) (env : Env) (batchPath : String) :
    List (Option String) → S → S × Except PyErr Unit
  | [], s => (s, .ok ())
  | none :: _, s => (s, .error (.typeErr "cannot concatenate str and NoneType objects"))
  | some t :: rest, s =>
    let mets_file := normPath (pyJoin batchPath t)
    let r := load_issue cfg env mets_file s
    match r.2 with
    | .error (.valueErr _) => loadIssues cfg env batchPath rest r.1
    | .error e => (r.1, .error e)
    | .ok _ => loadIssues cfg env batchPath rest r.1.bumpIssues

/-- The try-block body of load_batch: create the batch record, sanity-check
the layout, stash current_batch, parse the manifest, run the reel and
issue loops, commit the index when PROCESS_OCR is set, re-save the batch
and log the completion event. -/
def loadBatchBody (cfg : Cfg) (env : Env) (name : String) (s : S) :
    S × Except PyErr BatchRec :=
  match create_batch name s with
  | (s1, .error e) => (s1, .error e)
  | (s1, .ok batch) =>
  let bpath := batchDirPath cfg name
  match sanity_check_batch env bpath with
  | .error e => (s1, .error e)
  | .ok vfile =>
  let s2 := { s1 with currentBatch := name }
  match env.parseBatchXml (pyJoin bpath vfile) with
  | .error e => (s2, .error e)
  | .ok doc =>
  match loadReels name doc.reels s2 with
  | (s3, .error e) => (s3, .error e)
  | (s3, .ok _) =>
  match loadIssues cfg env bpath doc.issues s3 with
  | (s4, .error e) => (s4, .error e)
  | (s4, .ok _) =>
  let s5 := if cfg.processOcr then s4.pushOp .solrCommit else s4
  let s6 := s5.saveBatchRec batch
  let s7 := s6.pushEvent name ("processed " ++ natToStr s6.issuesProcessed ++ " issues")
  (s7, .ok batch)

/-- load_batch: normalize the name (an invalid name raises before any event
is written), take the no-op fast path when strict is False and the batch
already exists, otherwise write the starting-load event and run the body;
any failure of the body is wrapped into a BatchLoaderException after the
failure event is written. -/
def load_batch (cfg : Cfg) (env : Env) (batch_name : String) (strict : Bool)
    (s : S) : S × Except PyErr BatchRec :=
  match normalize_batch_name batch_name with
  | .error e => (s, .error e)
  | .ok name =>
  match (if strict then none else s.db.batches.find? (fun b => b.name == name)) with
  | some b => (s, .ok b)
  | none =>
  let s0 := s.pushEvent name "starting load"
  match loadBatchBody cfg env name s0 with
  | (s1, .ok b) => (s1, .ok b)
  | (s1, .error e) =>
    let msg := "unable to load batch: " ++ e.pymsg
    (s1.pushEvent name msg, .error (.batchLoaderErr msg))

/-! ## Purge -/

/-- The page deletion loop of _purge_batch over a snapshot of the pages of
one issue. -/
def purgePages : List PageRec → S → S
  | [], s => s
  | p :: rest, s => purgePages rest ((s.deletePageRec p.id).pushOp (.delPage p.id))

/-- The issue loop of _purge_batch over the snapshot of the issues of the
batch: each issue has its pages (snapshot taken from the current store)
deleted one by one, then the issue itself is deleted. -/
def purgeIssues : List IssueRec → S → S
  | [], s => s
  | i :: rest, s =>
    let ps := s.db.pages.filter (fun p => p.issueId == i.id)
    let s1 := purgePages ps s
    purgeIssues rest ((s1.deleteIssueRec i.id).pushOp (.delIssue i.id))

/-- _purge_batch: delete the pages of each issue, then the issue, then the
batch record, then retract the indexed documents by batch query and commit
the index.  self.solr exists only when the loader was built with
process_ocr (AttributeError otherwise, raised after the store deletions
already happened). -/
def purge_batch_impl (cfg : Cfg) (batch : BatchRec) (s : S) : S × Except PyErr Unit :=
  let s1 := purgeIssues (s.db.issues.filter (fun i => i.batch == batch.name)) s
  let s2 := (s1.deleteBatchRec batch.name).pushOp (.delBatch batch.name)
  if cfg.processOcr then
    let q := "batch:\"" ++ batch.name ++ "\""
    let s3 := { s2 with db := { s2.db with
        solrDocs := s2.db.solrDocs.filter (fun d => d.batch ≠ batch.name) } }
    ((s3.pushOp (.solrDeleteQuery q)).pushOp .solrCommit, .ok ())
  else (s2, .error (.attributeErr "solr"))

/-- purge_batch: write the starting-purge event, look the batch up (the
name is not normalized here), run _purge_batch, and write the purged event
on success; any exception is wrapped into a BatchLoaderException after the
failure event is written. -/
def purge_batch (cfg : Cfg) (batch_name : String) (s : S) : S × Except PyErr Unit :=
  let s0 := s.pushEvent batch_name "starting purge"
  match s0.db.batches.find? (fun b => b.name == batch_name) with
  | none =>
    let msg := "purge failed: " ++ (PyErr.doesNotExist "Batch").pymsg
    (s0.pushEvent batch_name msg, .error (.batchLoaderErr msg))
  | some batch =>
    match purge_batch_impl cfg batch s0 with
    | (s1, .ok _) => (s1.pushEvent batch_name "purged", .ok ())
    | (s1, .error e) =>
      let msg := "purge failed: " ++ e.pymsg
      (s1.pushEvent batch_name msg, .error (.batchLoaderErr msg))

/-- The external-operation trace a purge of the given batch emits, read off
the store at purge time: for each issue of the batch (in store order) its
page deletions then the issue deletion, then the batch deletion, the index
retraction by batch query and the index commit. -/
def purgeTraceSpec (db : DB) (name : String) : List Op :=
  ((db.issues.filter (fun i => i.batch == name)).map (fun i =>
      ((db.pages.filter (fun p => p.issueId == i.id)).map (fun p => Op.delPage p.id)) ++
        [Op.delIssue i.id])).flatten ++
    [Op.delBatch name, Op.solrDeleteQuery ("batch:\"" ++ name ++ "\""), Op.solrCommit]

/-! # Matcher correctness (the regex of _normalize_batch_name) -/

theorem matchVerDD_iff (l : List Char) :
    matchVerDD l = true ↔ ∃ d1 d2 rest, d1.isDigit ∧ d2.isDigit ∧
      l = ['v', 'e', 'r'] ++ [d1, d2] ++ rest := by
  match l with
  | [] => simp [matchVerDD]
  | [c1] => simp [matchVerDD]
  | [c1, c2] => simp [matchVerDD]
  | [c1, c2, c3] => simp [matchVerDD]
  | [c1, c2, c3, c4] => simp [matchVerDD]
  | c1 :: c2 :: c3 :: d1 :: d2 :: rest =>
    simp only [matchVerDD, Bool.and_eq_true, decide_eq_true_eq]
    constructor
    · rintro ⟨⟨⟨⟨h1, h2⟩, h3⟩, h4⟩, h5⟩
      exact ⟨d1, d2, rest, h4, h5, by simp [h1, h2, h3]⟩
    · rintro ⟨e1, e2, r, he1, he2, heq⟩
      simp only [List.cons_append, List.nil_append, List.cons.injEq] at heq
      obtain ⟨hv, he, hr, hx1, hx2, _⟩ := heq
      subst hv; subst he; subst hr; subst hx1; subst hx2
      exact ⟨⟨⟨⟨rfl, rfl⟩, rfl⟩, he1⟩, he2⟩

theorem matchSeg_iff (K : List Char → Bool) (l : List Char) : ∀ (n : Nat),
    matchSeg K n l = true ↔
      ∃ w rest, (∀ c ∈ w, isWordChar c = true) ∧ n + w.length ≠ 0 ∧ K rest = true ∧
        l = w ++ ['_'] ++ rest := by
  induction l with
  | nil =>
    intro n
    simp only [matchSeg]
    constructor
    · intro h; exact absurd h (by simp)
    · rintro ⟨w, rest, _, _, _, h⟩
      exact absurd h (by cases w <;> simp)
  | cons c l' ih =>
    intro n
    simp only [matchSeg, Bool.or_eq_true, Bool.and_eq_true, decide_eq_true_eq]
    constructor
    · rintro (⟨⟨hc, hn⟩, hK⟩ | ⟨hw, hm⟩)
      · exact ⟨[], l', by simp, by simpa using hn, hK, by simp [hc]⟩
      · obtain ⟨w, rest, hall, _, hK, heq⟩ := (ih (n + 1)).1 hm
        refine ⟨c :: w, rest, ?_, by simp, hK, by simp [heq]⟩
        intro x hx
        rcases List.mem_cons.1 hx with h | h
        · subst h; exact hw
        · exact hall x h
    · rintro ⟨w, rest, hall, hn0, hK, heq⟩
      cases w with
      | nil =>
        simp only [List.nil_append, List.cons_append, List.cons.injEq] at heq
        left
        refine ⟨⟨heq.1, by simpa using hn0⟩, ?_⟩
        rw [heq.2]; exact hK
      | cons a w' =>
        simp only [List.cons_append, List.cons.injEq] at heq
        right
        refine ⟨?_, ?_⟩
        · rw [heq.1]; exact hall a (by simp)
        · refine (ih (n + 1)).2 ⟨w', rest, ?_, by simp, hK, by simpa using heq.2⟩
          intro x hx
          exact hall x (by simp [hx])

theorem reMatchBatchName_iff (s : String) :
    reMatchBatchName s = true ↔ BatchNamePrefixPattern s := by
  unfold reMatchBatchName BatchNamePrefixPattern
  rw [Bool.and_eq_true, List.isPrefixOf_iff_prefix]
  constructor
  · rintro ⟨⟨t, ht⟩, hm⟩
    have hd : s.toList.drop 6 = t := by rw [← ht]; simp
    rw [hd] at hm
    obtain ⟨w1, r1, hall1, hn1, hm1, heq1⟩ := (matchSeg_iff _ t 0).1 hm
    obtain ⟨w2, r2, hall2, hn2, hK, heq2⟩ := (matchSeg_iff _ r1 0).1 hm1
    obtain ⟨d1, d2, rest, hd1, hd2, heq3⟩ := (matchVerDD_iff r2).1 hK
    refine ⟨w1, w2, d1, d2, rest, ⟨?_, hall1⟩, ⟨?_, hall2⟩, hd1, hd2, ?_⟩
    · rintro rfl; simp at hn1
    · rintro rfl; simp at hn2
    · rw [← ht, heq1, heq2, heq3]; simp
  · rintro ⟨w1, w2, d1, d2, rest, ⟨hne1, hall1⟩, ⟨hne2, hall2⟩, hd1, hd2, heq⟩
    have hpre : ['b', 'a', 't', 'c', 'h', '_'] <+: s.toList := by
      rw [heq]
      exact ⟨w1 ++ ['_'] ++ w2 ++ ['_', 'v', 'e', 'r'] ++ [d1, d2] ++ rest, by simp⟩
    refine ⟨hpre, ?_⟩
    have hd : s.toList.drop 6 = w1 ++ ['_'] ++ (w2 ++ ['_'] ++ (['v', 'e', 'r'] ++ [d1, d2] ++ rest)) := by
      rw [heq]; simp
    rw [hd]
    refine (matchSeg_iff _ _ 0).2 ⟨w1, _, hall1, by simpa using hne1, ?_, rfl⟩
    refine (matchSeg_iff _ _ 0).2 ⟨w2, _, hall2, by simpa using hne2, ?_, rfl⟩
    exact (matchVerDD_iff _).2 ⟨d1, d2, rest, hd1, hd2, rfl⟩

/-! ## A concrete test fixture (used by witnesses and counterexamples) -/

def wCfg : Cfg := { storage := "/st", processOcr := true }

def wName : String := "batch_abc_test_ver01"

def wIssueMods : Mods :=
  { volume := "1", number := "2", editionStr := "1", dateIssued := "2000-01-01", lccn := "sn1" }

def wPageMods : Mods := { extentStart := "1", pageNumber := "1", reelNumber := "1" }

def wPageDiv : PageDiv := { dmdid := some "p1", sectionDmdid := "", fptrs := [some "F1"] }

def wDoc : Doc :=
  { url := "/st/batch_abc_test_ver01/iss1.xml",
    issueDiv := some { dmdid := some "d1", pageDivs := [wPageDiv] },
    dmdSecs := [("d1", wIssueMods), ("p1", wPageMods)],
    fileEls := [("F1", { use := some "master", href := "x.tif", admid := none })],
    techMDs := [] }

def wBatchXml : BatchXml := { reels := [some "1"], issues := [some "iss1.xml"] }

def wEnv : Env :=
  { pathExists := fun p =>
      p == "/st/batch_abc_test_ver01" || p == "/st/batch_abc_test_ver01/batch_1.xml",
    parseBatchXml := fun p =>
      if p == "/st/batch_abc_test_ver01/batch_1.xml" then .ok wBatchXml else .error (.ioErr p),
    parseIssue := fun p =>
      if p == "/st/batch_abc_test_ver01/iss1.xml" then .ok wDoc else .error (.ioErr p),
    j2kDims := fun _ => .error (.ioErr "no j2k"),
    ocrExtract := fun _ => .error (.ioErr "no ocr") }

def wS0 : S :=
  { db :=
      { nextId := 0, batches := [], reels := [], issues := [], pages := [], issueNotes := [],
        pageNotes := [], ocrs := [], titles := ["sn1"], awardees := ["abc"], events := [],
        solrDocs := [] },
    issuesProcessed := 0, pagesProcessed := 0, currentBatch := "", trace := [] }

/-! ## C7: batch name normalization -/

theorem fullPattern_ends_digit {s : String} (h : BatchNameFullPattern s) :
    ∃ d, s.toList.getLast? = some d ∧ d.isDigit = true := by
  obtain ⟨w1, w2, d1, d2, _, _, _, hd2, heq⟩ := h
  refine ⟨d2, ?_, hd2⟩
  rw [heq]
  have h2 : ['b', 'a', 't', 'c', 'h', '_'] ++ w1 ++ ['_'] ++ w2 ++ ['_', 'v', 'e', 'r'] ++ [d1, d2]
      = (['b', 'a', 't', 'c', 'h', '_'] ++ w1 ++ ['_'] ++ w2 ++ ['_', 'v', 'e', 'r'] ++ [d1]) ++ [d2] := by
    simp
  rw [h2, List.getLast?_concat]

/-- C7 counterexample: the name batch_a_b_ver01x does not match the pattern
batch_token_token_ver-two-digits as a whole (nothing may follow the two
digits on the natural full-match reading of the spec), yet the normalizer
accepts it, because re.match only anchors at the start of the string. -/
theorem normalize_accepts_nonfull_name :
    normalize_batch_name "batch_a_b_ver01x" = .ok "batch_a_b_ver01x" ∧
      ¬ BatchNameFullPattern "batch_a_b_ver01x" := by
  constructor
  · rfl
  · intro h
    obtain ⟨d, hd, hdig⟩ := fullPattern_ends_digit h
    have hx : ("batch_a_b_ver01x".toList.getLast?) = some 'x' := by decide
    rw [hx] at hd
    cases hd
    exact absurd hdig (by decide)

/-- C7 (amended): the normalizer strips trailing slashes, reduces the input
to its final path segment, and accepts exactly those results whose PREFIX
matches batch_token_token_ver-two-digits (trailing characters after the
two digits are allowed, since re.match does not anchor at the end); a
rejected name makes load_batch fail with the normalization error before
any other state access, leaving the store untouched; the normalizer itself
is a pure function of its argument. -/
theorem normalize_batch_name_characterization :
    (∀ s n, normalize_batch_name s = .ok n ↔
        (BatchNamePrefixPattern (basename (rstripSlash s)) ∧ n = basename (rstripSlash s))) ∧
    (∀ cfg env nm strict st e, normalize_batch_name nm = .error e →
        load_batch cfg env nm strict st = (st, .error e)) := by
  constructor
  · intro s n
    have hiff := reMatchBatchName_iff (basename (rstripSlash s))
    unfold normalize_batch_name
    by_cases h : reMatchBatchName (basename (rstripSlash s))
    · simp only [h, if_true]
      constructor
      · intro hok
        cases hok
        exact ⟨hiff.1 h, rfl⟩
      · rintro ⟨_, rfl⟩
        rfl
    · simp only [h, if_false]
      constructor
      · intro hok; cases hok
      · rintro ⟨hp, rfl⟩
        exact absurd (hiff.2 hp) h
  · intro cfg env nm strict st e h
    unfold load_batch
    rw [h]

theorem normalize_batch_name_characterization_witness :
    normalize_batch_name "nope" = .error (.batchLoaderErr "unrecognized format for batch name nope") ∧
      load_batch wCfg wEnv "nope" true wS0 =
        (wS0, .error (.batchLoaderErr "unrecognized format for batch name nope")) := by
  refine ⟨by rfl, ?_⟩
  exact normalize_batch_name_characterization.2 wCfg wEnv "nope" true wS0
    (.batchLoaderErr "unrecognized format for batch name nope") (by rfl)

/-! ## C6: the manifest locator -/

def noFileEnv : Env := { wEnv with pathExists := fun _ => false }

/-- C6 counterexample: in a batch root with no manifest alias at all
(batch.xml included), the locator does not return the batch.xml default
candidate for a later deferred failure; it raises a BatchLoaderException
itself (the for/else clause fires because the loop never breaks, and the
in-loop default assignment is dead). -/
theorem locator_missing_manifest_raises :
    find_batch_file noFileEnv "/st/b" ≠ .ok "batch.xml" ∧
      find_batch_file noFileEnv "/st/b" = .error (.batchLoaderErr
        "could not find batch_1.xml (or any of its aliases) in /st/b--has the batch been validated?") := by
  constructor
  · intro h
    rw [show find_batch_file noFileEnv "/st/b" = .error (.batchLoaderErr
      "could not find batch_1.xml (or any of its aliases) in /st/b--has the batch been validated?") from rfl] at h
    cases h
  · rfl

/-- C6 (amended): the locator returns the first alias of its fixed priority
list that exists under the batch root; when none of the aliases exists
(batch.xml itself is the last alias probed), the locator raises a
BatchLoaderException immediately, so a batch with no manifest at all fails
in the locator with a could-not-find error rather than later when the
manifest is opened for parsing. -/
theorem find_batch_file_spec :
    (∀ env p, (∀ a ∈ batchAliases, env.pathExists (pyJoin p a) = false) →
        find_batch_file env p = .error (.batchLoaderErr
          ("could not find batch_1.xml (or any of its aliases) in " ++ p ++
            "--has the batch been validated?"))) ∧
    (∀ env p al, batchAliases.find? (fun a => env.pathExists (pyJoin p a)) = some al →
        find_batch_file env p = .ok al) := by
  constructor
  · intro env p h
    unfold find_batch_file
    rw [List.find?_eq_none.2 (fun a ha => by rw [h a ha]; exact Bool.false_ne_true)]
  · intro env p al h
    unfold find_batch_file
    rw [h]

theorem find_batch_file_spec_witness :
    ((∀ a ∈ batchAliases, noFileEnv.pathExists (pyJoin "/st/b" a) = false) ∧
      find_batch_file noFileEnv "/st/b" = .error (.batchLoaderErr
        "could not find batch_1.xml (or any of its aliases) in /st/b--has the batch been validated?")) ∧
    (batchAliases.find? (fun a => wEnv.pathExists (pyJoin "/st/batch_abc_test_ver01" a)) = some "batch_1.xml" ∧
      find_batch_file wEnv "/st/batch_abc_test_ver01" = .ok "batch_1.xml") := by
  refine ⟨⟨by decide, ?_⟩, ⟨by rfl, ?_⟩⟩
  · exact find_batch_file_spec.1 noFileEnv "/st/b" (by decide)
  · exact find_batch_file_spec.2 wEnv "/st/batch_abc_test_ver01" "batch_1.xml" (by rfl)

deriving instance DecidableEq for Except

/-! ## C4: service-image dimension resolution -/

theorem findDims_truthy (doc : Doc) : ∀ (as : List String) {l w : String},
    findDims doc as = some (l, w) → l ≠ "" ∧ w ≠ "" := by
  intro as
  induction as with
  | nil => intro l w h; exact absurd h (by simp [findDims])
  | cons a rest ih =>
    intro l w h
    rw [findDims] at h
    split at h
    next heq =>
      split at h
      next hc =>
        cases h
        exact hc
      next => exact ih h
    next => exact ih h

/-- C4 counterexample: a service file entry whose ADMID attribute is present
but whose technical metadata yields no dimensions does NOT fall back to
direct image inspection: the page load fails with the no-jp2-width
BatchLoaderException and the state is unchanged (no j2k probe recorded in
the trace), even though the direct inspection (env.j2kDims) would have
returned dimensions.  The fallback runs only when the ADMID attribute
itself is missing (KeyError), not whenever no pair was found. -/
theorem jp2_no_fallback_with_admid_cex :
    (resolveJp2Dims wCfg { wEnv with j2kDims := fun _ => .ok (5, 7) } wDoc
        { use := some "service", href := "x.jp2", admid := some "a1" }
        { id := 0, issueId := 0, sequence := 1, jp2Filename := some "x.jp2" } wS0) =
      (wS0, .error (.batchLoaderErr "No jp2 width")) ∧
    ({ wEnv with j2kDims := fun _ => .ok (5, 7) } : Env).j2kDims (pyJoin wCfg.storage "x.jp2") =
      .ok (5, 7) ∧
    wS0.trace = [] := by
  exact ⟨rfl, rfl, rfl⟩

/-- C4 (amended): for a service-class file reference, the loader tries each
administrative-metadata identifier attached to the file entry and stops at
the first truthy (length, width) pair found in technical metadata; the
fallback to direct inspection of the image header runs exactly when the
file entry carries no ADMID attribute at all (a KeyError), not whenever no
pair was found; when identifiers are present but yield no pair, the load
fails directly with the missing-dimension BatchLoaderException without
inspecting the image; after a fallback, a falsy width or length still
fails with the same error. -/
theorem jp2_dims_resolution_spec :
    (∀ cfg env doc fe page s admids l w, fe.admid = some admids →
       findDims doc (splitOnChar ' ' admids) = some (l, w) →
       resolveJp2Dims cfg env doc fe page s =
         (s, .ok { page with jp2Width := some (.str w), jp2Length := some (.str l) })) ∧
    (∀ cfg env doc fe page s admids, fe.admid = some admids →
       findDims doc (splitOnChar ' ' admids) = none → truthyOptVal page.jp2Width = false →
       resolveJp2Dims cfg env doc fe page s = (s, .error (.batchLoaderErr "No jp2 width"))) ∧
    (∀ cfg env doc fe page s w l, fe.admid = none →
       env.j2kDims (pyJoin cfg.storage ((page.jp2Filename).getD "")) = .ok (w, l) →
       resolveJp2Dims cfg env doc fe page s =
         (s.pushOp (.j2kCall (pyJoin cfg.storage ((page.jp2Filename).getD ""))),
          jp2Checks { page with jp2Width := some (.int w), jp2Length := some (.int l) })) ∧
    (∀ cfg env doc fe page s e, fe.admid = none →
       env.j2kDims (pyJoin cfg.storage ((page.jp2Filename).getD "")) = .error e →
       resolveJp2Dims cfg env doc fe page s =
         (s.pushOp (.j2kCall (pyJoin cfg.storage ((page.jp2Filename).getD ""))), .error e)) := by
  refine ⟨?_, ?_, ?_, ?_⟩
  · intro cfg env doc fe page s admids l w h1 h2
    obtain ⟨hl, hw⟩ := findDims_truthy doc _ h2
    unfold resolveJp2Dims
    rw [h1]
    dsimp only
    rw [h2]
    simp [jp2Checks, truthyOptVal, PyVal.truthy, hl, hw]
  · intro cfg env doc fe page s admids h1 h2 h3
    unfold resolveJp2Dims
    rw [h1]
    dsimp only
    rw [h2]
    simp [jp2Checks, h3]
  · intro cfg env doc fe page s w l h1 h2
    unfold resolveJp2Dims
    rw [h1]
    dsimp only
    rw [h2]
  · intro cfg env doc fe page s e h1 h2
    unfold resolveJp2Dims
    rw [h1]
    dsimp only
    rw [h2]

theorem jp2_dims_resolution_spec_witness :
    (resolveJp2Dims wCfg wEnv
        { wDoc with techMDs := [("a1", { lengthEl := some (some "7"), widthEl := some (some "5") })] }
        { use := some "service", href := "x.jp2", admid := some "a1" }
        { id := 0, issueId := 0, sequence := 1, jp2Filename := some "x.jp2" } wS0) =
      (wS0, .ok { id := 0, issueId := 0, sequence := 1, jp2Filename := some "x.jp2",
                  jp2Width := some (.str "5"), jp2Length := some (.str "7") }) ∧
    (resolveJp2Dims wCfg { wEnv with j2kDims := fun _ => .ok (5, 7) } wDoc
        { use := some "service", href := "x.jp2", admid := none }
        { id := 0, issueId := 0, sequence := 1, jp2Filename := some "x.jp2" } wS0) =
      (wS0.pushOp (.j2kCall "/st/x.jp2"),
       .ok { id := 0, issueId := 0, sequence := 1, jp2Filename := some "x.jp2",
             jp2Width := some (.int 5), jp2Length := some (.int 7) }) := by
  constructor
  · exact jp2_dims_resolution_spec.1 wCfg wEnv _ _ _ wS0 "a1" "7" "5" rfl rfl
  · have h := jp2_dims_resolution_spec.2.2.1 wCfg { wEnv with j2kDims := fun _ => .ok (5, 7) } wDoc
      { use := some "service", href := "x.jp2", admid := none }
      { id := 0, issueId := 0, sequence := 1, jp2Filename := some "x.jp2" } wS0 5 7 rfl rfl
    rw [h]
    rfl

/-! ## State-effect lemmas for the page-loading helpers -/

/-- The fptr loop only appends to the operation trace: the store, the
counters and the current batch are untouched. -/
def TraceOnlyExt (s s' : S) : Prop :=
  s'.db = s.db ∧ s'.issuesProcessed = s.issuesProcessed ∧
    s'.pagesProcessed = s.pagesProcessed ∧ s'.currentBatch = s.currentBatch

theorem traceOnlyExt_refl (s : S) : TraceOnlyExt s s := ⟨rfl, rfl, rfl, rfl⟩

theorem traceOnlyExt_trans {s1 s2 s3 : S} (h1 : TraceOnlyExt s1 s2)
    (h2 : TraceOnlyExt s2 s3) : TraceOnlyExt s1 s3 :=
  ⟨h2.1.trans h1.1, h2.2.1.trans h1.2.1, h2.2.2.1.trans h1.2.2.1, h2.2.2.2.trans h1.2.2.2⟩

theorem resolveJp2Dims_traceOnly (cfg : Cfg) (env : Env) (doc : Doc) (fe : FileEl)
    (page : PageRec) (s : S) : TraceOnlyExt s (resolveJp2Dims cfg env doc fe page s).1 := by
  unfold resolveJp2Dims
  split
  · exact traceOnlyExt_refl s
  · dsimp only
    split
    · exact ⟨rfl, rfl, rfl, rfl⟩
    · exact ⟨rfl, rfl, rfl, rfl⟩

theorem processFptr_traceOnly (cfg : Cfg) (env : Env) (doc : Doc) (f : Option String)
    (page : PageRec) (s : S) : TraceOnlyExt s (processFptr cfg env doc f page s).1 := by
  unfold processFptr
  split
  · exact traceOnlyExt_refl s
  · split
    · exact traceOnlyExt_refl s
    · split
      · exact traceOnlyExt_refl s
      · split
        · exact traceOnlyExt_refl s
        · split
          · exact resolveJp2Dims_traceOnly cfg env doc _ _ s
          · split
            · exact traceOnlyExt_refl s
            · split
              · exact traceOnlyExt_refl s
              · exact traceOnlyExt_refl s

theorem processFptrs_traceOnly (cfg : Cfg) (env : Env) (doc : Doc) :
    ∀ (fps : List (Option String)) (page : PageRec) (s : S),
      TraceOnlyExt s (processFptrs cfg env doc fps page s).1 := by
  intro fps
  induction fps with
  | nil => intro page s; exact traceOnlyExt_refl s
  | cons f rest ih =>
    intro page s
    rw [processFptrs]
    rcases hc : processFptr cfg env doc f page s with ⟨s1, r1⟩
    have h1 : TraceOnlyExt s s1 := by
      have := processFptr_traceOnly cfg env doc f page s
      rw [hc] at this
      exact this
    match r1 with
    | .ok page1 =>
      dsimp only
      exact traceOnlyExt_trans h1 (ih page1 s1)
    | .error e =>
      dsimp only
      exact h1

/-- A passed dimension check returns the page unchanged. -/
theorem jp2Checks_ok {page p' : PageRec} (h : jp2Checks page = .ok p') : p' = page := by
  unfold jp2Checks at h
  split at h
  · cases h
  · split at h
    · cases h
    · cases h; rfl

/-- Dimension resolution only sets the jp2 width and length fields: the id
and the issue reference of the in-memory page are unchanged. -/
theorem resolveJp2Dims_id {cfg : Cfg} {env : Env} {doc : Doc} {fe : FileEl}
    {page : PageRec} {s : S} :
    ∀ {s' : S} {p' : PageRec}, resolveJp2Dims cfg env doc fe page s = (s', .ok p') →
      p'.id = page.id ∧ p'.issueId = page.issueId := by
  intro s' p' h
  unfold resolveJp2Dims at h
  split at h
  · rw [Prod.mk.injEq] at h
    obtain ⟨h1, h2⟩ := h
    split at h2
    · have := jp2Checks_ok h2
      subst this
      exact ⟨rfl, rfl⟩
    · have := jp2Checks_ok h2
      subst this
      exact ⟨rfl, rfl⟩
  · dsimp only at h
    split at h
    · rw [Prod.mk.injEq] at h
      exact absurd h.2 (by simp)
    · rw [Prod.mk.injEq] at h
      obtain ⟨h1, h2⟩ := h
      have := jp2Checks_ok h2
      subst this
      exact ⟨rfl, rfl⟩

/-- The id and the issue reference of the in-memory page are never changed
by one fptr step. -/
theorem processFptr_id {cfg : Cfg} {env : Env} {doc : Doc} {f : Option String}
    {page : PageRec} {s : S} :
    ∀ {s' : S} {p' : PageRec}, processFptr cfg env doc f page s = (s', .ok p') →
      p'.id = page.id ∧ p'.issueId = page.issueId := by
  intro s' p' h
  unfold processFptr at h
  split at h
  · cases h
  · split at h
    · cases h
    · split at h
      · cases h
      · split at h
        · cases h; exact ⟨rfl, rfl⟩
        · split at h
          · dsimp only at h
            have h2 := resolveJp2Dims_id h
            exact h2
          · split at h
            · cases h; exact ⟨rfl, rfl⟩
            · split at h
              · cases h; exact ⟨rfl, rfl⟩
              · cases h; exact ⟨rfl, rfl⟩

/-- The id and the issue reference of the in-memory page are never changed
by the fptr loop. -/
theorem processFptrs_id {cfg : Cfg} {env : Env} {doc : Doc} :
    ∀ {fps : List (Option String)} {page : PageRec} {s s' : S} {p' : PageRec},
      processFptrs cfg env doc fps page s = (s', .ok p') →
      p'.id = page.id ∧ p'.issueId = page.issueId := by
  intro fps
  induction fps with
  | nil =>
    intro page s s' p' h
    rw [processFptrs] at h
    cases h
    exact ⟨rfl, rfl⟩
  | cons f rest ih =>
    intro page s s' p' h
    rw [processFptrs] at h
    rcases hc : processFptr cfg env doc f page s with ⟨s1, r1⟩
    rw [hc] at h
    match r1, h with
    | .ok page1, h =>
      obtain ⟨hi1, hj1⟩ := processFptr_id hc
      obtain ⟨hi2, hj2⟩ := ih h
      exact ⟨hi2.trans hi1, hj2.trans hj1⟩
    | .error e, h => cases h

/-! ## The growth relation of one page load

Everything a page load can write to the store is owned by the issue being
loaded (pages referencing the issue, notes and OCR records referencing
those pages, implicit reels and search documents tagged with the current
batch); nothing else changes apart from the id allocator, the counters
being fixed, and the trace. -/

structure PageGrow (iid : Nat) (s s' : S) : Prop where
  issuesP : s'.issuesProcessed = s.issuesProcessed
  pagesP : s'.pagesProcessed = s.pagesProcessed
  curB : s'.currentBatch = s.currentBatch
  batches : s'.db.batches = s.db.batches
  titles : s'.db.titles = s.db.titles
  awardees : s'.db.awardees = s.db.awardees
  events : s'.db.events = s.db.events
  issues : s'.db.issues = s.db.issues
  issueNotes : s'.db.issueNotes = s.db.issueNotes
  nextLe : s.db.nextId ≤ s'.db.nextId
  reels : ∃ nr, s'.db.reels = s.db.reels ++ nr ∧
    ∀ r ∈ nr, r.batch = s.currentBatch ∧ s.db.nextId ≤ r.id ∧ r.id < s'.db.nextId
  rest : ∃ np npn no nd,
    s'.db.pages = s.db.pages ++ np ∧
    s'.db.pageNotes = s.db.pageNotes ++ npn ∧
    s'.db.ocrs = s.db.ocrs ++ no ∧
    s'.db.solrDocs = s.db.solrDocs ++ nd ∧
    (∀ p ∈ np, p.issueId = iid ∧ s.db.nextId ≤ p.id ∧ p.id < s'.db.nextId) ∧
    (np.map PageRec.id).Nodup ∧
    (∀ n ∈ npn, n.ownerId ∈ np.map PageRec.id) ∧
    (∀ o ∈ no, o.pageId ∈ np.map PageRec.id) ∧
    (∀ d ∈ nd, d.batch = s.currentBatch)

theorem pageGrow_refl (iid : Nat) (s : S) : PageGrow iid s s :=
  { issuesP := rfl, pagesP := rfl, curB := rfl, batches := rfl, titles := rfl,
    awardees := rfl, events := rfl, issues := rfl, issueNotes := rfl,
    nextLe := Nat.le_refl _,
    reels := ⟨[], by simp, by simp⟩,
    rest := ⟨[], [], [], [], by simp, by simp, by simp, by simp, by simp, by simp, by simp,
      by simp, by simp⟩ }

theorem pageGrow_of_traceOnly {iid : Nat} {s s' : S} (h : TraceOnlyExt s s') :
    PageGrow iid s s' :=
  { issuesP := h.2.1, pagesP := h.2.2.1, curB := h.2.2.2, batches := by rw [h.1],
    titles := by rw [h.1], awardees := by rw [h.1], events := by rw [h.1],
    issues := by rw [h.1], issueNotes := by rw [h.1], nextLe := by rw [h.1],
    reels := ⟨[], by rw [h.1]; simp, by simp⟩,
    rest := ⟨[], [], [], [], by rw [h.1]; simp, by rw [h.1]; simp, by rw [h.1]; simp,
      by rw [h.1]; simp, by simp, by simp, by simp, by simp, by simp⟩ }

theorem pageGrow_trans {iid : Nat} {s1 s2 s3 : S} (h1 : PageGrow iid s1 s2)
    (h2 : PageGrow iid s2 s3) : PageGrow iid s1 s3 := by
  obtain ⟨nr1, hr1, hnr1⟩ := h1.reels
  obtain ⟨nr2, hr2, hnr2⟩ := h2.reels
  obtain ⟨np1, npn1, no1, nd1, hp1, hn1, ho1, hd1, hpp1, hnd1, hown1, hopg1, hdb1⟩ := h1.rest
  obtain ⟨np2, npn2, no2, nd2, hp2, hn2, ho2, hd2, hpp2, hnd2, hown2, hopg2, hdb2⟩ := h2.rest
  refine
    { issuesP := h2.issuesP.trans h1.issuesP, pagesP := h2.pagesP.trans h1.pagesP,
      curB := h2.curB.trans h1.curB, batches := h2.batches.trans h1.batches,
      titles := h2.titles.trans h1.titles, awardees := h2.awardees.trans h1.awardees,
      events := h2.events.trans h1.events, issues := h2.issues.trans h1.issues,
      issueNotes := h2.issueNotes.trans h1.issueNotes,
      nextLe := h1.nextLe.trans h2.nextLe,
      reels := ⟨nr1 ++ nr2, by rw [hr2, hr1, List.append_assoc], ?_⟩,
      rest := ⟨np1 ++ np2, npn1 ++ npn2, no1 ++ no2, nd1 ++ nd2,
        by rw [hp2, hp1, List.append_assoc], by rw [hn2, hn1, List.append_assoc],
        by rw [ho2, ho1, List.append_assoc], by rw [hd2, hd1, List.append_assoc],
        ?_, ?_, ?_, ?_, ?_⟩ }
  · intro r hr
    rcases List.mem_append.1 hr with h | h
    · obtain ⟨hb, hlo, hhi⟩ := hnr1 r h
      exact ⟨hb, hlo, Nat.lt_of_lt_of_le hhi h2.nextLe⟩
    · obtain ⟨hb, hlo, hhi⟩ := hnr2 r h
      exact ⟨by rw [hb, h1.curB], Nat.le_trans h1.nextLe hlo, hhi⟩
  · intro p hp
    rcases List.mem_append.1 hp with h | h
    · obtain ⟨hi, hlo, hhi⟩ := hpp1 p h
      exact ⟨hi, hlo, Nat.lt_of_lt_of_le hhi h2.nextLe⟩
    · obtain ⟨hi, hlo, hhi⟩ := hpp2 p h
      exact ⟨hi, Nat.le_trans h1.nextLe hlo, hhi⟩
  · rw [List.map_append]
    refine List.Nodup.append hnd1 hnd2 ?_
    intro a ha1 ha2
    simp only [List.mem_map] at ha1 ha2
    obtain ⟨p1, hp1m, hid1⟩ := ha1
    obtain ⟨p2, hp2m, hid2⟩ := ha2
    have hb1 := (hpp1 p1 hp1m).2.2
    have hb2 := (hpp2 p2 hp2m).2.1
    rw [hid1] at hb1
    rw [hid2] at hb2
    exact absurd (Nat.lt_of_lt_of_le hb1 hb2) (Nat.lt_irrefl a)
  · intro n hn
    rw [List.map_append]
    rcases List.mem_append.1 hn with h | h
    · exact List.mem_append_left _ (hown1 n h)
    · exact List.mem_append_right _ (hown2 n h)
  · intro o ho
    rw [List.map_append]
    rcases List.mem_append.1 ho with h | h
    · exact List.mem_append_left _ (hopg1 o h)
    · exact List.mem_append_right _ (hopg2 o h)
  · intro d hd
    rcases List.mem_append.1 hd with h | h
    · exact hdb1 d h
    · exact (hdb2 d h).trans h1.curB

theorem map_replace_id_of_ne {l : List PageRec} {p' : PageRec}
    (h : ∀ q ∈ l, q.id ≠ p'.id) : (l.map (fun q => if q.id = p'.id then p' else q)) = l := by
  induction l with
  | nil => rfl
  | cons a t ih =>
    simp only [List.map_cons]
    rw [if_neg (h a (by simp)), ih (fun q hq => h q (by simp [hq]))]

theorem reelStep_cases (rn : String) (s : S) :
    (reelStep rn s).2 = s ∨
    (reelStep rn s).2 =
      (s.freshId.2.addReel { id := s.db.nextId, number := rn, batch := s.currentBatch, implicit := true }) := by
  unfold reelStep
  split
  · exact Or.inl rfl
  · split
    · exact Or.inr rfl
    · exact Or.inl rfl

theorem pageOcrStep_cases (cfg : Cfg) (env : Env) (page4 : PageRec) (s5 : S) :
    pageOcrStep cfg env page4 s5 = (s5, .ok page4) ∨
    (∃ e, pageOcrStep cfg env page4 s5 = (s5, .error e)) ∨
    (∃ t c, pageOcrStep cfg env page4 s5 =
      ((((s5.freshId.2.addOcr { id := s5.db.nextId, pageId := page4.id, text := t, wordCoordinates := c }).addSolrDoc
          { pageId := page4.id, batch := s5.currentBatch }).pushOp (.solrAdd page4.id)).updatePage
            { page4 with ocrId := some s5.db.nextId, indexed := true },
       .ok { page4 with ocrId := some s5.db.nextId, indexed := true })) := by
  unfold pageOcrStep
  split
  · split
    · unfold process_ocr
      rcases ho : env.ocrExtract (pyJoin cfg.storage ((page4.ocrFilename).getD "")) with e | tc
      · exact Or.inr (Or.inl ⟨e, rfl⟩)
      · exact Or.inr (Or.inr ⟨tc.1, tc.2, rfl⟩)
    · exact Or.inl rfl
  · exact Or.inl rfl

theorem processFptrs_traceOnly2 {cfg : Cfg} {env : Env} {doc : Doc}
    {fps : List (Option String)} {page : PageRec} {s s' : S} {r : Except PyErr PageRec}
    (h : processFptrs cfg env doc fps page s = (s', r)) : TraceOnlyExt s s' := by
  have h0 := processFptrs_traceOnly cfg env doc fps page s
  rw [h] at h0
  exact h0

theorem replace_append_last (base : List PageRec) (p p' : PageRec)
    (hbase : ∀ q ∈ base, q.id ≠ p'.id) (hp : p.id = p'.id) :
    ((base ++ [p]).map (fun q => if q.id = p'.id then p' else q)) = base ++ [p'] := by
  rw [List.map_append, map_replace_id_of_ne hbase]
  simp [hp]

theorem pageSaveTail_grow (iid : Nat) (cfg : Cfg) (env : Env) (doc : Doc) (div : PageDiv)
    (mods : Mods) (page2 : PageRec) (sR : S)
    (hpb : ∀ q ∈ sR.db.pages, q.id < sR.db.nextId)
    (hiid : page2.issueId = iid) :
    PageGrow iid sR (pageSaveTail cfg env doc div mods page2 sR).1 := by
  have hnotes : ∀ n ∈ mods.notes.map (fun n =>
      ({ ownerId := sR.db.nextId, type := n.type, label := n.label, text := strTrim n.text } : NoteRec)),
      n.ownerId = sR.db.nextId := by
    intro n hn
    simp only [List.mem_map] at hn
    obtain ⟨m, _, hm⟩ := hn
    rw [← hm]
  unfold pageSaveTail
  dsimp only
  split
  next s5 e heq =>
    have hT := processFptrs_traceOnly2 heq
    have hdb : s5.db =
        { sR.db with
          nextId := sR.db.nextId + 1,
          pages := sR.db.pages ++ [{ page2 with id := sR.db.nextId }],
          pageNotes := sR.db.pageNotes ++ mods.notes.map (fun n =>
            ({ ownerId := sR.db.nextId, type := n.type, label := n.label, text := strTrim n.text } : NoteRec)) } :=
      hT.1
    refine
      { issuesP := hT.2.1, pagesP := hT.2.2.1, curB := hT.2.2.2,
        batches := by rw [hdb], titles := by rw [hdb], awardees := by rw [hdb],
        events := by rw [hdb], issues := by rw [hdb], issueNotes := by rw [hdb],
        nextLe := by rw [hdb]; exact Nat.le_succ _,
        reels := ⟨[], by rw [hdb]; simp, by simp⟩,
        rest := ⟨[{ page2 with id := sR.db.nextId }],
          mods.notes.map (fun n =>
            ({ ownerId := sR.db.nextId, type := n.type, label := n.label, text := strTrim n.text } : NoteRec)),
          [], [],
          by rw [hdb], by rw [hdb], by rw [hdb]; simp, by rw [hdb]; simp,
          ?_, by simp, ?_, by simp, by simp⟩ }
    · intro p hp
      simp only [List.mem_singleton] at hp
      subst hp
      exact ⟨hiid, Nat.le_refl _, by rw [hdb]; exact Nat.lt_succ_self _⟩
    · intro n hn
      simp only [List.map_cons, List.map_nil]
      have hh := hnotes n hn
      simp only [List.mem_singleton]
      exact hh
  next s5 page4 heq =>
    have hT := processFptrs_traceOnly2 heq
    have hdb : s5.db =
        { sR.db with
          nextId := sR.db.nextId + 1,
          pages := sR.db.pages ++ [{ page2 with id := sR.db.nextId }],
          pageNotes := sR.db.pageNotes ++ mods.notes.map (fun n =>
            ({ ownerId := sR.db.nextId, type := n.type, label := n.label, text := strTrim n.text } : NoteRec)) } :=
      hT.1
    have hid4 := processFptrs_id heq
    have hid4a : page4.id = sR.db.nextId := hid4.1
    have hid4b : page4.issueId = iid := by rw [hid4.2]; exact hiid
    have hbase : ∀ q ∈ sR.db.pages, q.id ≠ page4.id := by
      intro q hq
      have hlt := hpb q hq
      rw [hid4a]
      intro hqe
      rw [hqe] at hlt
      exact absurd hlt (Nat.lt_irrefl _)
    rcases pageOcrStep_cases cfg env page4 s5 with hcase | ⟨e, hcase⟩ | ⟨t, c, hcase⟩
    · rw [hcase]
      dsimp only
      have hup : (s5.updatePage page4).db.pages = sR.db.pages ++ [page4] := by
        simp only [S.updatePage, hdb]
        exact replace_append_last _ _ _ hbase hid4a.symm
      refine
        { issuesP := hT.2.1, pagesP := hT.2.2.1, curB := hT.2.2.2,
          batches := by simp only [S.updatePage]; rw [hdb],
          titles := by simp only [S.updatePage]; rw [hdb],
          awardees := by simp only [S.updatePage]; rw [hdb],
          events := by simp only [S.updatePage]; rw [hdb],
          issues := by simp only [S.updatePage]; rw [hdb],
          issueNotes := by simp only [S.updatePage]; rw [hdb],
          nextLe := by simp only [S.updatePage]; rw [hdb]; exact Nat.le_succ _,
          reels := ⟨[], by simp only [S.updatePage]; rw [hdb]; simp, by simp⟩,
          rest := ⟨[page4],
            mods.notes.map (fun n =>
              ({ ownerId := sR.db.nextId, type := n.type, label := n.label, text := strTrim n.text } : NoteRec)),
            [], [],
            hup, by simp only [S.updatePage]; rw [hdb],
            by simp only [S.updatePage]; rw [hdb]; simp,
            by simp only [S.updatePage]; rw [hdb]; simp,
            ?_, by simp, ?_, by simp, by simp⟩ }
      · intro p hp
        simp only [List.mem_singleton] at hp
        subst hp
        refine ⟨hid4b, by rw [hid4a], ?_⟩
        simp only [S.updatePage]
        rw [hdb, hid4a]
        exact Nat.lt_succ_self _
      · intro n hn
        simp only [List.map_cons, List.map_nil]
        have hh := hnotes n hn
        simp only [List.mem_singleton]
        rw [hh, hid4a]
    · rw [hcase]
      dsimp only
      refine
        { issuesP := hT.2.1, pagesP := hT.2.2.1, curB := hT.2.2.2,
          batches := by rw [hdb], titles := by rw [hdb], awardees := by rw [hdb],
          events := by rw [hdb], issues := by rw [hdb], issueNotes := by rw [hdb],
          nextLe := by rw [hdb]; exact Nat.le_succ _,
          reels := ⟨[], by rw [hdb]; simp, by simp⟩,
          rest := ⟨[{ page2 with id := sR.db.nextId }],
            mods.notes.map (fun n =>
              ({ ownerId := sR.db.nextId, type := n.type, label := n.label, text := strTrim n.text } : NoteRec)),
            [], [],
            by rw [hdb], by rw [hdb], by rw [hdb]; simp, by rw [hdb]; simp,
            ?_, by simp, ?_, by simp, by simp⟩ }
      · intro p hp
        simp only [List.mem_singleton] at hp
        subst hp
        exact ⟨hiid, Nat.le_refl _, by rw [hdb]; exact Nat.lt_succ_self _⟩
      · intro n hn
        simp only [List.map_cons, List.map_nil]
        have hh := hnotes n hn
        simp only [List.mem_singleton]
        exact hh
    · rw [hcase]
      dsimp only
      have hbase2 : ∀ q ∈ sR.db.pages,
          q.id ≠ ({ page4 with ocrId := some s5.db.nextId, indexed := true } : PageRec).id := by
        intro q hq
        exact hbase q hq
      have hpages2 :
          (((((s5.freshId.2.addOcr { id := s5.db.nextId, pageId := page4.id, text := t, wordCoordinates := c }).addSolrDoc
            { pageId := page4.id, batch := s5.currentBatch }).pushOp (.solrAdd page4.id)).updatePage
              { page4 with ocrId := some s5.db.nextId, indexed := true }).updatePage
              { page4 with ocrId := some s5.db.nextId, indexed := true }).db.pages
            = sR.db.pages ++ [{ page4 with ocrId := some s5.db.nextId, indexed := true }] := by
        simp only [S.updatePage, S.pushOp, S.addSolrDoc, S.addOcr, S.freshId]
        rw [hdb]
        dsimp only
        rw [replace_append_last sR.db.pages { page2 with id := sR.db.nextId }
          { page4 with ocrId := some (sR.db.nextId + 1), indexed := true } hbase2 hid4a.symm]
        rw [replace_append_last sR.db.pages
          { page4 with ocrId := some (sR.db.nextId + 1), indexed := true }
          { page4 with ocrId := some (sR.db.nextId + 1), indexed := true } hbase2 rfl]
      refine
        { issuesP := hT.2.1, pagesP := hT.2.2.1, curB := hT.2.2.2,
          batches := by simp only [S.updatePage, S.pushOp, S.addSolrDoc, S.addOcr, S.freshId]; rw [hdb],
          titles := by simp only [S.updatePage, S.pushOp, S.addSolrDoc, S.addOcr, S.freshId]; rw [hdb],
          awardees := by simp only [S.updatePage, S.pushOp, S.addSolrDoc, S.addOcr, S.freshId]; rw [hdb],
          events := by simp only [S.updatePage, S.pushOp, S.addSolrDoc, S.addOcr, S.freshId]; rw [hdb],
          issues := by simp only [S.updatePage, S.pushOp, S.addSolrDoc, S.addOcr, S.freshId]; rw [hdb],
          issueNotes := by simp only [S.updatePage, S.pushOp, S.addSolrDoc, S.addOcr, S.freshId]; rw [hdb],
          nextLe := by
            simp only [S.updatePage, S.pushOp, S.addSolrDoc, S.addOcr, S.freshId]
            rw [hdb]
            exact Nat.le_trans (Nat.le_succ _) (Nat.le_succ _),
          reels := ⟨[], by simp only [S.updatePage, S.pushOp, S.addSolrDoc, S.addOcr, S.freshId]; rw [hdb]; simp,
            by simp⟩,
          rest := ⟨[{ page4 with ocrId := some s5.db.nextId, indexed := true }],
            mods.notes.map (fun n =>
              ({ ownerId := sR.db.nextId, type := n.type, label := n.label, text := strTrim n.text } : NoteRec)),
            [{ id := s5.db.nextId, pageId := page4.id, text := t, wordCoordinates := c }],
            [{ pageId := page4.id, batch := s5.currentBatch }],
            hpages2,
            by simp only [S.updatePage, S.pushOp, S.addSolrDoc, S.addOcr, S.freshId]; rw [hdb],
            by simp only [S.updatePage, S.pushOp, S.addSolrDoc, S.addOcr, S.freshId]; rw [hdb],
            by simp only [S.updatePage, S.pushOp, S.addSolrDoc, S.addOcr, S.freshId]; rw [hdb],
            ?_, by simp, ?_, ?_, ?_⟩ }
      · intro p hp
        simp only [List.mem_singleton] at hp
        subst hp
        refine ⟨hid4b, by rw [hid4a], ?_⟩
        simp only [S.updatePage, S.pushOp, S.addSolrDoc, S.addOcr, S.freshId]
        rw [hdb]
        dsimp only
        rw [hid4a]
        exact Nat.lt_trans (Nat.lt_succ_self _) (Nat.lt_succ_self _)
      · intro n hn
        simp only [List.map_cons, List.map_nil]
        have hh := hnotes n hn
        simp only [List.mem_singleton]
        rw [hh, hid4a]
      · intro o ho
        simp only [List.mem_singleton] at ho
        subst ho
        simp only [List.map_cons, List.map_nil, List.mem_singleton]
      · intro d hd
        simp only [List.mem_singleton] at hd
        subst hd
        exact hT.2.2.2

/-- All persisted page ids are below the id allocator. -/
def pagesBound (s : S) : Prop := ∀ q ∈ s.db.pages, q.id < s.db.nextId

/-- All persisted issue ids are below the id allocator. -/
def issuesBound (s : S) : Prop := ∀ i ∈ s.db.issues, i.id < s.db.nextId

theorem pageGrow_pagesBound {iid : Nat} {s s' : S} (h : PageGrow iid s s')
    (hb : pagesBound s) : pagesBound s' := by
  obtain ⟨np, npn, no, nd, hp, _, _, _, hpp, _⟩ := h.rest
  intro q hq
  rw [hp] at hq
  rcases List.mem_append.1 hq with h1 | h1
  · exact Nat.lt_of_lt_of_le (hb q h1) h.nextLe
  · exact (hpp q h1).2.2

theorem pageGrow_issuesBound {iid : Nat} {s s' : S} (h : PageGrow iid s s')
    (hb : issuesBound s) : issuesBound s' := by
  intro i hi
  rw [h.issues] at hi
  exact Nat.lt_of_lt_of_le (hb i hi) h.nextLe

theorem reelStep_grow (iid : Nat) (rn : String) (s : S) :
    PageGrow iid s (reelStep rn s).2 := by
  rcases reelStep_cases rn s with h | h <;> rw [h]
  · exact pageGrow_refl _ _
  · exact
      { issuesP := rfl, pagesP := rfl, curB := rfl, batches := rfl, titles := rfl,
        awardees := rfl, events := rfl, issues := rfl, issueNotes := rfl,
        nextLe := Nat.le_succ _,
        reels := ⟨[{ id := s.db.nextId, number := rn, batch := s.currentBatch, implicit := true }],
          rfl, by
            intro r hr
            simp only [List.mem_singleton] at hr
            subst hr
            exact ⟨rfl, Nat.le_refl _, Nat.lt_succ_self _⟩⟩,
        rest := ⟨[], [], [], [], by simp [S.freshId, S.addReel], by simp [S.freshId, S.addReel],
          by simp [S.freshId, S.addReel], by simp [S.freshId, S.addReel], by simp, by simp,
          by simp, by simp, by simp⟩ }

theorem load_page_grow (cfg : Cfg) (env : Env) (doc : Doc) (div : PageDiv)
    (issue : IssueRec) (s : S) (hpb : pagesBound s) :
    PageGrow issue.id s (load_page cfg env doc div issue s).1 := by
  unfold load_page
  split
  · exact pageGrow_refl _ _
  next dmdid =>
    split
    · exact pageGrow_refl _ _
    next mods hm =>
      split
      · exact pageGrow_refl _ _
      next seq hseq =>
        dsimp only
        split
        · exact reelStep_grow _ _ s
        next sl hs =>
          refine pageGrow_trans (reelStep_grow issue.id (strTrim mods.reelNumber) s) ?_
          refine pageSaveTail_grow issue.id cfg env doc div mods
            { id := 0, issueId := issue.id, sequence := seq, number := strTrim mods.pageNumber,
              reelId := (reelStep (strTrim mods.reelNumber) s).1, sectionLabel := sl }
            (reelStep (strTrim mods.reelNumber) s).2 ?_ rfl
          exact pageGrow_pagesBound (reelStep_grow issue.id (strTrim mods.reelNumber) s) hpb

/-! ## The growth relation of the page loop (counters may advance) -/

structure LoopGrow (iid : Nat) (s s' : S) : Prop where
  issuesP : s'.issuesProcessed = s.issuesProcessed
  curB : s'.currentBatch = s.currentBatch
  batches : s'.db.batches = s.db.batches
  titles : s'.db.titles = s.db.titles
  awardees : s'.db.awardees = s.db.awardees
  events : s'.db.events = s.db.events
  issues : s'.db.issues = s.db.issues
  issueNotes : s'.db.issueNotes = s.db.issueNotes
  nextLe : s.db.nextId ≤ s'.db.nextId
  reels : ∃ nr, s'.db.reels = s.db.reels ++ nr ∧
    ∀ r ∈ nr, r.batch = s.currentBatch ∧ s.db.nextId ≤ r.id ∧ r.id < s'.db.nextId
  rest : ∃ np npn no nd,
    s'.db.pages = s.db.pages ++ np ∧
    s'.db.pageNotes = s.db.pageNotes ++ npn ∧
    s'.db.ocrs = s.db.ocrs ++ no ∧
    s'.db.solrDocs = s.db.solrDocs ++ nd ∧
    (∀ p ∈ np, p.issueId = iid ∧ s.db.nextId ≤ p.id ∧ p.id < s'.db.nextId) ∧
    (np.map PageRec.id).Nodup ∧
    (∀ n ∈ npn, n.ownerId ∈ np.map PageRec.id) ∧
    (∀ o ∈ no, o.pageId ∈ np.map PageRec.id) ∧
    (∀ d ∈ nd, d.batch = s.currentBatch)

theorem PageGrow.toLoop {iid : Nat} {s s' : S} (h : PageGrow iid s s') : LoopGrow iid s s' :=
  { issuesP := h.issuesP, curB := h.curB, batches := h.batches, titles := h.titles,
    awardees := h.awardees, events := h.events, issues := h.issues,
    issueNotes := h.issueNotes, nextLe := h.nextLe, reels := h.reels, rest := h.rest }

theorem loopGrow_refl (iid : Nat) (s : S) : LoopGrow iid s s :=
  (pageGrow_refl iid s).toLoop

theorem loopGrow_bump {iid : Nat} (s : S) : LoopGrow iid s s.bumpPages :=
  { issuesP := rfl, curB := rfl, batches := rfl, titles := rfl, awardees := rfl,
    events := rfl, issues := rfl, issueNotes := rfl, nextLe := Nat.le_refl _,
    reels := ⟨[], by simp [S.bumpPages], by simp⟩,
    rest := ⟨[], [], [], [], by simp [S.bumpPages], by simp [S.bumpPages],
      by simp [S.bumpPages], by simp [S.bumpPages], by simp, by simp, by simp, by simp,
      by simp⟩ }

theorem loopGrow_trans {iid : Nat} {s1 s2 s3 : S} (h1 : LoopGrow iid s1 s2)
    (h2 : LoopGrow iid s2 s3) : LoopGrow iid s1 s3 := by
  obtain ⟨nr1, hr1, hnr1⟩ := h1.reels
  obtain ⟨nr2, hr2, hnr2⟩ := h2.reels
  obtain ⟨np1, npn1, no1, nd1, hp1, hn1, ho1, hd1, hpp1, hnd1, hown1, hopg1, hdb1⟩ := h1.rest
  obtain ⟨np2, npn2, no2, nd2, hp2, hn2, ho2, hd2, hpp2, hnd2, hown2, hopg2, hdb2⟩ := h2.rest
  refine
    { issuesP := h2.issuesP.trans h1.issuesP, curB := h2.curB.trans h1.curB,
      batches := h2.batches.trans h1.batches, titles := h2.titles.trans h1.titles,
      awardees := h2.awardees.trans h1.awardees, events := h2.events.trans h1.events,
      issues := h2.issues.trans h1.issues, issueNotes := h2.issueNotes.trans h1.issueNotes,
      nextLe := h1.nextLe.trans h2.nextLe,
      reels := ⟨nr1 ++ nr2, by rw [hr2, hr1, List.append_assoc], ?_⟩,
      rest := ⟨np1 ++ np2, npn1 ++ npn2, no1 ++ no2, nd1 ++ nd2,
        by rw [hp2, hp1, List.append_assoc], by rw [hn2, hn1, List.append_assoc],
        by rw [ho2, ho1, List.append_assoc], by rw [hd2, hd1, List.append_assoc],
        ?_, ?_, ?_, ?_, ?_⟩ }
  · intro r hr
    rcases List.mem_append.1 hr with h | h
    · obtain ⟨hb, hlo, hhi⟩ := hnr1 r h
      exact ⟨hb, hlo, Nat.lt_of_lt_of_le hhi h2.nextLe⟩
    · obtain ⟨hb, hlo, hhi⟩ := hnr2 r h
      exact ⟨by rw [hb, h1.curB], Nat.le_trans h1.nextLe hlo, hhi⟩
  · intro p hp
    rcases List.mem_append.1 hp with h | h
    · obtain ⟨hi, hlo, hhi⟩ := hpp1 p h
      exact ⟨hi, hlo, Nat.lt_of_lt_of_le hhi h2.nextLe⟩
    · obtain ⟨hi, hlo, hhi⟩ := hpp2 p h
      exact ⟨hi, Nat.le_trans h1.nextLe hlo, hhi⟩
  · rw [List.map_append]
    refine List.Nodup.append hnd1 hnd2 ?_
    intro a ha1 ha2
    simp only [List.mem_map] at ha1 ha2
    obtain ⟨p1, hp1m, hid1⟩ := ha1
    obtain ⟨p2, hp2m, hid2⟩ := ha2
    have hb1 := (hpp1 p1 hp1m).2.2
    have hb2 := (hpp2 p2 hp2m).2.1
    rw [hid1] at hb1
    rw [hid2] at hb2
    exact absurd (Nat.lt_of_lt_of_le hb1 hb2) (Nat.lt_irrefl a)
  · intro n hn
    rw [List.map_append]
    rcases List.mem_append.1 hn with h | h
    · exact List.mem_append_left _ (hown1 n h)
    · exact List.mem_append_right _ (hown2 n h)
  · intro o ho
    rw [List.map_append]
    rcases List.mem_append.1 ho with h | h
    · exact List.mem_append_left _ (hopg1 o h)
    · exact List.mem_append_right _ (hopg2 o h)
  · intro d hd
    rcases List.mem_append.1 hd with h | h
    · exact hdb1 d h
    · exact (hdb2 d h).trans h1.curB

theorem loopGrow_pagesBound {iid : Nat} {s s' : S} (h : LoopGrow iid s s')
    (hb : pagesBound s) : pagesBound s' := by
  obtain ⟨np, npn, no, nd, hp, _, _, _, hpp, _⟩ := h.rest
  intro q hq
  rw [hp] at hq
  rcases List.mem_append.1 hq with h1 | h1
  · exact Nat.lt_of_lt_of_le (hb q h1) h.nextLe
  · exact (hpp q h1).2.2

theorem loadPages_grow (cfg : Cfg) (env : Env) (doc : Doc) (issue : IssueRec) :
    ∀ (divs : List PageDiv) (s : S), pagesBound s →
      LoopGrow issue.id s (loadPages cfg env doc issue divs s).1 := by
  intro divs
  induction divs with
  | nil => intro s _; exact loopGrow_refl _ _
  | cons d rest ih =>
    intro s hb
    rw [loadPages]
    rcases hl : load_page cfg env doc d issue s with ⟨s1, r1⟩
    dsimp only
    have hg : PageGrow issue.id s s1 := by
      have h0 := load_page_grow cfg env doc d issue s hb
      rw [hl] at h0
      exact h0
    have hg2 : LoopGrow issue.id s s1.bumpPages :=
      loopGrow_trans hg.toLoop (loopGrow_bump s1)
    have hb2 : pagesBound s1.bumpPages := by
      intro q hq
      exact pageGrow_pagesBound hg hb q hq
    match r1 with
    | .ok _ => exact loopGrow_trans hg2 (ih s1.bumpPages hb2)
    | .error (.batchLoaderErr m) => exact loopGrow_trans hg2 (ih s1.bumpPages hb2)
    | .error (.valueErr m) => exact hg2
    | .error (.keyErr k) => exact hg2
    | .error .indexErr => exact hg2
    | .error (.doesNotExist m) => exact hg2
    | .error (.attributeErr a) => exact hg2
    | .error (.typeErr m) => exact hg2
    | .error (.ioErr m) => exact hg2

/-! ## Counter behavior of the loops -/

theorem loadPages_count (cfg : Cfg) (env : Env) (doc : Doc) (issue : IssueRec) :
    ∀ (divs : List PageDiv) (s s' : S), pagesBound s →
      loadPages cfg env doc issue divs s = (s', .ok ()) →
      s'.pagesProcessed = s.pagesProcessed + divs.length := by
  intro divs
  induction divs with
  | nil =>
    intro s s' _ h
    rw [loadPages] at h
    cases h
    simp
  | cons d rest ih =>
    intro s s' hb h
    rw [loadPages] at h
    rcases hl : load_page cfg env doc d issue s with ⟨s1, r1⟩
    rw [hl] at h
    dsimp only at h
    have hg : PageGrow issue.id s s1 := by
      have h0 := load_page_grow cfg env doc d issue s hb
      rw [hl] at h0
      exact h0
    have hb2 : pagesBound s1.bumpPages := fun q hq => pageGrow_pagesBound hg hb q hq
    have hcount : s1.bumpPages.pagesProcessed = s.pagesProcessed + 1 := by
      have := hg.pagesP
      simp only [S.bumpPages]
      rw [this]
    match r1, h with
    | .ok _, h =>
      have := ih s1.bumpPages s' hb2 h
      rw [this, hcount, List.length_cons]
      omega
    | .error (.batchLoaderErr m), h =>
      have := ih s1.bumpPages s' hb2 h
      rw [this, hcount, List.length_cons]
      omega
    | .error (.valueErr m), h => cases h
    | .error (.keyErr k), h => cases h
    | .error .indexErr, h => cases h
    | .error (.doesNotExist m), h => cases h
    | .error (.attributeErr a), h => cases h
    | .error (.typeErr m), h => cases h
    | .error (.ioErr m), h => cases h

/-- One step of the issue loop: a ValueError from loading the issue is
logged and skipped, the loop continuing with the remaining issues. -/
theorem loadIssues_skip (cfg : Cfg) (env : Env) (bp : String) {t : String}
    {rest : List (Option String)} {s s1 : S} {m : String}
    (h : load_issue cfg env (normPath (pyJoin bp t)) s = (s1, .error (.valueErr m))) :
    loadIssues cfg env bp (some t :: rest) s = loadIssues cfg env bp rest s1 := by
  rw [loadIssues, h]

/-- One step of the issue loop: a successfully loaded issue advances
issues_processed and the loop continues. -/
theorem loadIssues_step_ok (cfg : Cfg) (env : Env) (bp : String) {t : String}
    {rest : List (Option String)} {s s1 : S} {i : IssueRec}
    (h : load_issue cfg env (normPath (pyJoin bp t)) s = (s1, .ok i)) :
    loadIssues cfg env bp (some t :: rest) s = loadIssues cfg env bp rest s1.bumpIssues := by
  rw [loadIssues, h]

/-- One step of the issue loop: any failure that is not a ValueError aborts
the whole loop, propagating the error. -/
theorem loadIssues_abort (cfg : Cfg) (env : Env) (bp : String) {t : String}
    {rest : List (Option String)} {s s1 : S} {e : PyErr}
    (h : load_issue cfg env (normPath (pyJoin bp t)) s = (s1, .error e))
    (hne : ∀ m, e ≠ .valueErr m) :
    loadIssues cfg env bp (some t :: rest) s = (s1, .error e) := by
  rw [loadIssues, h]
  cases e with
  | valueErr m => exact absurd rfl (hne m)
  | batchLoaderErr m => rfl
  | keyErr k => rfl
  | indexErr => rfl
  | doesNotExist m => rfl
  | attributeErr a => rfl
  | typeErr m => rfl
  | ioErr m => rfl

/-! ## basename facts -/

theorem splitOnCharList_ne_nil (sep : Char) (l : List Char) : splitOnCharList sep l ≠ [] := by
  induction l with
  | nil => simp [splitOnCharList]
  | cons c rest ih =>
    rw [splitOnCharList]
    split
    · simp
    · split
      · simp
      · simp

theorem splitOnCharList_no_sep (sep : Char) :
    ∀ (l : List Char) (p : List Char), p ∈ splitOnCharList sep l → sep ∉ p := by
  intro l
  induction l with
  | nil =>
    intro p hp
    simp only [splitOnCharList, List.mem_singleton] at hp
    subst hp
    simp
  | cons c rest ih =>
    intro p hp
    rw [splitOnCharList] at hp
    by_cases hc : c = sep
    · rw [if_pos hc] at hp
      rcases List.mem_cons.1 hp with h | h
      · subst h; simp
      · exact ih p h
    · rw [if_neg hc] at hp
      rcases hr : splitOnCharList sep rest with _ | ⟨h0, t0⟩
      · exact absurd hr (splitOnCharList_ne_nil sep rest)
      · rw [hr] at hp
        rcases List.mem_cons.1 hp with h | h
        · subst h
          intro hmem
          rcases List.mem_cons.1 hmem with h1 | h1
          · exact hc h1.symm
          · exact ih h0 (by rw [hr]; simp) h1
        · exact ih p (by rw [hr]; simp [h])

theorem splitOnCharList_of_no_sep (sep : Char) :
    ∀ (l : List Char), sep ∉ l → splitOnCharList sep l = [l] := by
  intro l
  induction l with
  | nil => intro _; rfl
  | cons c rest ih =>
    intro h
    rw [splitOnCharList]
    rw [if_neg (fun hc => h (by simp [hc]))]
    rw [ih (fun hm => h (by simp [hm]))]

theorem getLastD_map_mk (l : List (List Char)) (h : l ≠ []) :
    ∃ p ∈ l, ((l.map (fun x => (⟨x⟩ : String))).getLastD "") = (⟨p⟩ : String) := by
  induction l with
  | nil => exact absurd rfl h
  | cons a t ih =>
    cases t with
    | nil => exact ⟨a, by simp, rfl⟩
    | cons b t2 =>
      obtain ⟨p, hp, hq⟩ := ih (by simp)
      exact ⟨p, by simp [hp], by simpa using hq⟩

theorem basename_no_slash (s : String) : '/' ∉ (basename s).toList := by
  unfold basename splitOnChar
  obtain ⟨p, hp, hq⟩ := getLastD_map_mk (splitOnCharList '/' s.toList)
    (splitOnCharList_ne_nil '/' s.toList)
  rw [hq]
  exact splitOnCharList_no_sep '/' s.toList p hp

theorem basename_of_no_slash (b : String) (h : '/' ∉ b.toList) : basename b = b := by
  unfold basename splitOnChar
  rw [splitOnCharList_of_no_sep '/' b.toList h]
  rfl

theorem basename_idem (s : String) : basename (basename s) = basename s :=
  basename_of_no_slash (basename s) (basename_no_slash s)

theorem normalize_basename {nm name : String} (h : normalize_batch_name nm = .ok name) :
    basename name = name := by
  unfold normalize_batch_name at h
  dsimp only at h
  split at h
  · cases h
    exact basename_idem _
  · cases h

/-! ## The growth relation of the issue and reel loops -/

structure BatchGrow (name : String) (s s' : S) : Prop where
  curB : s'.currentBatch = s.currentBatch
  batches : s'.db.batches = s.db.batches
  titles : s'.db.titles = s.db.titles
  awardees : s'.db.awardees = s.db.awardees
  events : s'.db.events = s.db.events
  nextLe : s.db.nextId ≤ s'.db.nextId
  reels : ∃ nr, s'.db.reels = s.db.reels ++ nr ∧
    ∀ r ∈ nr, r.batch = name ∧ s.db.nextId ≤ r.id ∧ r.id < s'.db.nextId
  big : ∃ ni np nin npn no nd,
    s'.db.issues = s.db.issues ++ ni ∧
    s'.db.pages = s.db.pages ++ np ∧
    s'.db.issueNotes = s.db.issueNotes ++ nin ∧
    s'.db.pageNotes = s.db.pageNotes ++ npn ∧
    s'.db.ocrs = s.db.ocrs ++ no ∧
    s'.db.solrDocs = s.db.solrDocs ++ nd ∧
    (∀ i ∈ ni, i.batch = name ∧ s.db.nextId ≤ i.id ∧ i.id < s'.db.nextId) ∧
    (ni.map IssueRec.id).Nodup ∧
    (∀ p ∈ np, p.issueId ∈ ni.map IssueRec.id ∧ s.db.nextId ≤ p.id ∧ p.id < s'.db.nextId) ∧
    (np.map PageRec.id).Nodup ∧
    (∀ n ∈ nin, n.ownerId ∈ ni.map IssueRec.id) ∧
    (∀ n ∈ npn, n.ownerId ∈ np.map PageRec.id) ∧
    (∀ o ∈ no, o.pageId ∈ np.map PageRec.id) ∧
    (∀ d ∈ nd, d.batch = name)

theorem batchGrow_refl (name : String) (s : S) : BatchGrow name s s :=
  { curB := rfl, batches := rfl, titles := rfl, awardees := rfl, events := rfl,
    nextLe := Nat.le_refl _,
    reels := ⟨[], by simp, by simp⟩,
    big := ⟨[], [], [], [], [], [], by simp, by simp, by simp, by simp, by simp, by simp,
      by simp, by simp, by simp, by simp, by simp, by simp, by simp, by simp⟩ }

theorem batchGrow_trans {name : String} {s1 s2 s3 : S} (h1 : BatchGrow name s1 s2)
    (h2 : BatchGrow name s2 s3) : BatchGrow name s1 s3 := by
  obtain ⟨nr1, hr1, hnr1⟩ := h1.reels
  obtain ⟨nr2, hr2, hnr2⟩ := h2.reels
  obtain ⟨ni1, np1, nin1, npn1, no1, nd1, hi1, hp1, hin1, hpn1, ho1, hd1,
    hii1, hinod1, hpp1, hpnod1, hino1, hpno1, hoo1, hdd1⟩ := h1.big
  obtain ⟨ni2, np2, nin2, npn2, no2, nd2, hi2, hp2, hin2, hpn2, ho2, hd2,
    hii2, hinod2, hpp2, hpnod2, hino2, hpno2, hoo2, hdd2⟩ := h2.big
  refine
    { curB := h2.curB.trans h1.curB, batches := h2.batches.trans h1.batches,
      titles := h2.titles.trans h1.titles, awardees := h2.awardees.trans h1.awardees,
      events := h2.events.trans h1.events, nextLe := h1.nextLe.trans h2.nextLe,
      reels := ⟨nr1 ++ nr2, by rw [hr2, hr1, List.append_assoc], ?_⟩,
      big := ⟨ni1 ++ ni2, np1 ++ np2, nin1 ++ nin2, npn1 ++ npn2, no1 ++ no2, nd1 ++ nd2,
        by rw [hi2, hi1, List.append_assoc], by rw [hp2, hp1, List.append_assoc],
        by rw [hin2, hin1, List.append_assoc], by rw [hpn2, hpn1, List.append_assoc],
        by rw [ho2, ho1, List.append_assoc], by rw [hd2, hd1, List.append_assoc],
        ?_, ?_, ?_, ?_, ?_, ?_, ?_, ?_⟩ }
  · intro r hr
    rcases List.mem_append.1 hr with h | h
    · obtain ⟨hb, hlo, hhi⟩ := hnr1 r h
      exact ⟨hb, hlo, Nat.lt_of_lt_of_le hhi h2.nextLe⟩
    · obtain ⟨hb, hlo, hhi⟩ := hnr2 r h
      exact ⟨hb, Nat.le_trans h1.nextLe hlo, hhi⟩
  · intro i hi
    rcases List.mem_append.1 hi with h | h
    · obtain ⟨hb, hlo, hhi⟩ := hii1 i h
      exact ⟨hb, hlo, Nat.lt_of_lt_of_le hhi h2.nextLe⟩
    · obtain ⟨hb, hlo, hhi⟩ := hii2 i h
      exact ⟨hb, Nat.le_trans h1.nextLe hlo, hhi⟩
  · rw [List.map_append]
    refine List.Nodup.append hinod1 hinod2 ?_
    intro a ha1 ha2
    simp only [List.mem_map] at ha1 ha2
    obtain ⟨p1, hp1m, hid1⟩ := ha1
    obtain ⟨p2, hp2m, hid2⟩ := ha2
    have hb1 := (hii1 p1 hp1m).2.2
    have hb2 := (hii2 p2 hp2m).2.1
    rw [hid1] at hb1
    rw [hid2] at hb2
    exact absurd (Nat.lt_of_lt_of_le hb1 hb2) (Nat.lt_irrefl a)
  · intro p hp
    rw [List.map_append]
    rcases List.mem_append.1 hp with h | h
    · obtain ⟨hm, hlo, hhi⟩ := hpp1 p h
      exact ⟨List.mem_append_left _ hm, hlo, Nat.lt_of_lt_of_le hhi h2.nextLe⟩
    · obtain ⟨hm, hlo, hhi⟩ := hpp2 p h
      exact ⟨List.mem_append_right _ hm, Nat.le_trans h1.nextLe hlo, hhi⟩
  · rw [List.map_append]
    refine List.Nodup.append hpnod1 hpnod2 ?_
    intro a ha1 ha2
    simp only [List.mem_map] at ha1 ha2
    obtain ⟨p1, hp1m, hid1⟩ := ha1
    obtain ⟨p2, hp2m, hid2⟩ := ha2
    have hb1 := (hpp1 p1 hp1m).2.2
    have hb2 := (hpp2 p2 hp2m).2.1
    rw [hid1] at hb1
    rw [hid2] at hb2
    exact absurd (Nat.lt_of_lt_of_le hb1 hb2) (Nat.lt_irrefl a)
  · intro n hn
    rw [List.map_append]
    rcases List.mem_append.1 hn with h | h
    · exact List.mem_append_left _ (hino1 n h)
    · exact List.mem_append_right _ (hino2 n h)
  · intro n hn
    rw [List.map_append]
    rcases List.mem_append.1 hn with h | h
    · exact List.mem_append_left _ (hpno1 n h)
    · exact List.mem_append_right _ (hpno2 n h)
  · intro o ho
    rw [List.map_append]
    rcases List.mem_append.1 ho with h | h
    · exact List.mem_append_left _ (hoo1 o h)
    · exact List.mem_append_right _ (hoo2 o h)
  · intro d hd
    rcases List.mem_append.1 hd with h | h
    · exact hdd1 d h
    · exact hdd2 d h

theorem batchGrow_pagesBound {name : String} {s s' : S} (h : BatchGrow name s s')
    (hb : pagesBound s) : pagesBound s' := by
  obtain ⟨ni, np, nin, npn, no, nd, _, hp, _, _, _, _, _, _, hpp, _⟩ := h.big
  intro q hq
  rw [hp] at hq
  rcases List.mem_append.1 hq with h1 | h1
  · exact Nat.lt_of_lt_of_le (hb q h1) h.nextLe
  · exact (hpp q h1).2.2

theorem batchGrow_issuesBound {name : String} {s s' : S} (h : BatchGrow name s s')
    (hb : issuesBound s) : issuesBound s' := by
  obtain ⟨ni, np, nin, npn, no, nd, hi, _, _, _, _, _, hii, _⟩ := h.big
  intro q hq
  rw [hi] at hq
  rcases List.mem_append.1 hq with h1 | h1
  · exact Nat.lt_of_lt_of_le (hb q h1) h.nextLe
  · exact (hii q h1).2.2

theorem map_replace_issue_of_ne {l : List IssueRec} {p' : IssueRec}
    (h : ∀ q ∈ l, q.id ≠ p'.id) : (l.map (fun q => if q.id = p'.id then p' else q)) = l := by
  induction l with
  | nil => rfl
  | cons a t ih =>
    simp only [List.map_cons]
    rw [if_neg (h a (by simp)), ih (fun q hq => h q (by simp [hq]))]

theorem loadPages_grow2 {cfg : Cfg} {env : Env} {doc : Doc} {issue : IssueRec}
    {divs : List PageDiv} {s s' : S} {r : Except PyErr Unit}
    (h : loadPages cfg env doc issue divs s = (s', r)) (hb : pagesBound s) :
    LoopGrow issue.id s s' := by
  have h0 := loadPages_grow cfg env doc issue divs s hb
  rw [h] at h0
  exact h0

theorem addIssue_update_issues (s : S) (i : IssueRec) (nrecs : List NoteRec)
    (hib : ∀ q ∈ s.db.issues, q.id ≠ i.id) :
    (((s.freshId.2.addIssue i).addIssueNotes nrecs).updateIssue i).db.issues
      = s.db.issues ++ [i] := by
  simp only [S.updateIssue, S.addIssueNotes, S.addIssue, S.freshId]
  rw [List.map_append, map_replace_issue_of_ne hib]
  simp

theorem issueTail_grow (cfg : Cfg) (env : Env) (doc : Doc) (divs : List PageDiv)
    (i : IssueRec) (nrecs : List NoteRec) (s : S)
    (hpb : pagesBound s) (hold : ∀ q ∈ s.db.issues, q.id ≠ i.id)
    (hiid : i.id = s.db.nextId) (hbatch : i.batch = s.currentBatch)
    (hnrec : ∀ n ∈ nrecs, n.ownerId = i.id) :
    ∀ (s5 : S) (r5 : Except PyErr Unit),
      loadPages cfg env doc i divs
        (((s.freshId.2.addIssue i).addIssueNotes nrecs).updateIssue i) = (s5, r5) →
      BatchGrow s.currentBatch s s5 := by
  intro s5 r5 heq
  have hb3 : pagesBound (((s.freshId.2.addIssue i).addIssueNotes nrecs).updateIssue i) :=
    fun q hq => Nat.lt_succ_of_lt (hpb q hq)
  have lg := loadPages_grow2 heq hb3
  have hiss := addIssue_update_issues s i nrecs hold
  obtain ⟨nr, hnr, hnrp⟩ := lg.reels
  obtain ⟨np, npn, no, nd, hp5, hn5, ho5, hd5, hpp, hnod, hown, hopg, hdbat⟩ := lg.rest
  refine
    { curB := lg.curB, batches := lg.batches, titles := lg.titles,
      awardees := lg.awardees, events := lg.events,
      nextLe := Nat.le_trans (Nat.le_succ _) lg.nextLe,
      reels := ⟨nr, hnr, ?_⟩,
      big := ⟨[i], np, nrecs, npn, no, nd,
        by rw [lg.issues]; exact hiss,
        hp5, lg.issueNotes, hn5, ho5, hd5,
        ?_, by simp, ?_, hnod, ?_, hown, hopg, ?_⟩ }
  · intro rr hrr
    obtain ⟨hb1, hb2, hb3x⟩ := hnrp rr hrr
    exact ⟨hb1, Nat.le_trans (Nat.le_succ _) hb2, hb3x⟩
  · intro j hj
    simp only [List.mem_singleton] at hj
    subst hj
    refine ⟨hbatch, by rw [hiid], ?_⟩
    rw [hiid]
    exact Nat.lt_of_lt_of_le (Nat.lt_succ_self _) lg.nextLe
  · intro p hp
    obtain ⟨hq1, hq2, hq3⟩ := hpp p hp
    refine ⟨?_, Nat.le_trans (Nat.le_succ _) hq2, hq3⟩
    simp only [List.map_cons, List.map_nil, List.mem_singleton]
    exact hq1
  · intro n hn
    simp only [List.map_cons, List.map_nil, List.mem_singleton]
    exact hnrec n hn
  · intro d hd
    exact hdbat d hd

theorem load_issue_grow (cfg : Cfg) (env : Env) (f : String) (s : S)
    (hpb : pagesBound s) (hib : issuesBound s) :
    BatchGrow s.currentBatch s (load_issue cfg env f s).1 := by
  unfold load_issue
  split
  · exact batchGrow_refl _ _
  next doc hdoc =>
    split
    · exact batchGrow_refl _ _
    next r hr =>
      dsimp only
      have hold : ∀ q ∈ s.db.issues, q.id ≠ s.db.nextId := by
        intro q hq he
        have hlt := hib q hq
        rw [he] at hlt
        exact absurd hlt (Nat.lt_irrefl _)
      split
      next s5 e heq =>
        exact issueTail_grow cfg env doc r.1.pageDivs _ _ s hpb hold rfl rfl
          (by
            intro n hn
            simp only [List.mem_map] at hn
            obtain ⟨m, _, hm⟩ := hn
            rw [← hm])
          s5 (.error e) heq
      next s5 u heq =>
        exact issueTail_grow cfg env doc r.1.pageDivs _ _ s hpb hold rfl rfl
          (by
            intro n hn
            simp only [List.mem_map] at hn
            obtain ⟨m, _, hm⟩ := hn
            rw [← hm])
          s5 (.ok u) heq

theorem batchGrow_bumpIssues (name : String) (s : S) : BatchGrow name s s.bumpIssues :=
  { curB := rfl, batches := rfl, titles := rfl, awardees := rfl, events := rfl,
    nextLe := Nat.le_refl _,
    reels := ⟨[], by simp [S.bumpIssues], by simp⟩,
    big := ⟨[], [], [], [], [], [], by simp [S.bumpIssues], by simp [S.bumpIssues],
      by simp [S.bumpIssues], by simp [S.bumpIssues], by simp [S.bumpIssues],
      by simp [S.bumpIssues], by simp, by simp, by simp, by simp, by simp, by simp,
      by simp, by simp⟩ }

theorem loadIssues_grow (cfg : Cfg) (env : Env) (bp : String) (name : String) :
    ∀ (files : List (Option String)) (s : S), s.currentBatch = name →
      pagesBound s → issuesBound s →
      BatchGrow name s (loadIssues cfg env bp files s).1 := by
  intro files
  induction files with
  | nil => intro s _ _ _; exact batchGrow_refl _ _
  | cons f rest ih =>
    intro s hc hpb hib
    match f with
    | none => rw [loadIssues]; exact batchGrow_refl _ _
    | some t =>
      rw [loadIssues]
      rcases hl : load_issue cfg env (normPath (pyJoin bp t)) s with ⟨s1, r1⟩
      dsimp only
      have hg : BatchGrow name s s1 := by
        have h0 := load_issue_grow cfg env (normPath (pyJoin bp t)) s hpb hib
        rw [hl] at h0
        rw [hc] at h0
        exact h0
      have hc1 : s1.currentBatch = name := hg.curB.trans hc
      have hpb1 := batchGrow_pagesBound hg hpb
      have hib1 := batchGrow_issuesBound hg hib
      match r1 with
      | .error (.valueErr m) => exact batchGrow_trans hg (ih s1 hc1 hpb1 hib1)
      | .ok _ =>
        refine batchGrow_trans hg (batchGrow_trans (batchGrow_bumpIssues name s1) ?_)
        exact ih s1.bumpIssues hc1 (fun q hq => hpb1 q hq) (fun q hq => hib1 q hq)
      | .error (.batchLoaderErr m) => exact hg
      | .error (.keyErr k) => exact hg
      | .error .indexErr => exact hg
      | .error (.doesNotExist m) => exact hg
      | .error (.attributeErr a) => exact hg
      | .error (.typeErr m) => exact hg
      | .error (.ioErr m) => exact hg

theorem loadReels_grow (name : String) :
    ∀ (rl : List (Option String)) (s : S), BatchGrow name s (loadReels name rl s).1 := by
  intro rl
  induction rl with
  | nil => intro s; exact batchGrow_refl _ _
  | cons f rest ih =>
    intro s
    match f with
    | none => rw [loadReels]; exact batchGrow_refl _ _
    | some rn =>
      rw [loadReels]
      dsimp only
      split
      · exact ih s
      · refine batchGrow_trans ?_ (ih _)
        exact
          { curB := rfl, batches := rfl, titles := rfl, awardees := rfl, events := rfl,
            nextLe := Nat.le_succ _,
            reels := ⟨[{ id := s.db.nextId, number := strTrim rn, batch := name, implicit := false }],
              rfl, by
                intro r hr
                simp only [List.mem_singleton] at hr
                subst hr
                exact ⟨rfl, Nat.le_refl _, Nat.lt_succ_self _⟩⟩,
            big := ⟨[], [], [], [], [], [], by simp [S.freshId, S.addReel],
              by simp [S.freshId, S.addReel], by simp [S.freshId, S.addReel],
              by simp [S.freshId, S.addReel], by simp [S.freshId, S.addReel],
              by simp [S.freshId, S.addReel], by simp, by simp, by simp, by simp, by simp,
              by simp, by simp, by simp⟩ }

theorem map_replace_batch_of_ne {l : List BatchRec} {b : BatchRec}
    (h : ∀ x ∈ l, x.name ≠ b.name) : (l.map (fun x => if x.name = b.name then b else x)) = l := by
  induction l with
  | nil => rfl
  | cons a t ih =>
    simp only [List.map_cons]
    rw [if_neg (h a (by simp)), ih (fun q hq => h q (by simp [hq]))]

theorem saveBatchRec_noop (s : S) (b : BatchRec) (base : List BatchRec)
    (hb : s.db.batches = base ++ [b]) (hold : ∀ x ∈ base, x.name ≠ b.name) :
    s.saveBatchRec b = s := by
  unfold S.saveBatchRec
  have hany : s.db.batches.any (fun x => x.name == b.name) = true := by
    rw [hb]
    simp
  rw [hany]
  simp only [if_true]
  rw [hb, List.map_append, map_replace_batch_of_ne hold]
  simp only [List.map_cons, List.map_nil, if_pos]
  rw [← hb]

theorem create_batch_ok_shape {name : String} {s s' : S} {batch : BatchRec}
    (hbn : basename name = name)
    (h : create_batch name s = (s', .ok batch)) :
    (∀ x ∈ s.db.batches, x.name ≠ name) ∧ batch.name = name ∧
    s' = { s with db := { s.db with batches := s.db.batches ++ [batch] } } := by
  unfold create_batch at h
  split at h
  · cases h
  next hany =>
    have hnone : ∀ x ∈ s.db.batches, x.name ≠ name := by
      intro x hx he
      apply hany
      rw [List.any_eq_true]
      exact ⟨x, hx, by simp [he]⟩
    split at h
    next p0 p1 p2 p3 prest hsplit =>
      split at h
      next haw =>
        rw [Prod.mk.injEq] at h
        obtain ⟨hs, hb⟩ := h
        have hbatch : ({ name := basename name, awardee := p1 } : BatchRec) = batch := by
          injection hb
        subst hbatch
        refine ⟨hnone, hbn, ?_⟩
        rw [← hs]
        unfold S.saveBatchRec
        have hf : (s.db.batches.any (fun x =>
            x.name == ({ name := basename name, awardee := p1 } : BatchRec).name)) = false := by
          rw [List.any_eq_false]
          intro x hx
          show ¬ (x.name == basename name) = true
          rw [hbn]
          simp only [beq_iff_eq]
          exact hnone x hx
        rw [hf]
        simp
      next => cases h
    next => cases h

theorem loadReels_grow2 {name : String} {rl : List (Option String)} {s s' : S}
    {r : Except PyErr Unit} (h : loadReels name rl s = (s', r)) :
    BatchGrow name s s' := by
  have h0 := loadReels_grow name rl s
  rw [h] at h0
  exact h0

theorem loadIssues_grow2 {cfg : Cfg} {env : Env} {bp name : String}
    {files : List (Option String)} {s s' : S} {r : Except PyErr Unit}
    (h : loadIssues cfg env bp files s = (s', r)) (hc : s.currentBatch = name)
    (hpb : pagesBound s) (hib : issuesBound s) :
    BatchGrow name s s' := by
  have h0 := loadIssues_grow cfg env bp name files s hc hpb hib
  rw [h] at h0
  exact h0

/-- What a full (non fast path) successful load leaves in the store,
relative to the state before the starting-load event: the new batch record
appended, and reels, issues, pages, notes, OCR records and search
documents all owned by the batch, with fresh mutually distinct ids. -/
def LoadedShape (s0 s1 : S) (b : BatchRec) : Prop :=
  (∀ x ∈ s0.db.batches, x.name ≠ b.name) ∧
  s1.db.batches = s0.db.batches ++ [b] ∧
  s1.db.titles = s0.db.titles ∧
  s1.db.awardees = s0.db.awardees ∧
  (∃ tl, s1.db.events = s0.db.events ++ ({ batchName := b.name, message := "starting load" } : EventRec) :: tl) ∧
  s0.db.nextId ≤ s1.db.nextId ∧
  (∃ nr, s1.db.reels = s0.db.reels ++ nr ∧
    ∀ r ∈ nr, r.batch = b.name ∧ s0.db.nextId ≤ r.id ∧ r.id < s1.db.nextId) ∧
  (∃ ni np nin npn no nd,
    s1.db.issues = s0.db.issues ++ ni ∧
    s1.db.pages = s0.db.pages ++ np ∧
    s1.db.issueNotes = s0.db.issueNotes ++ nin ∧
    s1.db.pageNotes = s0.db.pageNotes ++ npn ∧
    s1.db.ocrs = s0.db.ocrs ++ no ∧
    s1.db.solrDocs = s0.db.solrDocs ++ nd ∧
    (∀ i ∈ ni, i.batch = b.name ∧ s0.db.nextId ≤ i.id ∧ i.id < s1.db.nextId) ∧
    (ni.map IssueRec.id).Nodup ∧
    (∀ p ∈ np, p.issueId ∈ ni.map IssueRec.id ∧ s0.db.nextId ≤ p.id ∧ p.id < s1.db.nextId) ∧
    (np.map PageRec.id).Nodup ∧
    (∀ n ∈ nin, n.ownerId ∈ ni.map IssueRec.id) ∧
    (∀ n ∈ npn, n.ownerId ∈ np.map PageRec.id) ∧
    (∀ o ∈ no, o.pageId ∈ np.map PageRec.id) ∧
    (∀ d ∈ nd, d.batch = b.name))

theorem loadBatchBody_ok_shape {cfg : Cfg} {env : Env} {name : String} {sE s' : S}
    {batch : BatchRec} (hbn : basename name = name)
    (hpb : pagesBound sE) (hib : issuesBound sE)
    (h : loadBatchBody cfg env name sE = (s', .ok batch)) :
    batch.name = name ∧
    (∀ x ∈ sE.db.batches, x.name ≠ name) ∧
    s'.db.batches = sE.db.batches ++ [batch] ∧
    s'.db.titles = sE.db.titles ∧
    s'.db.awardees = sE.db.awardees ∧
    (∃ tl, s'.db.events = sE.db.events ++ tl) ∧
    sE.db.nextId ≤ s'.db.nextId ∧
    (∃ nr, s'.db.reels = sE.db.reels ++ nr ∧
      ∀ r ∈ nr, r.batch = name ∧ sE.db.nextId ≤ r.id ∧ r.id < s'.db.nextId) ∧
    (∃ ni np nin npn no nd,
      s'.db.issues = sE.db.issues ++ ni ∧
      s'.db.pages = sE.db.pages ++ np ∧
      s'.db.issueNotes = sE.db.issueNotes ++ nin ∧
      s'.db.pageNotes = sE.db.pageNotes ++ npn ∧
      s'.db.ocrs = sE.db.ocrs ++ no ∧
      s'.db.solrDocs = sE.db.solrDocs ++ nd ∧
      (∀ i ∈ ni, i.batch = name ∧ sE.db.nextId ≤ i.id ∧ i.id < s'.db.nextId) ∧
      (ni.map IssueRec.id).Nodup ∧
      (∀ p ∈ np, p.issueId ∈ ni.map IssueRec.id ∧ sE.db.nextId ≤ p.id ∧ p.id < s'.db.nextId) ∧
      (np.map PageRec.id).Nodup ∧
      (∀ n ∈ nin, n.ownerId ∈ ni.map IssueRec.id) ∧
      (∀ n ∈ npn, n.ownerId ∈ np.map PageRec.id) ∧
      (∀ o ∈ no, o.pageId ∈ np.map PageRec.id) ∧
      (∀ d ∈ nd, d.batch = name)) := by
  unfold loadBatchBody at h
  split at h
  · cases h
  next s1 batch0 hceq =>
    dsimp only at h
    split at h
    · cases h
    next vfile hv =>
      split at h
      · cases h
      next doc hparse =>
        split at h
        · cases h
        next s3 u3 hR =>
          split at h
          · cases h
          next s4 u4 hI =>
            obtain ⟨hnone, hbname, hs1⟩ := create_batch_ok_shape hbn hceq
            subst hs1
            have g3 : BatchGrow name _ s3 := loadReels_grow2 hR
            have hc3 : s3.currentBatch = name := g3.curB
            have g4 : BatchGrow name _ s4 :=
              loadIssues_grow2 hI hc3 (batchGrow_pagesBound g3 hpb) (batchGrow_issuesBound g3 hib)
            have G : BatchGrow name _ s4 := batchGrow_trans g3 g4
            have h5 : (if cfg.processOcr = true then s4.pushOp .solrCommit else s4).db = s4.db := by
              split <;> rfl
            have hbb : (if cfg.processOcr = true then s4.pushOp .solrCommit else s4).db.batches
                = sE.db.batches ++ [batch0] := by
              rw [h5]
              exact G.batches
            have holds : ∀ x ∈ sE.db.batches, x.name ≠ batch0.name := by
              intro x hx
              rw [hbname]
              exact hnone x hx
            have h6 := saveBatchRec_noop _ batch0 sE.db.batches hbb holds
            rw [h6] at h
            rw [Prod.mk.injEq] at h
            obtain ⟨hs7, hb7⟩ := h
            have hbeq : batch0 = batch := by injection hb7
            subst hbeq
            subst hs7
            obtain ⟨nr, hnr, hnrp⟩ := G.reels
            obtain ⟨ni, np, nin, npn, no, nd, hi4, hp4, hin4, hpn4, ho4, hd4,
              hii, hinod, hpp, hpnod, hino, hpno, hoo, hdd⟩ := G.big
            have hn : (if cfg.processOcr = true then s4.pushOp .solrCommit else s4).db.nextId
                = s4.db.nextId := congrArg DB.nextId h5
            refine ⟨hbname, hnone, hbb, ?_, ?_, ?_, ?_, ⟨nr, ?_, ?_⟩,
              ⟨ni, np, nin, npn, no, nd, ?_, ?_, ?_, ?_, ?_, ?_, ?_, hinod, ?_, hpnod,
                hino, hpno, hoo, hdd⟩⟩
            · exact (congrArg DB.titles h5).trans G.titles
            · exact (congrArg DB.awardees h5).trans G.awardees
            · have he : (if cfg.processOcr = true then s4.pushOp Op.solrCommit else s4).db.events
                  = sE.db.events := (congrArg DB.events h5).trans G.events
              exact ⟨_, congrArg (fun l => l ++ [({ batchName := name, message := "processed " ++ natToStr (if cfg.processOcr = true then s4.pushOp Op.solrCommit else s4).issuesProcessed ++ " issues" } : EventRec)]) he⟩
            · exact Nat.le_trans G.nextLe (Nat.le_of_eq hn.symm)
            · exact (congrArg DB.reels h5).trans hnr
            · intro r hr
              obtain ⟨h1, h2, h3⟩ := hnrp r hr
              exact ⟨h1, h2, lt_of_lt_of_eq h3 hn.symm⟩
            · exact (congrArg DB.issues h5).trans hi4
            · exact (congrArg DB.pages h5).trans hp4
            · exact (congrArg DB.issueNotes h5).trans hin4
            · exact (congrArg DB.pageNotes h5).trans hpn4
            · exact (congrArg DB.ocrs h5).trans ho4
            · exact (congrArg DB.solrDocs h5).trans hd4
            · intro i hi
              obtain ⟨h1, h2, h3⟩ := hii i hi
              exact ⟨h1, h2, lt_of_lt_of_eq h3 hn.symm⟩
            · intro p hp
              obtain ⟨h1, h2, h3⟩ := hpp p hp
              exact ⟨h1, h2, lt_of_lt_of_eq h3 hn.symm⟩

theorem load_batch_ok_shape {cfg : Cfg} {env : Env} {bn : String} {strict : Bool}
    {s s1 : S} {b : BatchRec}
    (hpb : pagesBound s) (hib : issuesBound s)
    (h : load_batch cfg env bn strict s = (s1, .ok b)) :
    normalize_batch_name bn = .ok b.name ∧
    ((strict = false ∧ s.db.batches.find? (fun x => x.name == b.name) = some b ∧ s1 = s) ∨
      LoadedShape s s1 b) := by
  unfold load_batch at h
  split at h
  · cases h
  next name hnorm =>
    dsimp only at h
    split at h
    next b0 hfind =>
      rw [Prod.mk.injEq] at h
      obtain ⟨hs, hb⟩ := h
      have hb2 : b0 = b := by injection hb
      subst hb2
      cases strict with
      | true => simp at hfind
      | false =>
        rw [if_neg Bool.false_ne_true] at hfind
        have hpa := List.find?_some hfind
        simp only [beq_iff_eq] at hpa
        subst hpa
        exact ⟨hnorm, Or.inl ⟨rfl, hfind, hs.symm⟩⟩
    next hfind =>
      split at h
      next sB bb hbody =>
        rw [Prod.mk.injEq] at h
        obtain ⟨hs, hb⟩ := h
        have hb2 : bb = b := by injection hb
        subst hb2
        subst hs
        have hbn := normalize_basename hnorm
        have hpbE : pagesBound (s.pushEvent name "starting load") := hpb
        have hibE : issuesBound (s.pushEvent name "starting load") := hib
        have hsh := loadBatchBody_ok_shape hbn hpbE hibE hbody
        obtain ⟨hbnm, hnoneB, hbat, htit, haw, ⟨tl, hev⟩, hnle, hreels, hbig⟩ := hsh
        subst hbnm
        refine ⟨hnorm, Or.inr ⟨?_, hbat, htit, haw, ⟨tl, ?_⟩, hnle, hreels, hbig⟩⟩
        · intro x hx
          exact hnoneB x hx
        · have h2 : sB.db.events
              = (s.db.events ++ [({ batchName := BatchRec.name bb, message := "starting load" } : EventRec)]) ++ tl := hev
          rw [List.append_assoc, List.singleton_append] at h2
          exact h2
      next sB e hbody =>
        cases h

theorem purgePages_spec (ps : List PageRec) (s : S) :
    purgePages ps s = { s with
      db := { s.db with
        pages := s.db.pages.filter (fun q => decide (q.id ∉ ps.map PageRec.id)),
        pageNotes := s.db.pageNotes.filter (fun n => decide (n.ownerId ∉ ps.map PageRec.id)),
        ocrs := s.db.ocrs.filter (fun o => decide (o.pageId ∉ ps.map PageRec.id)) },
      trace := s.trace ++ ps.map (fun p => Op.delPage p.id) } := by
  induction ps generalizing s with
  | nil =>
    simp only [purgePages, List.map_nil, List.not_mem_nil, not_false_eq_true, decide_True,
      List.filter_true, List.append_nil]
  | cons p rest ih =>
    show purgePages rest ((s.deletePageRec p.id).pushOp (.delPage p.id)) = _
    rw [ih]
    simp only [S.deletePageRec, S.pushOp, List.filter_filter, List.map_cons, List.append_assoc,
      List.singleton_append]
    congr 1
    · congr 1
      · exact List.filter_congr (fun q hq => by simp [Bool.and_comm])
      · exact List.filter_congr (fun n hn => by simp [Bool.and_comm])
      · exact List.filter_congr (fun o ho => by simp [Bool.and_comm])

theorem filter_dead_pages {pages : List PageRec} {iid : Nat}
    (h : (pages.map PageRec.id).Nodup) :
    pages.filter (fun q => decide (q.id ∉ (pages.filter (fun p => p.issueId == iid)).map PageRec.id))
      = pages.filter (fun q => decide (¬ q.issueId = iid)) := by
  refine List.filter_congr ?_
  intro q hq
  refine decide_eq_decide.mpr (not_congr ?_)
  simp only [List.mem_map, List.mem_filter, beq_iff_eq]
  constructor
  · rintro ⟨p, ⟨hp, hpi⟩, hid⟩
    have hpq : p = q := List.inj_on_of_nodup_map h hp hq hid
    rw [← hpq]
    exact hpi
  · intro hqi
    exact ⟨q, ⟨hq, hqi⟩, rfl⟩

theorem filter_notMem_or {α : Type} (f : α → Nat) (l : List α) (A B C : List Nat)
    (hC : ∀ x, x ∈ C ↔ x ∈ A ∨ x ∈ B) :
    (l.filter (fun a => decide (f a ∉ A))).filter (fun a => decide (f a ∉ B))
      = l.filter (fun a => decide (f a ∉ C)) := by
  rw [List.filter_filter]
  refine List.filter_congr ?_
  intro a ha
  have h2 : (f a ∉ C) ↔ ((f a ∉ B) ∧ (f a ∉ A)) := by
    rw [hC (f a)]
    tauto
  rw [← Bool.decide_and, decide_eq_decide]
  exact h2.symm

theorem mem_dead_cons (pages : List PageRec) (iid : Nat) (restIds : List Nat) (x : Nat) :
    x ∈ (pages.filter (fun p => decide (p.issueId ∈ iid :: restIds))).map PageRec.id ↔
      x ∈ (pages.filter (fun p => p.issueId == iid)).map PageRec.id ∨
        x ∈ (pages.filter (fun p => decide (p.issueId ∈ restIds))).map PageRec.id := by
  simp only [List.mem_map, List.mem_filter, List.mem_cons, decide_eq_true_eq, beq_iff_eq]
  constructor
  · rintro ⟨p, ⟨hp, h | h⟩, hx⟩
    · exact Or.inl ⟨p, ⟨hp, h⟩, hx⟩
    · exact Or.inr ⟨p, ⟨hp, h⟩, hx⟩
  · rintro (⟨p, ⟨hp, h⟩, hx⟩ | ⟨p, ⟨hp, h⟩, hx⟩)
    · exact ⟨p, ⟨hp, Or.inl h⟩, hx⟩
    · exact ⟨p, ⟨hp, Or.inr h⟩, hx⟩

theorem filter_mem_rest_of_ne (pages : List PageRec) (iid : Nat) (restIds : List Nat)
    (hni : iid ∉ restIds) :
    (pages.filter (fun q => decide (¬ q.issueId = iid))).filter
        (fun p => decide (p.issueId ∈ restIds))
      = pages.filter (fun p => decide (p.issueId ∈ restIds)) := by
  rw [List.filter_filter]
  refine List.filter_congr ?_
  intro p hp
  by_cases hm : p.issueId ∈ restIds
  · have hne : ¬ p.issueId = iid := fun he => hni (he ▸ hm)
    simp [hm, hne]
  · simp [hm]

theorem trace_pages_step (P : List PageRec) (iid jid : Nat) (hne : jid ≠ iid) :
    (P.filter (fun q => decide (¬ q.issueId = iid))).filter (fun p => p.issueId == jid)
      = P.filter (fun p => p.issueId == jid) := by
  rw [List.filter_filter]
  refine List.filter_congr ?_
  intro p hp
  by_cases hm : p.issueId = jid
  · simp [hm, hne]
  · simp [hm]

theorem pages_step (P : List PageRec) (i : IssueRec) (rest : List IssueRec)
    (hnp : (P.map PageRec.id).Nodup) :
    (P.filter (fun q => decide (q.id ∉ (P.filter (fun p => p.issueId == i.id)).map PageRec.id))).filter
        (fun p => decide (p.issueId ∉ rest.map IssueRec.id))
      = P.filter (fun p => decide (p.issueId ∉ (i :: rest).map IssueRec.id)) := by
  rw [filter_dead_pages hnp, List.filter_filter]
  refine List.filter_congr ?_
  intro p hp
  simp [Bool.and_comm]

theorem ids_step {α : Type} (f : α → Nat) (L : List α) (iid : Nat) (restIds : List Nat) :
    (L.filter (fun j => decide (f j ≠ iid))).filter (fun j => decide (f j ∉ restIds))
      = L.filter (fun j => decide (f j ∉ iid :: restIds)) := by
  rw [List.filter_filter]
  refine List.filter_congr ?_
  intro j hj
  simp [Bool.and_comm]

theorem notes_step {α : Type} (f : α → Nat) (L : List α) (P : List PageRec) (i : IssueRec)
    (rest : List IssueRec) (hnp : (P.map PageRec.id).Nodup)
    (hhead : i.id ∉ rest.map IssueRec.id) :
    (L.filter (fun n => decide (f n ∉ (P.filter (fun p => p.issueId == i.id)).map PageRec.id))).filter
        (fun n => decide (f n ∉ ((P.filter (fun q => decide (q.id ∉ (P.filter (fun p => p.issueId == i.id)).map PageRec.id))).filter (fun p => decide (p.issueId ∈ rest.map IssueRec.id))).map PageRec.id))
      = L.filter (fun n => decide (f n ∉ (P.filter (fun p => decide (p.issueId ∈ (i :: rest).map IssueRec.id))).map PageRec.id)) := by
  rw [filter_dead_pages hnp, filter_mem_rest_of_ne P i.id (rest.map IssueRec.id) hhead]
  simp only [List.map_cons]
  refine filter_notMem_or f L _ _ _ ?_
  intro x
  exact mem_dead_cons P i.id (rest.map IssueRec.id) x

theorem trace_step (tr : List Op) (P : List PageRec) (i : IssueRec) (rest : List IssueRec)
    (hnp : (P.map PageRec.id).Nodup) (hhead : i.id ∉ rest.map IssueRec.id) :
    ((tr ++ (P.filter (fun p => p.issueId == i.id)).map (fun p => Op.delPage p.id)) ++ [Op.delIssue i.id]) ++
        (rest.map (fun j => ((P.filter (fun q => decide (q.id ∉ (P.filter (fun p => p.issueId == i.id)).map PageRec.id))).filter (fun p => p.issueId == j.id)).map (fun p => Op.delPage p.id) ++ [Op.delIssue j.id])).flatten
      = tr ++ ((i :: rest).map (fun j => (P.filter (fun p => p.issueId == j.id)).map (fun p => Op.delPage p.id) ++ [Op.delIssue j.id])).flatten := by
  rw [List.map_cons, List.flatten_cons]
  have hmap : rest.map (fun j => ((P.filter (fun q => decide (q.id ∉ (P.filter (fun p => p.issueId == i.id)).map PageRec.id))).filter (fun p => p.issueId == j.id)).map (fun p => Op.delPage p.id) ++ [Op.delIssue j.id])
      = rest.map (fun j => (P.filter (fun p => p.issueId == j.id)).map (fun p => Op.delPage p.id) ++ [Op.delIssue j.id]) :=
    List.map_congr_left (fun j hj => by
      rw [filter_dead_pages hnp, trace_pages_step P i.id j.id
        (fun he => hhead (he ▸ List.mem_map_of_mem IssueRec.id hj))])
  rw [hmap]
  simp [List.append_assoc]

theorem DB_ext {a b : DB} (h1 : a.nextId = b.nextId) (h2 : a.batches = b.batches)
    (h3 : a.reels = b.reels) (h4 : a.issues = b.issues) (h5 : a.pages = b.pages)
    (h6 : a.issueNotes = b.issueNotes) (h7 : a.pageNotes = b.pageNotes)
    (h8 : a.ocrs = b.ocrs) (h9 : a.titles = b.titles) (h10 : a.awardees = b.awardees)
    (h11 : a.events = b.events) (h12 : a.solrDocs = b.solrDocs) : a = b := by
  cases a
  cases b
  congr 1

theorem S_ext {a b : S} (hdb : a.db = b.db) (hip : a.issuesProcessed = b.issuesProcessed)
    (hpp : a.pagesProcessed = b.pagesProcessed) (hcb : a.currentBatch = b.currentBatch)
    (htr : a.trace = b.trace) : a = b := by
  cases a
  cases b
  congr 1

theorem purgeIssues_spec (il : List IssueRec) : ∀ (s : S),
    (s.db.pages.map PageRec.id).Nodup → (il.map IssueRec.id).Nodup →
    purgeIssues il s = { s with
      db := { s.db with
        pages := s.db.pages.filter (fun p => decide (p.issueId ∉ il.map IssueRec.id)),
        pageNotes := s.db.pageNotes.filter (fun n => decide (n.ownerId ∉ (s.db.pages.filter (fun p => decide (p.issueId ∈ il.map IssueRec.id))).map PageRec.id)),
        ocrs := s.db.ocrs.filter (fun o => decide (o.pageId ∉ (s.db.pages.filter (fun p => decide (p.issueId ∈ il.map IssueRec.id))).map PageRec.id)),
        issues := s.db.issues.filter (fun j => decide (j.id ∉ il.map IssueRec.id)),
        issueNotes := s.db.issueNotes.filter (fun n => decide (n.ownerId ∉ il.map IssueRec.id)) },
      trace := s.trace ++ (il.map (fun j =>
        ((s.db.pages.filter (fun p => p.issueId == j.id)).map (fun p => Op.delPage p.id)) ++
          [Op.delIssue j.id])).flatten } := by
  induction il with
  | nil =>
    intro s hnp hni
    simp [purgeIssues]
  | cons i rest ih =>
    intro s hnp hni
    rw [List.map_cons, List.nodup_cons] at hni
    show purgeIssues rest (((purgePages (s.db.pages.filter (fun p => p.issueId == i.id)) s).deleteIssueRec i.id).pushOp (.delIssue i.id)) = _
    rw [purgePages_spec]
    refine (ih _ ?_ ?_).trans ?_
    · exact List.Nodup.sublist (List.Sublist.map PageRec.id (List.filter_sublist _)) hnp
    · exact hni.2
    · refine S_ext (DB_ext rfl rfl rfl ?_ ?_ ?_ ?_ ?_ rfl rfl rfl rfl) rfl rfl rfl ?_
      · exact ids_step IssueRec.id s.db.issues i.id (rest.map IssueRec.id)
      · exact pages_step s.db.pages i rest hnp
      · exact ids_step NoteRec.ownerId s.db.issueNotes i.id (rest.map IssueRec.id)
      · exact notes_step NoteRec.ownerId s.db.pageNotes s.db.pages i rest hnp hni.1
      · exact notes_step OCRRec.pageId s.db.ocrs s.db.pages i rest hnp hni.1
      · exact trace_step s.trace s.db.pages i rest hnp hni.1

/-- Store sanity: allocated ids below the allocator, references inside the
allocated range, and no duplicate page or issue ids. -/
def wfS (s : S) : Prop :=
  pagesBound s ∧ issuesBound s ∧
  (∀ p ∈ s.db.pages, p.issueId < s.db.nextId) ∧
  (∀ n ∈ s.db.issueNotes, n.ownerId < s.db.nextId) ∧
  (∀ n ∈ s.db.pageNotes, n.ownerId < s.db.nextId) ∧
  (∀ o ∈ s.db.ocrs, o.pageId < s.db.nextId) ∧
  (s.db.pages.map PageRec.id).Nodup ∧
  (s.db.issues.map IssueRec.id).Nodup

/-- No stored record carries the given batch name. -/
def noBatchData (s : S) (nm : String) : Prop :=
  (∀ r ∈ s.db.reels, r.batch ≠ nm) ∧
  (∀ i ∈ s.db.issues, i.batch ≠ nm) ∧
  (∀ d ∈ s.db.solrDocs, d.batch ≠ nm)

theorem find?_append_of_none {l1 l2 : List BatchRec} {p : BatchRec → Bool}
    (h : ∀ x ∈ l1, p x = false) : (l1 ++ l2).find? p = l2.find? p := by
  induction l1 with
  | nil => rfl
  | cons a t ih =>
    rw [List.cons_append, List.find?_cons_of_neg]
    · exact ih (fun x hx => h x (List.mem_cons_of_mem a hx))
    · rw [h a (List.mem_cons_self a t)]
      exact Bool.false_ne_true

/-- C1: loading a batch and then purging it by its name returns the store to
its pre-load state for every entity kind owned by the batch (batches, reels,
issues, pages, issue notes, page notes, OCR records, indexed documents),
and the purge deletes the pages of each issue first, then the issue, then
the batch record, then retracts the indexed documents by batch query and
commits the index (the trace equals purgeTraceSpec). -/
theorem load_purge_round_trip {cfg : Cfg} {env : Env} {bn : String} {strict : Bool}
    {s s1 : S} {b : BatchRec}
    (hocr : cfg.processOcr = true) (hw : wfS s) (hnb : noBatchData s b.name)
    (hnofast : ∀ x ∈ s.db.batches, x.name ≠ b.name)
    (hload : load_batch cfg env bn strict s = (s1, .ok b)) :
    ∃ s2, purge_batch cfg b.name s1 = (s2, .ok ()) ∧
      s2.db.batches = s.db.batches ∧ s2.db.reels = s.db.reels ∧
      s2.db.issues = s.db.issues ∧ s2.db.pages = s.db.pages ∧
      s2.db.issueNotes = s.db.issueNotes ∧ s2.db.pageNotes = s.db.pageNotes ∧
      s2.db.ocrs = s.db.ocrs ∧ s2.db.solrDocs = s.db.solrDocs ∧
      s2.trace = s1.trace ++ purgeTraceSpec s1.db b.name := by
  obtain ⟨hpb, hib, hrefp, hrefin, hrefpn, hrefo, hnodp, hnodi⟩ := hw
  obtain ⟨hnbr, hnbi, hnbd⟩ := hnb
  obtain ⟨hnorm, hcase⟩ := load_batch_ok_shape hpb hib hload
  rcases hcase with ⟨hstrict, hfind, hseq⟩ | hshape
  · exact absurd rfl (hnofast b (List.mem_of_find?_eq_some hfind))
  obtain ⟨hnone, hbat, htit, haw, ⟨tl, hev⟩, hnle, ⟨nr, hreels, hreelp⟩,
    ni, np, nin, npn, no, nd, hi, hp, hin, hpn, ho, hd, hii, hinod, hpp, hpnod,
    hino, hpno, hoo, hdd⟩ := hshape
  have hniIds : ∀ x ∈ ni.map IssueRec.id, s.db.nextId ≤ x := by
    intro x hx
    obtain ⟨i, hi2, hx2⟩ := List.mem_map.1 hx
    rw [← hx2]
    exact (hii i hi2).2.1
  have hnpIds : ∀ x ∈ np.map PageRec.id, s.db.nextId ≤ x := by
    intro x hx
    obtain ⟨p2, hp2, hx2⟩ := List.mem_map.1 hx
    rw [← hx2]
    exact (hpp p2 hp2).2.1
  have hfind1 : s1.db.batches.find? (fun x => x.name == b.name) = some b := by
    rw [hbat, find?_append_of_none (fun x hx => by
      simp only [beq_eq_false_iff_ne, ne_eq]
      exact hnofast x hx)]
    simp
  have hfind2 : ((s1.pushEvent b.name "starting purge").db.batches.find?
      (fun x => x.name == b.name)) = some b := hfind1
  have hfilterI1 : s1.db.issues.filter (fun i => i.batch == b.name) = ni := by
    rw [hi, List.filter_append,
      List.filter_eq_nil_iff.mpr (fun i hi2 => by
        simp only [beq_iff_eq]
        exact hnbi i hi2),
      List.filter_eq_self.mpr (fun i hi2 => by
        simp only [beq_iff_eq]
        exact (hii i hi2).1),
      List.nil_append]
  have hfilterI : ((s1.pushEvent b.name "starting purge").db.issues.filter
      (fun i => i.batch == b.name)) = ni := hfilterI1
  have hnodp1 : (s1.db.pages.map PageRec.id).Nodup := by
    rw [hp, List.map_append]
    refine List.Nodup.append hnodp hpnod ?_
    intro a ha1 ha2
    obtain ⟨p1, hp1, he1⟩ := List.mem_map.1 ha1
    have hlt : a < s.db.nextId := he1 ▸ hpb p1 hp1
    exact absurd (Nat.lt_of_lt_of_le hlt (hnpIds a ha2)) (Nat.lt_irrefl a)
  have hpagesF : s1.db.pages.filter (fun p => decide (p.issueId ∉ ni.map IssueRec.id))
      = s.db.pages := by
    rw [hp, List.filter_append,
      List.filter_eq_self.mpr (fun p hp2 => by
        simp only [decide_eq_true_eq]
        intro hmem
        exact absurd (Nat.lt_of_lt_of_le (hrefp p hp2) (hniIds _ hmem)) (Nat.lt_irrefl _)),
      List.filter_eq_nil_iff.mpr (fun p hp2 => by
        simp only [decide_eq_true_eq]
        exact not_not_intro (hpp p hp2).1),
      List.append_nil]
  have hdeadF : (s1.db.pages.filter (fun p => decide (p.issueId ∈ ni.map IssueRec.id))).map PageRec.id
      = np.map PageRec.id := by
    rw [hp, List.filter_append,
      List.filter_eq_nil_iff.mpr (fun p hp2 => by
        simp only [decide_eq_true_eq]
        intro hmem
        exact absurd (Nat.lt_of_lt_of_le (hrefp p hp2) (hniIds _ hmem)) (Nat.lt_irrefl _)),
      List.filter_eq_self.mpr (fun p hp2 => by
        simp only [decide_eq_true_eq]
        exact (hpp p hp2).1),
      List.nil_append]
  have hpnF : s1.db.pageNotes.filter (fun n => decide (n.ownerId ∉ np.map PageRec.id))
      = s.db.pageNotes := by
    rw [hpn, List.filter_append,
      List.filter_eq_self.mpr (fun n hn2 => by
        simp only [decide_eq_true_eq]
        intro hmem
        exact absurd (Nat.lt_of_lt_of_le (hrefpn n hn2) (hnpIds _ hmem)) (Nat.lt_irrefl _)),
      List.filter_eq_nil_iff.mpr (fun n hn2 => by
        simp only [decide_eq_true_eq]
        exact not_not_intro (hpno n hn2)),
      List.append_nil]
  have hoF : s1.db.ocrs.filter (fun o => decide (o.pageId ∉ np.map PageRec.id))
      = s.db.ocrs := by
    rw [ho, List.filter_append,
      List.filter_eq_self.mpr (fun o ho2 => by
        simp only [decide_eq_true_eq]
        intro hmem
        exact absurd (Nat.lt_of_lt_of_le (hrefo o ho2) (hnpIds _ hmem)) (Nat.lt_irrefl _)),
      List.filter_eq_nil_iff.mpr (fun o ho2 => by
        simp only [decide_eq_true_eq]
        exact not_not_intro (hoo o ho2)),
      List.append_nil]
  have hisF : s1.db.issues.filter (fun j => decide (j.id ∉ ni.map IssueRec.id))
      = s.db.issues := by
    rw [hi, List.filter_append,
      List.filter_eq_self.mpr (fun j hj2 => by
        simp only [decide_eq_true_eq]
        intro hmem
        exact absurd (Nat.lt_of_lt_of_le (hib j hj2) (hniIds _ hmem)) (Nat.lt_irrefl _)),
      List.filter_eq_nil_iff.mpr (fun j hj2 => by
        simp only [decide_eq_true_eq]
        exact not_not_intro (List.mem_map_of_mem IssueRec.id hj2)),
      List.append_nil]
  have hinF : s1.db.issueNotes.filter (fun n => decide (n.ownerId ∉ ni.map IssueRec.id))
      = s.db.issueNotes := by
    rw [hin, List.filter_append,
      List.filter_eq_self.mpr (fun n hn2 => by
        simp only [decide_eq_true_eq]
        intro hmem
        exact absurd (Nat.lt_of_lt_of_le (hrefin n hn2) (hniIds _ hmem)) (Nat.lt_irrefl _)),
      List.filter_eq_nil_iff.mpr (fun n hn2 => by
        simp only [decide_eq_true_eq]
        exact not_not_intro (hino n hn2)),
      List.append_nil]
  have hbatF : s1.db.batches.filter (fun x => decide (x.name ≠ b.name)) = s.db.batches := by
    rw [hbat, List.filter_append,
      List.filter_eq_self.mpr (fun x hx => by
        simp only [ne_eq, decide_not, Bool.not_eq_true', decide_eq_false_iff_not]
        exact hnofast x hx),
      List.filter_eq_nil_iff.mpr (fun x hx => by
        rw [List.mem_singleton] at hx
        subst hx
        simp),
      List.append_nil]
  have hreF : s1.db.reels.filter (fun r => decide (r.batch ≠ b.name)) = s.db.reels := by
    rw [hreels, List.filter_append,
      List.filter_eq_self.mpr (fun r hr => by
        simp only [ne_eq, decide_not, Bool.not_eq_true', decide_eq_false_iff_not]
        exact hnbr r hr),
      List.filter_eq_nil_iff.mpr (fun r hr => by
        simp only [ne_eq, decide_not, Bool.not_eq_true', decide_eq_false_iff_not, not_not]
        exact (hreelp r hr).1),
      List.append_nil]
  have hsdF : s1.db.solrDocs.filter (fun d2 => decide (d2.batch ≠ b.name)) = s.db.solrDocs := by
    rw [hd, List.filter_append,
      List.filter_eq_self.mpr (fun d2 hd2 => by
        simp only [ne_eq, decide_not, Bool.not_eq_true', decide_eq_false_iff_not]
        exact hnbd d2 hd2),
      List.filter_eq_nil_iff.mpr (fun d2 hd2 => by
        simp only [ne_eq, decide_not, Bool.not_eq_true', decide_eq_false_iff_not, not_not]
        exact hdd d2 hd2),
      List.append_nil]
  have htraceF : (((s1.trace ++ (ni.map (fun j =>
        ((s1.db.pages.filter (fun p2 => p2.issueId == j.id)).map (fun p2 => Op.delPage p2.id)) ++
          [Op.delIssue j.id])).flatten) ++ [Op.delBatch b.name]) ++
        [Op.solrDeleteQuery ("batch:\"" ++ b.name ++ "\"")]) ++ [Op.solrCommit]
      = s1.trace ++ purgeTraceSpec s1.db b.name := by
    unfold purgeTraceSpec
    rw [hfilterI1]
    simp [List.append_assoc]
  rcases hPB : purge_batch cfg b.name s1 with ⟨s2, r2⟩
  unfold purge_batch at hPB
  dsimp only at hPB
  rw [hfind2] at hPB
  dsimp only at hPB
  unfold purge_batch_impl at hPB
  dsimp only at hPB
  simp only [hocr, if_pos] at hPB
  rw [hfilterI] at hPB
  rw [purgeIssues_spec ni (s1.pushEvent b.name "starting purge") hnodp1 hinod] at hPB
  rw [Prod.mk.injEq] at hPB
  obtain ⟨hs2, hr2⟩ := hPB
  subst hs2
  subst hr2
  have hpnF2 : s1.db.pageNotes.filter (fun n => decide (n.ownerId ∉
      (s1.db.pages.filter (fun p => decide (p.issueId ∈ ni.map IssueRec.id))).map PageRec.id))
      = s.db.pageNotes := by
    rw [hdeadF]
    exact hpnF
  have hoF2 : s1.db.ocrs.filter (fun o => decide (o.pageId ∉
      (s1.db.pages.filter (fun p => decide (p.issueId ∈ ni.map IssueRec.id))).map PageRec.id))
      = s.db.ocrs := by
    rw [hdeadF]
    exact hoF
  exact ⟨_, rfl, hbatF, hreF, hisF, hpagesF, hinF, hpnF2, hoF2, hsdF, htraceF⟩

def wB : BatchRec := { name := "batch_abc_test_ver01", awardee := "abc" }

def wS1 : S := (load_batch wCfg wEnv wName false wS0).1

/-- C1 witness: the concrete fixture batch loads and purges back to the
initial store. -/
theorem load_purge_round_trip_witness :
    wCfg.processOcr = true ∧ wfS wS0 ∧ noBatchData wS0 wB.name ∧
      (∀ x ∈ wS0.db.batches, x.name ≠ wB.name) ∧
      load_batch wCfg wEnv wName false wS0 = (wS1, .ok wB) ∧
      ∃ s2, purge_batch wCfg wB.name wS1 = (s2, .ok ()) ∧
        s2.db.batches = wS0.db.batches ∧ s2.db.reels = wS0.db.reels ∧
        s2.db.issues = wS0.db.issues ∧ s2.db.pages = wS0.db.pages ∧
        s2.db.issueNotes = wS0.db.issueNotes ∧ s2.db.pageNotes = wS0.db.pageNotes ∧
        s2.db.ocrs = wS0.db.ocrs ∧ s2.db.solrDocs = wS0.db.solrDocs ∧
        s2.trace = wS1.trace ++ purgeTraceSpec wS1.db wB.name :=
  ⟨rfl, by unfold wfS pagesBound issuesBound; decide, by unfold noBatchData; decide,
    by decide, by rfl,
    load_purge_round_trip rfl (by unfold wfS pagesBound issuesBound; decide)
      (by unfold noBatchData; decide) (by decide)
      (show load_batch wCfg wEnv wName false wS0 = (wS1, .ok wB) from rfl)⟩

/-! ## C3: issue-level error policy of the batch loop -/

/-- C3: in the issue loop of load_batch, exactly the ValueError failures of
loading one issue are caught and skipped so the loop continues with the
remaining issues; every other issue-level failure propagates out of the
loop, and load_batch surfaces any failure of its body as a
BatchLoaderException (BatchLoadFailed) after writing the failure audit
event. -/
theorem issue_error_policy :
    (∀ (cfg : Cfg) (env : Env) (bp t : String) (rest : List (Option String)) (s s1 : S)
        (m : String),
      load_issue cfg env (normPath (pyJoin bp t)) s = (s1, .error (.valueErr m)) →
      loadIssues cfg env bp (some t :: rest) s = loadIssues cfg env bp rest s1) ∧
    (∀ (cfg : Cfg) (env : Env) (bp t : String) (rest : List (Option String)) (s s1 : S)
        (e : PyErr),
      load_issue cfg env (normPath (pyJoin bp t)) s = (s1, .error e) →
      (∀ m, e ≠ .valueErr m) →
      loadIssues cfg env bp (some t :: rest) s = (s1, .error e)) ∧
    (∀ (cfg : Cfg) (env : Env) (nm name : String) (strict : Bool) (s s1 : S) (e : PyErr),
      normalize_batch_name nm = .ok name →
      (if strict then none else s.db.batches.find? (fun b2 => b2.name == name)) = none →
      loadBatchBody cfg env name (s.pushEvent name "starting load") = (s1, .error e) →
      load_batch cfg env nm strict s =
        (s1.pushEvent name ("unable to load batch: " ++ e.pymsg),
          .error (.batchLoaderErr ("unable to load batch: " ++ e.pymsg)))) := by
  refine ⟨?_, ?_, ?_⟩
  · intro cfg env bp t rest s s1 m h
    exact loadIssues_skip cfg env bp h
  · intro cfg env bp t rest s s1 e h hne
    exact loadIssues_abort cfg env bp h hne
  · intro cfg env nm name strict s s1 e hnorm hfind hbody
    unfold load_batch
    rw [hnorm]
    dsimp only
    rw [hfind]
    dsimp only
    rw [hbody]

def wEnvVE : Env := { wEnv with parseIssue := fun _ => .error (.valueErr "bad int") }

def wEnvDNE : Env := { wEnv with parseIssue := fun _ => .error (.doesNotExist "Title") }

/-- C3 witness: a ValueError issue is skipped, a missing Title aborts the
loop, and a failing body surfaces as a wrapped BatchLoaderException with
the failure event written. -/
theorem issue_error_policy_witness :
    load_issue wCfg wEnvVE (normPath (pyJoin "/st/b" "x")) wS0 = (wS0, .error (.valueErr "bad int")) ∧
    loadIssues wCfg wEnvVE "/st/b" [some "x"] wS0 = loadIssues wCfg wEnvVE "/st/b" [] wS0 ∧
    loadIssues wCfg wEnvDNE "/st/b" [some "x"] wS0 = (wS0, .error (.doesNotExist "Title")) ∧
    load_batch wCfg wEnv "batch_xyz_test_ver01" true wS0 =
      ((wS0.pushEvent "batch_xyz_test_ver01" "starting load").pushEvent "batch_xyz_test_ver01"
          "unable to load batch: no awardee for org code: xyz",
        .error (.batchLoaderErr "unable to load batch: no awardee for org code: xyz")) :=
  ⟨rfl,
    issue_error_policy.1 wCfg wEnvVE "/st/b" "x" [] wS0 wS0 "bad int" rfl,
    issue_error_policy.2.1 wCfg wEnvDNE "/st/b" "x" [] wS0 wS0 (.doesNotExist "Title") rfl
      (fun m h => PyErr.noConfusion h),
    issue_error_policy.2.2 wCfg wEnv "batch_xyz_test_ver01" "batch_xyz_test_ver01" true wS0
      (wS0.pushEvent "batch_xyz_test_ver01" "starting load")
      (.batchLoaderErr "no awardee for org code: xyz") rfl rfl rfl⟩

/-! ## C2: page-level error policy inside an issue -/

/-- C2 (amended): in the page loop of _load_issue only BatchLoaderException
failures of a page load are caught, logged and skipped, the loop continuing
with the sibling pages (pages_processed advancing either way); any other
page-level failure (e.g. a KeyError for a missing DMDID) propagates and
aborts the issue. -/
theorem page_failure_policy :
    (∀ (cfg : Cfg) (env : Env) (doc : Doc) (issue : IssueRec) (d : PageDiv)
        (rest : List PageDiv) (s s1 : S) (p : PageRec),
      load_page cfg env doc d issue s = (s1, .ok p) →
      loadPages cfg env doc issue (d :: rest) s = loadPages cfg env doc issue rest s1.bumpPages) ∧
    (∀ (cfg : Cfg) (env : Env) (doc : Doc) (issue : IssueRec) (d : PageDiv)
        (rest : List PageDiv) (s s1 : S) (m : String),
      load_page cfg env doc d issue s = (s1, .error (.batchLoaderErr m)) →
      loadPages cfg env doc issue (d :: rest) s = loadPages cfg env doc issue rest s1.bumpPages) ∧
    (∀ (cfg : Cfg) (env : Env) (doc : Doc) (issue : IssueRec) (d : PageDiv)
        (rest : List PageDiv) (s s1 : S) (e : PyErr),
      load_page cfg env doc d issue s = (s1, .error e) →
      (∀ m, e ≠ .batchLoaderErr m) →
      loadPages cfg env doc issue (d :: rest) s = (s1.bumpPages, .error e)) := by
  refine ⟨?_, ?_, ?_⟩
  · intro cfg env doc issue d rest s s1 p h
    rw [loadPages, h]
  · intro cfg env doc issue d rest s s1 m h
    rw [loadPages, h]
  · intro cfg env doc issue d rest s s1 e h hne
    rw [loadPages, h]
    cases e with
    | batchLoaderErr m => exact absurd rfl (hne m)
    | valueErr m => rfl
    | keyErr k => rfl
    | indexErr => rfl
    | doesNotExist m => rfl
    | attributeErr a => rfl
    | typeErr m => rfl
    | ioErr m => rfl

def wBadDiv : PageDiv := { dmdid := none, sectionDmdid := "", fptrs := [] }

def wDocC2 : Doc :=
  { wDoc with issueDiv := some ({ dmdid := some "d1", pageDivs := [wBadDiv, wPageDiv] } : IssueDiv) }

def wEnvC2 : Env := { wEnv with parseIssue := fun _ => .ok wDocC2 }

/-- C2 counterexample: an issue whose first page division has no DMDID
aborts the whole issue load with a KeyError, and the valid sibling page is
never persisted, refuting the spec sentence that every page-level failure
is caught and skipped; the same sibling does load when the bad page is
absent. -/
theorem page_keyerror_aborts_issue :
    (load_issue wCfg wEnvC2 "f" wS0).2 = .error (.keyErr "DMDID") ∧
    (load_issue wCfg wEnvC2 "f" wS0).1.db.pages = [] ∧
    (load_issue wCfg wEnv "/st/batch_abc_test_ver01/iss1.xml" wS0).1.db.pages.length = 1 :=
  ⟨rfl, rfl, rfl⟩

def wIssX : IssueRec :=
  { id := 7, volume := "1", number := "2", edition := 1, editionLabel := "", dateIssued := "2000-01-01", titleLccn := "sn1", batch := "batch_abc_test_ver01" }

def wPRes : S × Except PyErr PageRec := load_page wCfg wEnv wDoc wPageDiv wIssX wS0

def wP1 : PageRec :=
  { id := 1, issueId := 7, sequence := 1, number := "1", reelId := some 0, tiffFilename := some "batch_abc_test_ver01/x.tif" }

def wDocBadSeq : Doc :=
  { wDoc with dmdSecs := [("d1", wIssueMods), ("p1", ({ extentStart := "x", pageNumber := "1", reelNumber := "1" } : Mods))] }

/-- C2 witness: one page loads and the loop continues, a page with an
unparseable sequence number raises BatchLoaderException and is skipped,
and a page without DMDID aborts the loop with KeyError. -/
theorem page_failure_policy_witness :
    load_page wCfg wEnv wDoc wPageDiv wIssX wS0 = (wPRes.1, .ok wP1) ∧
    loadPages wCfg wEnv wDoc wIssX [wPageDiv] wS0 = loadPages wCfg wEnv wDoc wIssX [] wPRes.1.bumpPages ∧
    loadPages wCfg wEnv wDocBadSeq wIssX [wPageDiv] wS0 = loadPages wCfg wEnv wDocBadSeq wIssX [] wS0.bumpPages ∧
    loadPages wCfg wEnv wDoc wIssX [wBadDiv] wS0 = (wS0.bumpPages, .error (.keyErr "DMDID")) :=
  ⟨rfl,
    page_failure_policy.1 wCfg wEnv wDoc wIssX wPageDiv [] wS0 wPRes.1 wP1 rfl,
    page_failure_policy.2.1 wCfg wEnv wDocBadSeq wIssX wPageDiv [] wS0 wS0
      "could not determine sequence number for page from x" rfl,
    page_failure_policy.2.2 wCfg wEnv wDoc wIssX wBadDiv [] wS0 wS0 (.keyErr "DMDID") rfl
      (fun m h => PyErr.noConfusion h)⟩

/-! ## C9: failed issue parses leave no partial record -/

/-- C9 (amended): when the issue parse phase fails (unparseable METS,
missing or malformed date, non-integer edition, or a title absent from the
store), _load_issue returns the input state unchanged, so no partial issue
record remains referenced; the error propagates to the issue loop, and the
loop moves on to the next issue only when the failure is a ValueError —
any other failure, such as a missing Title, aborts the loop instead. -/
theorem issue_parse_failure_clean :
    (∀ (cfg : Cfg) (env : Env) (mf : String) (s : S) (doc : Doc) (e : PyErr),
      env.parseIssue mf = .ok doc →
      parseIssueFields s.db doc = .error e →
      load_issue cfg env mf s = (s, .error e)) ∧
    (∀ (cfg : Cfg) (env : Env) (mf : String) (s : S) (e : PyErr),
      env.parseIssue mf = .error e →
      load_issue cfg env mf s = (s, .error e)) ∧
    (∀ (cfg : Cfg) (env : Env) (bp t : String) (rest : List (Option String)) (s s1 : S) (m : String),
      load_issue cfg env (normPath (pyJoin bp t)) s = (s1, .error (.valueErr m)) →
      loadIssues cfg env bp (some t :: rest) s = loadIssues cfg env bp rest s1) ∧
    (∀ (cfg : Cfg) (env : Env) (bp t : String) (rest : List (Option String)) (s s1 : S) (e : PyErr),
      load_issue cfg env (normPath (pyJoin bp t)) s = (s1, .error e) →
      (∀ m, e ≠ .valueErr m) →
      loadIssues cfg env bp (some t :: rest) s = (s1, .error e)) := by
  refine ⟨?_, ?_, ?_, ?_⟩
  · intro cfg env mf s doc e hdoc hpf
    unfold load_issue
    rw [hdoc]
    dsimp only
    rw [hpf]
  · intro cfg env mf s e he
    unfold load_issue
    rw [he]
  · intro cfg env bp t rest s s1 m h
    exact loadIssues_skip cfg env bp h
  · intro cfg env bp t rest s s1 e h hne
    exact loadIssues_abort cfg env bp h hne

def wDocBadT : Doc :=
  { wDoc with dmdSecs := [("d1", { wIssueMods with lccn := "zz" }), ("p1", wPageMods)] }

def wEnvBadT : Env := { wEnv with parseIssue := fun _ => .ok wDocBadT }

/-- C9 counterexample: a batch with two issues whose first issue references
a title absent from the store aborts the whole issue loop with
Title.DoesNotExist instead of moving on to the next issue (the second
issue is never attempted; no issue record was stored). -/
theorem title_missing_aborts_batch :
    loadIssues wCfg wEnvBadT "/st/x" [some "a", some "b"] wS0 = (wS0, .error (.doesNotExist "Title")) ∧
    (load_issue wCfg wEnvBadT "f" wS0).1.db.issues = [] :=
  ⟨rfl, rfl⟩

/-- C9 witness: a failing parse phase returns the state unchanged, and a
ValueError is the one error the loop skips. -/
theorem issue_parse_failure_clean_witness :
    wEnvBadT.parseIssue "f" = .ok wDocBadT ∧
    parseIssueFields wS0.db wDocBadT = .error (.doesNotExist "Title") ∧
    load_issue wCfg wEnvBadT "f" wS0 = (wS0, .error (.doesNotExist "Title")) ∧
    load_issue wCfg wEnvVE (normPath (pyJoin "/st/b" "x")) wS0 = (wS0, .error (.valueErr "bad int")) ∧
    loadIssues wCfg wEnvVE "/st/b" [some "x"] wS0 = loadIssues wCfg wEnvVE "/st/b" [] wS0 ∧
    loadIssues wCfg wEnvBadT "/st/b" [some "x"] wS0 = (wS0, .error (.doesNotExist "Title")) :=
  ⟨rfl, rfl,
    issue_parse_failure_clean.1 wCfg wEnvBadT "f" wS0 wDocBadT (.doesNotExist "Title") rfl rfl,
    rfl,
    issue_parse_failure_clean.2.2.1 wCfg wEnvVE "/st/b" "x" [] wS0 wS0 "bad int" rfl,
    issue_parse_failure_clean.2.2.2 wCfg wEnvBadT "/st/b" "x" [] wS0 wS0 (.doesNotExist "Title")
      rfl (fun m h => PyErr.noConfusion h)⟩

theorem loadPages_count2 {cfg : Cfg} {env : Env} {doc : Doc} {issue : IssueRec}
    {divs : List PageDiv} {s s' : S}
    (h : loadPages cfg env doc issue divs s = (s', .ok ())) (hb : pagesBound s) :
    s'.pagesProcessed = s.pagesProcessed + divs.length :=
  loadPages_count cfg env doc issue divs s s' hb h

theorem loadPages_issuesP {cfg : Cfg} {env : Env} {doc : Doc} {issue : IssueRec}
    {divs : List PageDiv} {s s' : S} {r : Except PyErr Unit}
    (h : loadPages cfg env doc issue divs s = (s', r)) (hb : pagesBound s) :
    s'.issuesProcessed = s.issuesProcessed := by
  have hg := loadPages_grow cfg env doc issue divs s hb
  rw [h] at hg
  exact hg.issuesP

/-! ## C10: the two progress counters -/

/-- C10: loading an issue advances pages_processed by exactly the number of
page divisions beneath the issue division (the finally clause counts
skipped pages too), and never touches issues_processed; the issue loop
advances issues_processed only on an issue that loaded without being
skipped (a skipped ValueError issue leaves the counter alone). -/
theorem progress_counters :
    (∀ (cfg : Cfg) (env : Env) (mf : String) (s s1 : S) (i : IssueRec) (doc : Doc)
        (r : IssueDiv × Mods × Int × String),
      pagesBound s →
      env.parseIssue mf = .ok doc →
      parseIssueFields s.db doc = .ok r →
      load_issue cfg env mf s = (s1, .ok i) →
      s1.pagesProcessed = s.pagesProcessed + r.1.pageDivs.length) ∧
    (∀ (cfg : Cfg) (env : Env) (mf : String) (s s1 : S) (r2 : Except PyErr IssueRec),
      pagesBound s →
      load_issue cfg env mf s = (s1, r2) →
      s1.issuesProcessed = s.issuesProcessed) ∧
    (∀ (cfg : Cfg) (env : Env) (bp t : String) (rest : List (Option String)) (s s1 : S)
        (m : String),
      load_issue cfg env (normPath (pyJoin bp t)) s = (s1, .error (.valueErr m)) →
      loadIssues cfg env bp (some t :: rest) s = loadIssues cfg env bp rest s1) ∧
    (∀ (cfg : Cfg) (env : Env) (bp t : String) (rest : List (Option String)) (s s1 : S)
        (i : IssueRec),
      load_issue cfg env (normPath (pyJoin bp t)) s = (s1, .ok i) →
      loadIssues cfg env bp (some t :: rest) s = loadIssues cfg env bp rest s1.bumpIssues) ∧
    (∀ s : S, s.bumpIssues.issuesProcessed = s.issuesProcessed + 1) := by
  refine ⟨?_, ?_, ?_, ?_, fun s => rfl⟩
  · intro cfg env mf s s1 i doc r hpb hdoc hpf h
    unfold load_issue at h
    rw [hdoc] at h
    dsimp only at h
    rw [hpf] at h
    dsimp only at h
    split at h
    · cases h
    next s5 u5 hLP =>
      rw [Prod.mk.injEq] at h
      obtain ⟨hs5, _⟩ := h
      subst hs5
      have hc := loadPages_count2 hLP (fun q hq => Nat.lt_succ_of_lt (hpb q hq))
      exact hc
  · intro cfg env mf s s1 r2 hpb h
    unfold load_issue at h
    split at h
    · cases h
      rfl
    next doc hdoc =>
      split at h
      · cases h
        rfl
      next r hpf =>
        dsimp only at h
        split at h
        next s5 e5 hLP =>
          rw [Prod.mk.injEq] at h
          obtain ⟨hs5, _⟩ := h
          subst hs5
          have hip := loadPages_issuesP hLP (fun q hq => Nat.lt_succ_of_lt (hpb q hq))
          exact hip
        next s5 u5 hLP =>
          rw [Prod.mk.injEq] at h
          obtain ⟨hs5, _⟩ := h
          subst hs5
          have hip := loadPages_issuesP hLP (fun q hq => Nat.lt_succ_of_lt (hpb q hq))
          exact hip
  · intro cfg env bp t rest s s1 m h
    exact loadIssues_skip cfg env bp h
  · intro cfg env bp t rest s s1 i h
    exact loadIssues_step_ok cfg env bp h

def wIssDiv : IssueDiv := { dmdid := some "d1", pageDivs := [wPageDiv] }

def wIRes : S × Except PyErr IssueRec :=
  load_issue wCfg wEnv "/st/batch_abc_test_ver01/iss1.xml" wS0

def wI1 : IssueRec :=
  { id := 0, volume := "1", number := "2", edition := 1, editionLabel := "", dateIssued := "2000-01-01", titleLccn := "sn1", batch := "" }

/-- C10 witness: the one-page fixture issue advances pages_processed from 0
to 1, leaves issues_processed at 0, and the loop bumps issues_processed
only through the ok step. -/
theorem progress_counters_witness :
    pagesBound wS0 ∧
    wEnv.parseIssue "/st/batch_abc_test_ver01/iss1.xml" = .ok wDoc ∧
    parseIssueFields wS0.db wDoc = .ok (wIssDiv, wIssueMods, 1, "sn1") ∧
    load_issue wCfg wEnv "/st/batch_abc_test_ver01/iss1.xml" wS0 = (wIRes.1, .ok wI1) ∧
    wIRes.1.pagesProcessed = wS0.pagesProcessed + 1 ∧
    wIRes.1.issuesProcessed = wS0.issuesProcessed ∧
    loadIssues wCfg wEnv "/st/batch_abc_test_ver01" [some "iss1.xml"] wS0 =
      loadIssues wCfg wEnv "/st/batch_abc_test_ver01" [] wIRes.1.bumpIssues ∧
    wIRes.1.bumpIssues.issuesProcessed = wIRes.1.issuesProcessed + 1 :=
  ⟨by unfold pagesBound; decide, rfl, rfl, rfl,
    progress_counters.1 wCfg wEnv "/st/batch_abc_test_ver01/iss1.xml" wS0 wIRes.1 wI1 wDoc
      (wIssDiv, wIssueMods, 1, "sn1") (by unfold pagesBound; decide) rfl rfl rfl,
    progress_counters.2.1 wCfg wEnv "/st/batch_abc_test_ver01/iss1.xml" wS0 wIRes.1 (.ok wI1)
      (by unfold pagesBound; decide) rfl,
    progress_counters.2.2.2.1 wCfg wEnv "/st/batch_abc_test_ver01" "iss1.xml" [] wS0 wIRes.1
      wI1 rfl,
    progress_counters.2.2.2.2 wIRes.1⟩

/-! ## C5: the fast path, strictness, and idempotence -/

theorem load_batch_wrap {cfg : Cfg} {env : Env} {nm name : String} {strict : Bool}
    {s s1 : S} {e : PyErr}
    (hnorm : normalize_batch_name nm = .ok name)
    (hfind : (if strict then none else s.db.batches.find? (fun b2 => b2.name == name)) = none)
    (hbody : loadBatchBody cfg env name (s.pushEvent name "starting load") = (s1, .error e)) :
    load_batch cfg env nm strict s =
      (s1.pushEvent name ("unable to load batch: " ++ e.pymsg),
        .error (.batchLoaderErr ("unable to load batch: " ++ e.pymsg))) := by
  unfold load_batch
  rw [hnorm]
  dsimp only
  rw [hfind]
  dsimp only
  rw [hbody]

/-- C5: when strict is False and a batch of the (normalized) name already
exists, load_batch returns the stored record with the store untouched;
calling load_batch twice with strict False returns the same record the
second time with no further writes; with strict True an existing batch
name always fails the fresh load with the wrapped already-loaded error. -/
theorem fast_path_idempotence :
    (∀ (cfg : Cfg) (env : Env) (nm name : String) (s : S) (b2 : BatchRec),
      normalize_batch_name nm = .ok name →
      s.db.batches.find? (fun x => x.name == name) = some b2 →
      load_batch cfg env nm false s = (s, .ok b2)) ∧
    (∀ (cfg : Cfg) (env : Env) (nm name : String) (s : S),
      normalize_batch_name nm = .ok name →
      s.db.batches.any (fun x => x.name == name) = true →
      load_batch cfg env nm true s =
        ((s.pushEvent name "starting load").pushEvent name
            ("unable to load batch: " ++ ("batch " ++ name ++ " already loaded")),
          .error (.batchLoaderErr ("unable to load batch: " ++ ("batch " ++ name ++ " already loaded"))))) ∧
    (∀ (cfg : Cfg) (env : Env) (nm : String) (s s1 : S) (b : BatchRec),
      pagesBound s → issuesBound s →
      load_batch cfg env nm false s = (s1, .ok b) →
      load_batch cfg env nm false s1 = (s1, .ok b)) := by
  refine ⟨?_, ?_, ?_⟩
  · intro cfg env nm name s b2 hnorm hfind
    unfold load_batch
    rw [hnorm]
    dsimp only
    rw [if_neg Bool.false_ne_true, hfind]
  · intro cfg env nm name s hnorm hany
    have hbody : loadBatchBody cfg env name (s.pushEvent name "starting load")
        = (s.pushEvent name "starting load",
            .error (.batchLoaderErr ("batch " ++ name ++ " already loaded"))) := by
      unfold loadBatchBody create_batch
      rw [show (s.pushEvent name "starting load").db.batches.any (fun b2 => b2.name == name)
        = true from hany]
      rfl
    exact load_batch_wrap hnorm
      (show (if (true : Bool) then none else s.db.batches.find? (fun b2 => b2.name == name))
          = none from rfl) hbody
  · intro cfg env nm s s1 b hpb hib h
    obtain ⟨hnorm, hcase⟩ := load_batch_ok_shape hpb hib h
    unfold load_batch
    rw [hnorm]
    dsimp only
    rw [if_neg Bool.false_ne_true]
    rcases hcase with ⟨_, hfind, hseq⟩ | hshape
    · subst hseq
      rw [hfind]
    · obtain ⟨hnone, hbat, _⟩ := hshape
      have hfind1 : s1.db.batches.find? (fun x => x.name == b.name) = some b := by
        rw [hbat, find?_append_of_none (fun x hx => by
          simp only [beq_eq_false_iff_ne, ne_eq]
          exact hnone x hx)]
        simp
      rw [hfind1]

def wS0b : S := { wS0 with db := { wS0.db with batches := [wB] } }

/-- C5 witness: with the fixture batch already stored, a non-strict load
returns it unchanged, a strict load fails with the wrapped already-loaded
error, and loading the fixture twice non-strictly returns the same record
with the second call a no-op. -/
theorem fast_path_idempotence_witness :
    load_batch wCfg wEnv wName false wS0b = (wS0b, .ok wB) ∧
    load_batch wCfg wEnv wName true wS0b =
      ((wS0b.pushEvent "batch_abc_test_ver01" "starting load").pushEvent "batch_abc_test_ver01"
          ("unable to load batch: " ++ ("batch " ++ "batch_abc_test_ver01" ++ " already loaded")),
        .error (.batchLoaderErr
          ("unable to load batch: " ++ ("batch " ++ "batch_abc_test_ver01" ++ " already loaded")))) ∧
    load_batch wCfg wEnv wName false wS0 = (wS1, .ok wB) ∧
    load_batch wCfg wEnv wName false wS1 = (wS1, .ok wB) :=
  ⟨fast_path_idempotence.1 wCfg wEnv wName "batch_abc_test_ver01" wS0b wB rfl rfl,
    fast_path_idempotence.2.1 wCfg wEnv wName "batch_abc_test_ver01" wS0b rfl rfl,
    rfl,
    fast_path_idempotence.2.2 wCfg wEnv wName wS0 wS1 wB
      (by unfold pagesBound; decide) (by unfold issuesBound; decide)
      (show load_batch wCfg wEnv wName false wS0 = (wS1, .ok wB) from rfl)⟩

/-! ## C8: the audit event trail -/

theorem saveBatchRec_events (s : S) (b : BatchRec) :
    (s.saveBatchRec b).db.events = s.db.events := by
  unfold S.saveBatchRec
  split <;> rfl

theorem create_batch_presv {name : String} {s s' : S} {r : Except PyErr BatchRec}
    (h : create_batch name s = (s', r)) :
    s'.db.pages = s.db.pages ∧ s'.db.issues = s.db.issues ∧
      s'.db.nextId = s.db.nextId ∧ s'.db.events = s.db.events := by
  unfold create_batch at h
  split at h
  · cases h
    exact ⟨rfl, rfl, rfl, rfl⟩
  · split at h
    · split at h
      · cases h
        refine ⟨?_, ?_, ?_, ?_⟩ <;> (unfold S.saveBatchRec; split <;> rfl)
      · cases h
        exact ⟨rfl, rfl, rfl, rfl⟩
    · cases h
      exact ⟨rfl, rfl, rfl, rfl⟩

theorem purgeIssues_events (il : List IssueRec) : ∀ s : S,
    (purgeIssues il s).db.events = s.db.events := by
  induction il with
  | nil =>
    intro s
    rfl
  | cons i rest ih =>
    intro s
    show (purgeIssues rest (((purgePages (s.db.pages.filter (fun p => p.issueId == i.id)) s).deleteIssueRec i.id).pushOp (.delIssue i.id))).db.events = s.db.events
    rw [ih]
    show (purgePages (s.db.pages.filter (fun p => p.issueId == i.id)) s).db.events = s.db.events
    rw [purgePages_spec]

theorem purge_batch_impl_events (cfg : Cfg) (b : BatchRec) (s : S) :
    (purge_batch_impl cfg b s).1.db.events = s.db.events := by
  unfold purge_batch_impl
  dsimp only
  split
  · show (purgeIssues (s.db.issues.filter (fun i => i.batch == b.name)) s).db.events = s.db.events
    exact purgeIssues_events _ s
  · show (purgeIssues (s.db.issues.filter (fun i => i.batch == b.name)) s).db.events = s.db.events
    exact purgeIssues_events _ s

theorem loadBatchBody_events {cfg : Cfg} {env : Env} {name : String} {sE s' : S}
    {r : Except PyErr BatchRec}
    (hpb : pagesBound sE) (hib : issuesBound sE)
    (h : loadBatchBody cfg env name sE = (s', r)) :
    ∃ tail, s'.db.events = sE.db.events ++ tail := by
  unfold loadBatchBody at h
  split at h
  next s1 e1 hceq =>
    cases h
    exact ⟨[], by rw [List.append_nil]; exact (create_batch_presv hceq).2.2.2⟩
  next s1 batch0 hceq =>
    dsimp only at h
    have hcb := create_batch_presv hceq
    have hpb2 : pagesBound { s1 with currentBatch := name } := by
      intro q hq
      have hq2 : q ∈ s1.db.pages := hq
      rw [hcb.1] at hq2
      show q.id < s1.db.nextId
      rw [hcb.2.2.1]
      exact hpb q hq2
    have hib2 : issuesBound { s1 with currentBatch := name } := by
      intro q hq
      have hq2 : q ∈ s1.db.issues := hq
      rw [hcb.2.1] at hq2
      show q.id < s1.db.nextId
      rw [hcb.2.2.1]
      exact hib q hq2
    split at h
    · cases h
      exact ⟨[], by rw [List.append_nil]; exact hcb.2.2.2⟩
    next vfile hv =>
      split at h
      · cases h
        exact ⟨[], by rw [List.append_nil]; exact hcb.2.2.2⟩
      next doc hparse =>
        split at h
        next s3 e3 hR =>
          cases h
          have g3 := loadReels_grow2 hR
          exact ⟨[], by rw [List.append_nil]; exact (g3.events).trans hcb.2.2.2⟩
        next s3 u3 hR =>
          have g3 := loadReels_grow2 hR
          split at h
          next s4 e4 hI =>
            cases h
            have g4 :=
              loadIssues_grow2 hI g3.curB (batchGrow_pagesBound g3 hpb2) (batchGrow_issuesBound g3 hib2)
            exact ⟨[], by
              rw [List.append_nil]
              exact (g4.events.trans g3.events).trans hcb.2.2.2⟩
          next s4 u4 hI =>
            cases h
            have g4 :=
              loadIssues_grow2 hI g3.curB (batchGrow_pagesBound g3 hpb2) (batchGrow_issuesBound g3 hib2)
            have h5 : (if cfg.processOcr = true then s4.pushOp .solrCommit else s4).db = s4.db := by
              split <;> rfl
            have hev : ((if cfg.processOcr = true then s4.pushOp .solrCommit else s4).saveBatchRec batch0).db.events
                = sE.db.events := by
              rw [saveBatchRec_events, congrArg DB.events h5]
              exact (g4.events.trans g3.events).trans hcb.2.2.2
            exact ⟨_, congrArg (fun l => l ++ [({ batchName := name, message := "processed " ++ natToStr ((if cfg.processOcr = true then s4.pushOp Op.solrCommit else s4).saveBatchRec batch0).issuesProcessed ++ " issues" } : EventRec)]) hev⟩

/-- C8 (amended): a purge attempt always writes exactly the starting-purge
event plus one outcome event; a load attempt that passes name validation
and is not the no-op fast path writes the starting-load event plus an
outcome tail, success or failure; purging a non-existent batch name writes
the failure event and surfaces the wrapped purge error rather than the raw
store lookup failure.  (An invalid name, rejected before any event, and
the fast path write no event at all.) -/
theorem audit_event_policy :
    (∀ (cfg : Cfg) (bn : String) (s : S),
      ∃ m, (purge_batch cfg bn s).1.db.events
        = s.db.events ++ [{ batchName := bn, message := "starting purge" },
            { batchName := bn, message := m }]) ∧
    (∀ (cfg : Cfg) (env : Env) (nm name : String) (strict : Bool) (s : S),
      pagesBound s → issuesBound s →
      normalize_batch_name nm = .ok name →
      (if strict then none else s.db.batches.find? (fun b2 => b2.name == name)) = none →
      ∃ tail, (load_batch cfg env nm strict s).1.db.events
        = s.db.events ++ ({ batchName := name, message := "starting load" } :: tail)) ∧
    (∀ (cfg : Cfg) (bn : String) (s : S),
      s.db.batches.find? (fun b2 => b2.name == bn) = none →
      purge_batch cfg bn s =
        ((s.pushEvent bn "starting purge").pushEvent bn
            ("purge failed: " ++ (PyErr.doesNotExist "Batch").pymsg),
          .error (.batchLoaderErr ("purge failed: " ++ (PyErr.doesNotExist "Batch").pymsg)))) := by
  refine ⟨?_, ?_, ?_⟩
  · intro cfg bn s
    unfold purge_batch
    dsimp only
    rcases hf : (s.pushEvent bn "starting purge").db.batches.find? (fun b2 => b2.name == bn) with _ | batch
    · rw [hf]
      refine ⟨"purge failed: " ++ (PyErr.doesNotExist "Batch").pymsg, ?_⟩
      show (s.db.events ++ [({ batchName := bn, message := "starting purge" } : EventRec)]) ++ _ = _
      simp
    · rw [hf]
      dsimp only
      rcases hi : purge_batch_impl cfg batch (s.pushEvent bn "starting purge") with ⟨sI, rI⟩
      have hIe := purge_batch_impl_events cfg batch (s.pushEvent bn "starting purge")
      rw [hi] at hIe
      cases rI with
      | ok u =>
        refine ⟨"purged", ?_⟩
        show sI.db.events ++ _ = _
        rw [hIe]
        show (s.db.events ++ [({ batchName := bn, message := "starting purge" } : EventRec)]) ++ _ = _
        simp
      | error e =>
        refine ⟨"purge failed: " ++ e.pymsg, ?_⟩
        show sI.db.events ++ _ = _
        rw [hIe]
        show (s.db.events ++ [({ batchName := bn, message := "starting purge" } : EventRec)]) ++ _ = _
        simp
  · intro cfg env nm name strict s hpb hib hnorm hfind
    unfold load_batch
    rw [hnorm]
    dsimp only
    rw [hfind]
    dsimp only
    rcases hb : loadBatchBody cfg env name (s.pushEvent name "starting load") with ⟨sB, rB⟩
    have hpbE : pagesBound (s.pushEvent name "starting load") := hpb
    have hibE : issuesBound (s.pushEvent name "starting load") := hib
    obtain ⟨tail, hev⟩ := loadBatchBody_events hpbE hibE hb
    have hev2 : sB.db.events
        = (s.db.events ++ [({ batchName := name, message := "starting load" } : EventRec)]) ++ tail := hev
    cases rB with
    | ok b2 =>
      refine ⟨tail, ?_⟩
      show sB.db.events = _
      rw [hev2, List.append_assoc, List.singleton_append]
    | error e =>
      refine ⟨tail ++ [({ batchName := name, message := "unable to load batch: " ++ e.pymsg } : EventRec)], ?_⟩
      show sB.db.events ++ _ = _
      rw [hev2]
      simp
  · intro cfg bn s hfind
    unfold purge_batch
    dsimp only
    rw [show (s.pushEvent bn "starting purge").db.batches.find? (fun b2 => b2.name == bn)
      = none from hfind]

/-- C8 counterexample: a load attempt with an invalid batch name is
rejected by the normalizer before any event is written (the store, events
included, is returned unchanged), and the no-op fast path also writes no
event — refuting that every load attempt appends an audit event. -/
theorem invalid_name_no_event :
    load_batch wCfg wEnv "nope" false wS0 =
      (wS0, .error (.batchLoaderErr "unrecognized format for batch name nope")) ∧
    wS0.db.events = [] ∧
    load_batch wCfg wEnv wName false wS0b = (wS0b, .ok wB) ∧
    wS0b.db.events = [] :=
  ⟨rfl, rfl, rfl, rfl⟩

/-- C8 witness: a purge writes its two events, a real load writes the
starting event, and purging a missing batch fails with the wrapped error
and failure event. -/
theorem audit_event_policy_witness :
    (∃ m, (purge_batch wCfg "nb" wS0).1.db.events
      = wS0.db.events ++ [{ batchName := "nb", message := "starting purge" },
          { batchName := "nb", message := m }]) ∧
    (∃ tail, (load_batch wCfg wEnv wName false wS0).1.db.events
      = wS0.db.events ++ ({ batchName := "batch_abc_test_ver01", message := "starting load" } :: tail)) ∧
    purge_batch wCfg "nb" wS0 =
      ((wS0.pushEvent "nb" "starting purge").pushEvent "nb"
          ("purge failed: " ++ (PyErr.doesNotExist "Batch").pymsg),
        .error (.batchLoaderErr ("purge failed: " ++ (PyErr.doesNotExist "Batch").pymsg))) :=
  ⟨audit_event_policy.1 wCfg "nb" wS0,
    audit_event_policy.2.1 wCfg wEnv wName "batch_abc_test_ver01" false wS0
      (by unfold pagesBound; decide) (by unfold issuesBound; decide) rfl rfl,
    audit_event_policy.2.2 wCfg "nb" wS0 rfl⟩
